import Mathlib

/-!
# CrossClues room and game state machine

A shallow embedding of `game.go` and `schema.go`: the room registry, the room methods
(`GetCardsPerPlayer`, `DrawCard`, `RemoveCardFromHand`, `CheckGameOver`, `HasPlayer`,
`HasCard`) and the operations `CreateRoom`, `JoinRoom`, `LeaveRoom`, `StartGame`,
`SubmitGuess`.

Modelling conventions.
* Go `int` values that a caller chooses (grid size, row, column) are `Int`; lengths and
  counts are `Nat`.
* A Go map is an association list with one entry per key (`mapGet`, `mapSet`, `mapDelete`).
  The registry `rooms` maps room codes to rooms; a pointer update of a room is `mapSet`.
* Every operation returns the registry it leaves behind together with the values the Go
  function returns; a nil error is `none`.
* A run-time panic (index out of range, negative length) is the outer `none` of an
  operation returning `Option`.
* `rand.Shuffle` is a parameter of the operations that shuffle: a function on lists, which
  the reachability relation requires to return a permutation of its argument.
* Locks are not modelled: every operation runs atomically.
-/

namespace CrossClues

/-! ## Data model (`schema.go`) -/

/-- Card of `schema.go`: the coordinate of one grid cell. -/
structure Card where
  Row : Int
  Column : Int
deriving DecidableEq

/-- Cell of `schema.go`; an empty `DiscardedBy` means that nobody discarded the cell. -/
structure Cell where
  GuessedCorrectly : Bool
  DiscardedBy : String
deriving DecidableEq

/-- Room of `schema.go` (without the mutex), with a made map `PlayerHands`, as in every room
built by `CreateRoom`; `RoomValue` below is a room value whose map may be nil. -/
structure Room where
  RoomCode : String
  GridSize : Int
  Players : List String
  GameStarted : Bool
  GameOver : Bool
  RowWords : List String
  ColumnWords : List String
  Grid : List (List Cell)
  CardDeck : List Card
  PlayerHands : List (String × List Card)
deriving DecidableEq

/-- The error values declared in `game.go`. -/
inductive GameError where
  | ErrRoomNotFound
  | ErrRoomExists
  | ErrPlayerExists
  | ErrPlayerNotFound
  | ErrGameNotStarted
  | ErrGameOver
  | ErrNotEnoughPlayers
  | ErrNoCard
deriving DecidableEq

/-- The package-level map `rooms`. -/
abbrev Registry := List (String × Room)

/-! ## Go maps -/

/-- Map lookup `m[k]` with the presence flag. -/
def mapGet {β : Type} : List (String × β) → String → Option β
  | [], _ => none
  | (k1, v) :: m, k => if k1 = k then some v else mapGet m k

/-- Map assignment `m[k] = v`: replaces the entry of `k`, or adds one. -/
def mapSet {β : Type} : List (String × β) → String → β → List (String × β)
  | [], k, v => [(k, v)]
  | (k1, v1) :: m, k, v => if k1 = k then (k, v) :: m else (k1, v1) :: mapSet m k v

/-- Map deletion `delete(m, k)`. -/
def mapDelete {β : Type} : List (String × β) → String → List (String × β)
  | [], _ => []
  | (k1, v1) :: m, k => if k1 = k then mapDelete m k else (k1, v1) :: mapDelete m k

/-- Slice assignment `xs[i] = v`; `none` when the index is out of range. -/
def setAt {α : Type} (xs : List α) (i : Nat) (v : α) : Option (List α) :=
  if i < xs.length then some (xs.set i v) else none

/-! ## Word catalog and deck -/

/-- The word catalog `wordList` of `game.go`, in source order. -/
def wordList : List String :=
  ["DISEASE", "OLD", "SNAIL", "VACATION", "BICYCLE", "AIR", "GREEN", "SANDWICH", "VASE",
   "TEACHER", "COSTUME", "LIGHT", "WOLF", "YELLOW", "SUGAR", "RAT", "PEN", "HELICOPTER",
   "WOOD", "BOOK", "BUS", "FIRE", "BLUE", "RED", "PALM TREE", "RUBBER BAND", "YOUNG", "SMALL",
   "BOX", "COUCH", "OCTOPUS", "SHOVEL", "WAR", "TREASURE", "GOAT", "ORANGE", "PLANET", "CANE",
   "WHEAT", "WHITE", "ANGER", "SNAKE", "COLD", "MEAN", "STRAWBERRY", "DESERT", "CHILD",
   "SPACESHIP", "ARROW", "GREY", "TRAILER", "AIRPLANE", "HOUSE", "LENTILS", "COOK", "SOLDIER",
   "BUTTER", "AVOCADO", "JUNGLE", "FOUNTAIN", "DUCK", "CAMEL", "CAT", "SPRING", "ARROW",
   "SECURITY", "BOAT", "DIAMOND", "HERO", "PAPER", "RED", "EARTH", "JOY", "BABY BOTTLE", "DAY",
   "HEAVY", "BLACK", "SALAD", "EYE", "WATER", "HEAD", "CHEESE", "CASTLE", "AIRPORT",
   "MOUNTAIN", "BEACH", "CAMERA", "CAULIFLOWER", "TRAIN", "TOMATO", "WINTER", "SCHOOL", "SNOW",
   "PEAR", "ANKLE", "MOUTH", "SUMMER", "SURPRISE", "PRESIDENT", "MAP", "SOAP", "PAINTING",
   "EAR", "HORSE", "PEAK", "DOCTOR", "OCEAN", "JAIL", "TRAVEL", "VETERINARIAN", "SMART",
   "HISTORY", "DISGUST", "SUITCASE", "QUEEN", "FAST", "DRAGON", "DINOSAUR", "UNICORN", "PIANO",
   "SLOW", "FIREFIGHTER", "GUITAR", "TOY", "ARM", "DETECTIVE", "ENEMY", "KNIGHT", "FOOT",
   "HELMET", "BROWN", "SPIDER", "CHICKEN", "GLASSES", "NURSE", "PIRATE", "FISH", "PIGEON",
   "HONEY", "PIG", "STONE", "CAPE", "HAPPINESS", "CAKE", "MEAL", "WEIRD", "ICE", "DOG",
   "FRENCH FRIES", "SADNESS", "SHIRT", "TALL", "MONKEY", "FEAR", "BALL", "MUSHROOM", "MOON",
   "MARS", "RING", "PLATE", "SHARK", "LAPTOP", "CIRCUS", "CHOCOLATE", "ROBOT", "DESSERT",
   "FRIENDS", "KING", "COW", "BAG", "LIGHT BULB", "WARDROBE", "BEAR", "MUSTACHE", "NIGHT",
   "NATION", "MAN", "WOMAN", "WIND", "NICE", "HOLE", "PARACHUTE", "LEG", "BANANA", "CHEST",
   "HAT", "UGLY", "TIME", "HOT", "PRETTY", "PINK", "RADISH", "ZOO", "MOTORCYCLE", "ROAD",
   "GROUP", "LETTER", "AUTUMN"]

/-- The function `shuffleWords`: a shuffled copy of the catalog. -/
def shuffleWords (shuffle : List String → List String) : List String :=
  shuffle wordList

/-- The coordinates `(row, col)` visited by the nested loops
`for row := 0; row < n; row++ { for col := 0; col < n; col++ { ... } }`, in visiting order. -/
def gridCoords (n : Nat) : List (Nat × Nat) :=
  (List.range n).flatMap fun row => (List.range n).map fun col => (row, col)

/-- The function `createCardDeck`: one card per cell in row-major order, then shuffled.
A negative grid size runs no loop iteration. -/
def createCardDeck (shuffle : List Card → List Card) (gridSize : Int) : List Card :=
  shuffle ((gridCoords gridSize.toNat).map fun rc => Card.mk (rc.1 : Int) (rc.2 : Int))

/-! ## Room methods -/

/-- The value `r.PlayerHands[playerName]`; a missing key reads as the empty (nil) slice. -/
def Room.hand (r : Room) (playerName : String) : List Card :=
  (mapGet r.PlayerHands playerName).getD []

/-- The values of a map of hands, concatenated in entry order. -/
def mapValues (m : List (String × List Card)) : List Card :=
  (m.map Prod.snd).flatten

/-- Every card held in some hand of the map `PlayerHands`. -/
def Room.allHands (r : Room) : List Card :=
  mapValues r.PlayerHands

/-- The cards in circulation: the deck followed by all hands. -/
def Room.circulation (r : Room) : List Card :=
  r.CardDeck ++ r.allHands

/-- The assignment `r.PlayerHands[playerName] = hand`. -/
def Room.setHand (r : Room) (playerName : String) (hand : List Card) : Room :=
  { r with PlayerHands := mapSet r.PlayerHands playerName hand }

/-- The method `GetCardsPerPlayer`. -/
def Room.GetCardsPerPlayer (r : Room) : Nat :=
  if r.Players.length ≤ 3 then 2 else 1

/-- The method `DrawCard`: the room afterwards and the returned flag. -/
def Room.DrawCard (r : Room) (playerName : String) : Room × Bool :=
  let maxCards := r.GetCardsPerPlayer
  match r.CardDeck with
  | card :: rest =>
    if (r.hand playerName).length < maxCards then
      (Room.setHand { r with CardDeck := rest } playerName (r.hand playerName ++ [card]), true)
    else (r, false)
  | [] => (r, false)

/-- The index of the first card of `hand` equal to `(row, col)`, as found by the loops of
`RemoveCardFromHand` and `HasCard`. -/
def firstCardIdx (row col : Int) : List Card → Option Nat
  | [] => none
  | card :: rest =>
    if card.Row = row ∧ card.Column = col then some 0
    else (firstCardIdx row col rest).map (· + 1)

/-- The method `RemoveCardFromHand`: the room afterwards and the returned flag.
The new hand is `append(hand[:i], hand[i+1:]...)` for the first matching index `i`. -/
def Room.RemoveCardFromHand (r : Room) (playerName : String) (row col : Int) : Room × Bool :=
  let hand := r.hand playerName
  match firstCardIdx row col hand with
  | some i =>
    (r.setHand playerName (hand.take i ++ hand.drop (i + 1)), true)
  | none => (r, false)

/-- The cell `grid[row][col]`; `none` when an index is out of range. -/
def cellAt (grid : List (List Cell)) (row col : Nat) : Option Cell :=
  match grid[row]? with
  | some cells => cells[col]?
  | none => none

/-- The assignment `grid[row][col] = cell`; `none` when an index is out of range. -/
def setCell (grid : List (List Cell)) (row col : Nat) (cell : Cell) : Option (List (List Cell)) :=
  match grid[row]? with
  | some cells =>
    match setAt cells col cell with
    | some cells1 => setAt grid row cells1
    | none => none
  | none => none

/-- The body of `CheckGameOver` over the cells still to visit: `some false` at the first
unresolved cell, `none` when a cell is missing from the grid. -/
def checkCells (grid : List (List Cell)) : List (Nat × Nat) → Option Bool
  | [] => some true
  | (row, col) :: rest =>
    match cellAt grid row col with
    | none => none
    | some cell =>
      if !cell.GuessedCorrectly && cell.DiscardedBy == "" then some false
      else checkCells grid rest

/-- The method `CheckGameOver`. -/
def Room.CheckGameOver (r : Room) : Option Bool :=
  checkCells r.Grid (gridCoords r.GridSize.toNat)

/-- The method `HasPlayer`. -/
def Room.HasPlayer (r : Room) (playerName : String) : Bool :=
  r.Players.any fun player => player == playerName

/-- The method `HasCard`. -/
def Room.HasCard (r : Room) (playerName : String) (row col : Int) : Bool :=
  (r.hand playerName).any fun card => decide (card.Row = row ∧ card.Column = col)

/-! ## Loops of the game logic -/

/-- The loop `rowWords[i] = words[i]; columnWords[i] = words[i+gridSize]` over the indices
still to visit; `none` when an index is out of range. -/
def assignWords (words : List String) (gridSize : Nat) :
    List Nat → List String × List String → Option (List String × List String)
  | [], rc => some rc
  | i :: rest, (rowWords, columnWords) =>
    match words[i]?, words[i + gridSize]? with
    | some w, some w1 =>
      match setAt rowWords i w, setAt columnWords i w1 with
      | some rowWords1, some columnWords1 =>
        assignWords words gridSize rest (rowWords1, columnWords1)
      | _, _ => none
    | _, _ => none

/-- The grid-reset loop of `StartGame` over the cells still to visit. -/
def resetGrid (grid : List (List Cell)) : List (Nat × Nat) → Option (List (List Cell))
  | [] => some grid
  | (row, col) :: rest =>
    match setCell grid row col (Cell.mk false "") with
    | some grid1 => resetGrid grid1 rest
    | none => none

/-- The fresh grid built by `CreateRoom`: `gridSize` rows of `gridSize` unresolved cells. -/
def newGrid (n : Nat) : List (List Cell) :=
  (List.range n).map fun _ => (List.range n).map fun _ => Cell.mk false ""

/-- The dealing loop of `JoinRoom`: `count` calls of `DrawCard`, counting the successes. -/
def dealCount (r : Room) (playerName : String) : Nat → Room × Nat
  | 0 => (r, 0)
  | count + 1 =>
    let drawn := r.DrawCard playerName
    let later := dealCount drawn.1 playerName count
    (later.1, if drawn.2 then later.2 + 1 else later.2)

/-- The inner dealing loop of `StartGame`: `count` calls of `DrawCard`. -/
def drawN (r : Room) (playerName : String) : Nat → Room
  | 0 => r
  | count + 1 => drawN (r.DrawCard playerName).1 playerName count

/-- The outer dealing loop of `StartGame` over the players still to visit: each hand is
emptied and then dealt `GetCardsPerPlayer()` cards. -/
def dealAll (r : Room) : List String → Room
  | [] => r
  | player :: rest =>
    let r1 := r.setHand player []
    dealAll (drawN r1 player r1.GetCardsPerPlayer) rest

/-- The grid update of `SubmitGuess` at `(row, col)`; `none` when an index is out of range. -/
def resolveCell (grid : List (List Cell)) (row col : Int) (playerName : String)
    (correct : Bool) : Option (List (List Cell)) :=
  if row < 0 ∨ col < 0 then none
  else
    match cellAt grid row.toNat col.toNat with
    | some cell =>
      setCell grid row.toNat col.toNat
        (if correct then { cell with GuessedCorrectly := true }
         else { cell with DiscardedBy := playerName })
    | none => none

/-! ## Game logic functions -/

/-- The function `CreateRoom`: the registry afterwards, the returned room and the error.
The outer `none` is a panic: a negative `gridSize` in `make`, or a catalog shorter than
`2 * gridSize` words. -/
def CreateRoom (shuffleW : List String → List String) (shuffleC : List Card → List Card)
    (rooms : Registry) (roomCode : String) (gridSize : Int) (playerName : String) :
    Option (Registry × Option Room × Option GameError) :=
  if (mapGet rooms roomCode).isSome then some (rooms, none, some GameError.ErrRoomExists)
  else
    let words := shuffleWords shuffleW
    if gridSize < 0 then none
    else
      let n := gridSize.toNat
      match assignWords words n (List.range n) (List.replicate n "", List.replicate n "") with
      | none => none
      | some (rowWords, columnWords) =>
        let room : Room :=
          { RoomCode := roomCode
            GridSize := gridSize
            Players := [playerName]
            GameStarted := false
            GameOver := false
            RowWords := rowWords
            ColumnWords := columnWords
            Grid := newGrid n
            CardDeck := createCardDeck shuffleC gridSize
            PlayerHands := [] }
        let room1 := room.setHand playerName []
        let room2 := (room1.DrawCard playerName).1
        let room3 := (room2.DrawCard playerName).1
        some (mapSet rooms roomCode room3, some room3, none)

/-- The function `JoinRoom`: the registry afterwards, `cardsDealt` and the error. -/
def JoinRoom (rooms : Registry) (roomCode playerName : String) :
    Registry × Nat × Option GameError :=
  match mapGet rooms roomCode with
  | none => (rooms, 0, some GameError.ErrRoomNotFound)
  | some room =>
    if room.HasPlayer playerName then (rooms, 0, some GameError.ErrPlayerExists)
    else
      let room1 := Room.setHand { room with Players := room.Players ++ [playerName] } playerName []
      let dealt := dealCount room1 playerName room1.GetCardsPerPlayer
      (mapSet rooms roomCode dealt.1, dealt.2, none)

/-- The function `LeaveRoom`: the registry afterwards and the error. The loop with `break`
removes the first occurrence of the name, which is `List.erase`. -/
def LeaveRoom (rooms : Registry) (roomCode playerName : String) :
    Registry × Option GameError :=
  match mapGet rooms roomCode with
  | none => (rooms, some GameError.ErrRoomNotFound)
  | some room =>
    if !room.HasPlayer playerName then (rooms, some GameError.ErrPlayerNotFound)
    else
      let room1 : Room := { room with Players := room.Players.erase playerName }
      let room2 : Room :=
        match mapGet room1.PlayerHands playerName with
        | some cards =>
          { room1 with
              CardDeck := room1.CardDeck ++ cards
              PlayerHands := mapDelete room1.PlayerHands playerName }
        | none => room1
      (mapSet rooms roomCode room2, none)

/-- The function `StartGame`: the registry afterwards and the error. The outer `none` is a
panic (an index out of range in the word or grid loops). -/
def StartGame (shuffleW : List String → List String) (shuffleC : List Card → List Card)
    (rooms : Registry) (roomCode : String) : Option (Registry × Option GameError) :=
  match mapGet rooms roomCode with
  | none => some (rooms, some GameError.ErrRoomNotFound)
  | some room =>
    if room.Players.length < 2 then some (rooms, some GameError.ErrNotEnoughPlayers)
    else
      let words := shuffleWords shuffleW
      let n := room.GridSize.toNat
      match assignWords words n (List.range n) (room.RowWords, room.ColumnWords) with
      | none => none
      | some (rowWords, columnWords) =>
        match resetGrid room.Grid (gridCoords n) with
        | none => none
        | some grid =>
          let room1 : Room :=
            { room with
                RowWords := rowWords
                ColumnWords := columnWords
                Grid := grid
                CardDeck := createCardDeck shuffleC room.GridSize }
          let room2 := dealAll room1 room1.Players
          some (mapSet rooms roomCode { room2 with GameStarted := true, GameOver := false },
            none)

/-- The function `SubmitGuess`: the registry afterwards, `gameOver` and the error. The outer
`none` is a panic (a grid index out of range). -/
def SubmitGuess (rooms : Registry) (roomCode playerName : String) (row col : Int)
    (correct : Bool) : Option (Registry × Bool × Option GameError) :=
  match mapGet rooms roomCode with
  | none => some (rooms, false, some GameError.ErrRoomNotFound)
  | some room =>
    if !room.GameStarted then some (rooms, false, some GameError.ErrGameNotStarted)
    else if room.GameOver then some (rooms, false, some GameError.ErrGameOver)
    else if !room.HasPlayer playerName then some (rooms, false, some GameError.ErrPlayerNotFound)
    else if !room.HasCard playerName row col then some (rooms, false, some GameError.ErrNoCard)
    else
      let room1 := (room.RemoveCardFromHand playerName row col).1
      match resolveCell room1.Grid row col playerName correct with
      | none => none
      | some grid =>
        let room2 : Room := { room1 with Grid := grid }
        let room3 := (room2.DrawCard playerName).1
        match room3.CheckGameOver with
        | none => none
        | some over => some (mapSet rooms roomCode { room3 with GameOver := over }, over, none)

/-! ## Notions used in the statements -/

/-- A cell counts as resolved when it was guessed correctly or somebody discarded it. -/
def Cell.Resolved (cell : Cell) : Prop :=
  cell.GuessedCorrectly = true ∨ cell.DiscardedBy ≠ ""

/-- The cell of the room at integer coordinates; `none` outside the grid. -/
def Room.cell (r : Room) (row col : Int) : Option Cell :=
  if row < 0 ∨ col < 0 then none else cellAt r.Grid row.toNat col.toNat

/-- The error `SubmitGuess` has to select according to the specification: the first check
that fails, in the order room, started, over, player, card. -/
def submitGuessError (rooms : Registry) (roomCode playerName : String) (row col : Int) :
    Option GameError :=
  match mapGet rooms roomCode with
  | none => some GameError.ErrRoomNotFound
  | some room =>
    if room.GameStarted = false then some GameError.ErrGameNotStarted
    else if room.GameOver = true then some GameError.ErrGameOver
    else if playerName ∉ room.Players then some GameError.ErrPlayerNotFound
    else if Card.mk row col ∉ room.hand playerName then some GameError.ErrNoCard
    else none

/-- The room that a `SubmitGuess` passing its checks leaves behind, given the updated grid
and the game-over flag: the card removed from the hand, the grid replaced, one replacement
card drawn, the flag stored. -/
def guessRoom (room : Room) (playerName : String) (row col : Int) (grid : List (List Cell))
    (over : Bool) : Room :=
  { (Room.DrawCard
      { room.setHand playerName ((room.hand playerName).erase (Card.mk row col)) with
        Grid := grid } playerName).1 with GameOver := over }

/-! ## Reachable registries -/

/-- The contract of `rand.Shuffle`: the result is a permutation of the argument. -/
def IsShuffle {α : Type} (shuffle : List α → List α) : Prop :=
  ∀ l, (shuffle l).Perm l

/-- The registries reachable from the empty one through calls of `CreateRoom`, `JoinRoom`,
`LeaveRoom`, `StartGame` and `SubmitGuess` that return (with or without an error). -/
inductive Reachable : Registry → Prop where
  | empty : Reachable []
  | createRoom {rooms rooms1 : Registry} {res : Option Room × Option GameError}
      (shuffleW : List String → List String) (shuffleC : List Card → List Card)
      (roomCode : String) (gridSize : Int) (playerName : String) :
      Reachable rooms → IsShuffle shuffleW → IsShuffle shuffleC →
      CreateRoom shuffleW shuffleC rooms roomCode gridSize playerName = some (rooms1, res) →
      Reachable rooms1
  | joinRoom {rooms : Registry} (roomCode playerName : String) :
      Reachable rooms → Reachable (JoinRoom rooms roomCode playerName).1
  | leaveRoom {rooms : Registry} (roomCode playerName : String) :
      Reachable rooms → Reachable (LeaveRoom rooms roomCode playerName).1
  | startGame {rooms rooms1 : Registry} {err : Option GameError}
      (shuffleW : List String → List String) (shuffleC : List Card → List Card)
      (roomCode : String) :
      Reachable rooms → IsShuffle shuffleW → IsShuffle shuffleC →
      StartGame shuffleW shuffleC rooms roomCode = some (rooms1, err) →
      Reachable rooms1
  | submitGuess {rooms rooms1 : Registry} {res : Bool × Option GameError}
      (roomCode playerName : String) (row col : Int) (correct : Bool) :
      Reachable rooms →
      SubmitGuess rooms roomCode playerName row col correct = some (rooms1, res) →
      Reachable rooms1

/-- The registries reachable as in `Reachable`, together with the cards played in each room
since its last deal: a successful `CreateRoom` or `StartGame` empties the record of its room
and a successful `SubmitGuess` adds the guessed coordinate. The record constrains nothing. -/
inductive ReachablePlayed : Registry → (String → List Card) → Prop where
  | empty : ReachablePlayed [] (fun _ => [])
  | createRoom {rooms rooms1 : Registry} {played : String → List Card}
      {res : Option Room × Option GameError}
      (shuffleW : List String → List String) (shuffleC : List Card → List Card)
      (roomCode : String) (gridSize : Int) (playerName : String) :
      ReachablePlayed rooms played → IsShuffle shuffleW → IsShuffle shuffleC →
      CreateRoom shuffleW shuffleC rooms roomCode gridSize playerName = some (rooms1, res) →
      ReachablePlayed rooms1 (if res.2 = none then Function.update played roomCode [] else played)
  | joinRoom {rooms : Registry} {played : String → List Card} (roomCode playerName : String) :
      ReachablePlayed rooms played →
      ReachablePlayed (JoinRoom rooms roomCode playerName).1 played
  | leaveRoom {rooms : Registry} {played : String → List Card} (roomCode playerName : String) :
      ReachablePlayed rooms played →
      ReachablePlayed (LeaveRoom rooms roomCode playerName).1 played
  | startGame {rooms rooms1 : Registry} {played : String → List Card} {err : Option GameError}
      (shuffleW : List String → List String) (shuffleC : List Card → List Card)
      (roomCode : String) :
      ReachablePlayed rooms played → IsShuffle shuffleW → IsShuffle shuffleC →
      StartGame shuffleW shuffleC rooms roomCode = some (rooms1, err) →
      ReachablePlayed rooms1 (if err = none then Function.update played roomCode [] else played)
  | submitGuess {rooms rooms1 : Registry} {played : String → List Card}
      {res : Bool × Option GameError}
      (roomCode playerName : String) (row col : Int) (correct : Bool) :
      ReachablePlayed rooms played →
      SubmitGuess rooms roomCode playerName row col correct = some (rooms1, res) →
      ReachablePlayed rooms1
        (if res.2 = none then
          Function.update played roomCode (Card.mk row col :: played roomCode)
         else played)

/-- The registries reachable from `rooms` through calls that return, none of them a
`StartGame` of the room `code`. -/
inductive ReachableWithoutStart (code : String) (rooms : Registry) : Registry → Prop where
  | refl : ReachableWithoutStart code rooms rooms
  | createRoom {rooms1 rooms2 : Registry} {res : Option Room × Option GameError}
      (shuffleW : List String → List String) (shuffleC : List Card → List Card)
      (roomCode : String) (gridSize : Int) (playerName : String) :
      ReachableWithoutStart code rooms rooms1 →
      CreateRoom shuffleW shuffleC rooms1 roomCode gridSize playerName = some (rooms2, res) →
      ReachableWithoutStart code rooms rooms2
  | joinRoom {rooms1 : Registry} (roomCode playerName : String) :
      ReachableWithoutStart code rooms rooms1 →
      ReachableWithoutStart code rooms (JoinRoom rooms1 roomCode playerName).1
  | leaveRoom {rooms1 : Registry} (roomCode playerName : String) :
      ReachableWithoutStart code rooms rooms1 →
      ReachableWithoutStart code rooms (LeaveRoom rooms1 roomCode playerName).1
  | startGame {rooms1 rooms2 : Registry} {err : Option GameError}
      (shuffleW : List String → List String) (shuffleC : List Card → List Card)
      (roomCode : String) :
      roomCode ≠ code → ReachableWithoutStart code rooms rooms1 →
      StartGame shuffleW shuffleC rooms1 roomCode = some (rooms2, err) →
      ReachableWithoutStart code rooms rooms2
  | submitGuess {rooms1 rooms2 : Registry} {res : Bool × Option GameError}
      (roomCode playerName : String) (row col : Int) (correct : Bool) :
      ReachableWithoutStart code rooms rooms1 →
      SubmitGuess rooms1 roomCode playerName row col correct = some (rooms2, res) →
      ReachableWithoutStart code rooms rooms2

/-- The room `code` exists, is started and is over. -/
def IsOver (rooms : Registry) (code : String) : Prop :=
  ∃ room, mapGet rooms code = some room ∧ room.GameStarted = true ∧ room.GameOver = true

/-! ## Invariants -/

/-- The unshuffled deck of a grid: every coordinate once, in row-major order. -/
def allCards (gridSize : Int) : List Card :=
  createCardDeck id gridSize

/-- The fields of a room that the card methods leave alone agree in `r` and `r1`. -/
structure SameFrame (r r1 : Room) : Prop where
  roomCode : r1.RoomCode = r.RoomCode
  gridSize : r1.GridSize = r.GridSize
  players : r1.Players = r.Players
  gameStarted : r1.GameStarted = r.GameStarted
  gameOver : r1.GameOver = r.GameOver
  rowWords : r1.RowWords = r.RowWords
  columnWords : r1.ColumnWords = r.ColumnWords
  grid : r1.Grid = r.Grid

/-- The grid has `n` rows of `n` cells. -/
def GridDims (grid : List (List Cell)) (n : Nat) : Prop :=
  grid.length = n ∧ ∀ cells ∈ grid, cells.length = n

/-- The invariant of a room of a reachable registry, `played` being the cards played in the
room since its last deal. -/
structure RoomInv (r : Room) (played : List Card) : Prop where
  keys : r.PlayerHands.map Prod.fst = r.Players
  nodup : r.Players.Nodup
  cards : (r.circulation ++ played).Perm (allCards r.GridSize)
  grid : GridDims r.Grid r.GridSize.toNat
  handCap : ∀ p, (r.hand p).length ≤ 2
  size : 0 ≤ r.GridSize
  catalog : 2 * r.GridSize.toNat ≤ wordList.length
  rowWords : r.RowWords.length = r.GridSize.toNat
  columnWords : r.ColumnWords.length = r.GridSize.toNat
  flags : r.GameOver = true → r.GameStarted = true

/-- Every room of the registry satisfies the room invariant. -/
def RegInv (rooms : Registry) (played : String → List Card) : Prop :=
  ∀ code room, mapGet rooms code = some room → RoomInv room (played code)

/-! ## Example runs

One room `"R1"` of grid size 3, with unshuffled words and deck: created by `"A"`, joined by
`"B"`, started, and a first guess of `"A"` on the card `(0, 0)`. -/

/-- After `CreateRoom("R1", 3, "A")`. -/
def exRooms0 : Registry :=
  match CreateRoom id id [] "R1" 3 "A" with
  | some out => out.1
  | none => []

/-- After `JoinRoom("R1", "B")`. -/
def exRooms1 : Registry :=
  (JoinRoom exRooms0 "R1" "B").1

/-- After `StartGame("R1")`. -/
def exRooms2 : Registry :=
  match StartGame id id exRooms1 "R1" with
  | some out => out.1
  | none => []

/-- After `SubmitGuess("R1", "A", 0, 0, true)`. -/
def exRooms3 : Registry :=
  match SubmitGuess exRooms2 "R1" "A" 0 0 true with
  | some out => out.1
  | none => []

/-- The cards played in the example run: `(0, 0)` in room `"R1"`. -/
def exPlayed : String → List Card :=
  Function.update
    (Function.update (Function.update (fun _ => []) "R1" []) "R1" []) "R1"
    [Card.mk 0 0]

/-- The room `"R1"` of a registry of the example run. -/
def exRoom (rooms : Registry) : Room :=
  match mapGet rooms "R1" with
  | some room => room
  | none =>
    { RoomCode := "", GridSize := 0, Players := [], GameStarted := false, GameOver := false,
      RowWords := [], ColumnWords := [], Grid := [], CardDeck := [], PlayerHands := [] }

/-- A 1-by-1 room `"R1"` created by `"A"`, joined by `"B"` and started. -/
def exOver2 : Registry :=
  match CreateRoom id id [] "R1" 1 "A" with
  | some out =>
    (match StartGame id id (JoinRoom out.1 "R1" "B").1 "R1" with
     | some out1 => out1.1
     | none => [])
  | none => []

/-- The 1-by-1 room after `SubmitGuess("R1", "A", 0, 0, true)`, which ends the game. -/
def exOver3 : Registry :=
  match SubmitGuess exOver2 "R1" "A" 0 0 true with
  | some out => out.1
  | none => []

/-- After `CreateRoom("R1", 5, "P1")`. -/
def exFour0 : Registry :=
  match CreateRoom id id [] "R1" 5 "P1" with
  | some out => out.1
  | none => []

/-- The 5-by-5 room `"R1"` after the joins of `"P2"`, `"P3"` and `"P4"`. -/
def exFour : Registry :=
  (JoinRoom (JoinRoom (JoinRoom exFour0 "R1" "P2").1 "R1" "P3").1 "R1" "P4").1

/-! ## The state query `GetGameState` -/

/-- CellResponse of `schema.go`: the view of a cell sent to one player. -/
structure CellResponse where
  GuessedCorrectly : Bool
  DiscardedByMe : Bool
deriving DecidableEq

/-- GameStateResponse of `schema.go`. -/
structure GameStateResponse where
  RoomCode : String
  GridSize : Int
  GameStarted : Bool
  GameOver : Bool
  CorrectGuesses : Int
  TotalCells : Int
  RowWords : List String
  ColumnWords : List String
  PlayerCards : List Card
  Grid : List (List CellResponse)
  Players : List String
deriving DecidableEq

/-- A loop that builds one slice element per index; `none` when a step panics. -/
def mapOpt {α β : Type} (f : α → Option β) : List α → Option (List β)
  | [] => some []
  | a :: rest =>
    match f a, mapOpt f rest with
    | some b, some bs => some (b :: bs)
    | _, _ => none

/-- The grid-building loops of `GetGameState`: cell `(row, col)` of the response copies
`GuessedCorrectly` and compares `DiscardedBy` with the name of the player; `none` when a cell
is missing from the grid. -/
def gridResponse (grid : List (List Cell)) (playerName : String) (n : Nat) :
    Option (List (List CellResponse)) :=
  mapOpt (fun row =>
    mapOpt (fun col =>
      match cellAt grid row col with
      | some cell =>
        some (CellResponse.mk cell.GuessedCorrectly (cell.DiscardedBy == playerName))
      | none => none) (List.range n)) (List.range n)

/-- The function `GetGameState`: the registry afterwards (it only reads), the response and
the error. The outer `none` is a panic: a negative `GridSize` in `make`, or a grid index out
of range. The fields `CorrectGuesses` and `TotalCells` are never assigned. -/
def GetGameState (rooms : Registry) (roomCode playerName : String) :
    Option (Registry × Option GameStateResponse × Option GameError) :=
  match mapGet rooms roomCode with
  | none => some (rooms, none, some GameError.ErrRoomNotFound)
  | some room =>
    if !room.HasPlayer playerName then some (rooms, none, some GameError.ErrPlayerNotFound)
    else if room.GridSize < 0 then none
    else
      match gridResponse room.Grid playerName room.GridSize.toNat with
      | none => none
      | some gridResponse =>
        let playerCards := room.hand playerName
        some (rooms,
          some
            { RoomCode := room.RoomCode
              GridSize := room.GridSize
              GameStarted := room.GameStarted
              GameOver := room.GameOver
              CorrectGuesses := 0
              TotalCells := 0
              RowWords := room.RowWords
              ColumnWords := room.ColumnWords
              PlayerCards := playerCards
              Grid := gridResponse
              Players := room.Players },
          none)

/-- The cell `(row, col)` of a response grid. -/
def responseAt (grid : List (List CellResponse)) (row col : Nat) : Option CellResponse :=
  match grid[row]? with
  | some cells => cells[col]?
  | none => none

/-- The room that `CreateRoom` builds, before the two cards of the first player are dealt. -/
def newRoom (roomCode : String) (gridSize : Int) (playerName : String)
    (rowWords columnWords : List String) (cardDeck : List Card) : Room :=
  Room.setHand
    { RoomCode := roomCode
      GridSize := gridSize
      Players := [playerName]
      GameStarted := false
      GameOver := false
      RowWords := rowWords
      ColumnWords := columnWords
      Grid := newGrid gridSize.toNat
      CardDeck := cardDeck
      PlayerHands := [] } playerName []

/-- The room that a successful `LeaveRoom` leaves behind: the player removed from the list,
the hand of the player appended to the deck and the map entry deleted. -/
def leftRoom (room : Room) (playerName : String) : Room :=
  match mapGet room.PlayerHands playerName with
  | some cards =>
    { room with
        Players := room.Players.erase playerName
        CardDeck := room.CardDeck ++ cards
        PlayerHands := mapDelete room.PlayerHands playerName }
  | none => { room with Players := room.Players.erase playerName }

/-! ## Notions for the cell and name invariants -/

/-- The cell invariant of a room of a reachable registry, `played` being the cards played in
the room since its last deal: a resolved cell is the cell of a played card, and no cell is
both guessed correctly and discarded. -/
def CellInv (r : Room) (played : List Card) : Prop :=
  ∀ (row col : Nat) (cell : Cell), cellAt r.Grid row col = some cell →
    (cell.Resolved → Card.mk (row : Int) (col : Int) ∈ played) ∧
    ¬ (cell.GuessedCorrectly = true ∧ cell.DiscardedBy ≠ "")

/-- The registries reachable, as in `ReachablePlayed`, through calls in which every player
name passed to `CreateRoom` and `JoinRoom` is non-empty. -/
inductive ReachableNamed : Registry → (String → List Card) → Prop where
  | empty : ReachableNamed [] (fun _ => [])
  | createRoom {rooms rooms1 : Registry} {played : String → List Card}
      {res : Option Room × Option GameError}
      (shuffleW : List String → List String) (shuffleC : List Card → List Card)
      (roomCode : String) (gridSize : Int) (playerName : String) :
      ReachableNamed rooms played → IsShuffle shuffleW → IsShuffle shuffleC →
      playerName ≠ "" →
      CreateRoom shuffleW shuffleC rooms roomCode gridSize playerName = some (rooms1, res) →
      ReachableNamed rooms1 (if res.2 = none then Function.update played roomCode [] else played)
  | joinRoom {rooms : Registry} {played : String → List Card} (roomCode playerName : String) :
      ReachableNamed rooms played → playerName ≠ "" →
      ReachableNamed (JoinRoom rooms roomCode playerName).1 played
  | leaveRoom {rooms : Registry} {played : String → List Card} (roomCode playerName : String) :
      ReachableNamed rooms played →
      ReachableNamed (LeaveRoom rooms roomCode playerName).1 played
  | startGame {rooms rooms1 : Registry} {played : String → List Card} {err : Option GameError}
      (shuffleW : List String → List String) (shuffleC : List Card → List Card)
      (roomCode : String) :
      ReachableNamed rooms played → IsShuffle shuffleW → IsShuffle shuffleC →
      StartGame shuffleW shuffleC rooms roomCode = some (rooms1, err) →
      ReachableNamed rooms1 (if err = none then Function.update played roomCode [] else played)
  | submitGuess {rooms rooms1 : Registry} {played : String → List Card}
      {res : Bool × Option GameError}
      (roomCode playerName : String) (row col : Int) (correct : Bool) :
      ReachableNamed rooms played →
      SubmitGuess rooms roomCode playerName row col correct = some (rooms1, res) →
      ReachableNamed rooms1
        (if res.2 = none then
          Function.update played roomCode (Card.mk row col :: played roomCode)
         else played)

/-- The invariant of a room reached with non-empty names only: no player has the empty
name, and the cell of every played card is resolved. -/
def OpenInv (r : Room) (played : List Card) : Prop :=
  "" ∉ r.Players ∧
  ∀ (row col : Nat) (cell : Cell), cellAt r.Grid row col = some cell →
    Card.mk (row : Int) (col : Int) ∈ played → cell.Resolved

/-- The card of room `code` is out of circulation: the room satisfies the room invariant
with a record of played cards that contains the card. -/
def IsPlayed (rooms : Registry) (code : String) (card : Card) : Prop :=
  ∃ room played, mapGet rooms code = some room ∧ RoomInv room played ∧ card ∈ played

/-! ## The create-room handler (`api.go`) and the constants of `schema.go` -/

/-- The constant `DefaultGridSize`. -/
def DefaultGridSize : Int := 5

/-- The constant `MinGridSize`. -/
def MinGridSize : Int := 3

/-- The constant `MaxGridSize`. -/
def MaxGridSize : Int := 5

/-- The grid-size step of `handleCreateRoom`: the size passed on to `CreateRoom`, or the
message of the 400 response. -/
def handleCreateRoomGridSize (requested : Int) : Except String Int :=
  let gridSize := if requested = 0 then DefaultGridSize else requested
  if gridSize < MinGridSize ∨ gridSize > MaxGridSize then
    Except.error "Grid size must be between 3 and 7"
  else Except.ok gridSize

/-! ## More example runs -/

/-- A shuffle of the catalog that puts its two entries `"RED"` first. -/
def redFirst (l : List String) : List String :=
  l.filter (fun w => w == "RED") ++ l.filter (fun w => !(w == "RED"))

/-- After `CreateRoom("R1", 3, "A")` with the shuffle `redFirst` of the words. -/
def exRed : Registry :=
  match CreateRoom redFirst id [] "R1" 3 "A" with
  | some out => out.1
  | none => []

/-- A 2-by-2 room `"R1"` created by the player with the empty name, joined by `"B"` and
started. -/
def exAnon2 : Registry :=
  match CreateRoom id id [] "R1" 2 "" with
  | some out =>
    (match StartGame id id (JoinRoom out.1 "R1" "B").1 "R1" with
     | some out1 => out1.1
     | none => [])
  | none => []

/-- The 2-by-2 room after `SubmitGuess("R1", "", 0, 0, false)`. -/
def exAnon3 : Registry :=
  match SubmitGuess exAnon2 "R1" "" 0 0 false with
  | some out => out.1
  | none => []

/-- The 2-by-2 room after the player with the empty name has left. -/
def exAnon4 : Registry :=
  (LeaveRoom exAnon3 "R1" "").1

/-- A 1-by-1 room `"R1"` created by the player with the empty name, joined by `"B"` and
started. -/
def exLast2 : Registry :=
  match CreateRoom id id [] "R1" 1 "" with
  | some out =>
    (match StartGame id id (JoinRoom out.1 "R1" "B").1 "R1" with
     | some out1 => out1.1
     | none => [])
  | none => []

/-- The started example room after `SubmitGuess("R1", "A", 0, 0, false)`, a discard. -/
def exDiscard3 : Registry :=
  match SubmitGuess exRooms2 "R1" "A" 0 0 false with
  | some out => out.1
  | none => []

/-- After `CreateRoom("R1", 1, "A")`. -/
def exOver0 : Registry :=
  match CreateRoom id id [] "R1" 1 "A" with
  | some out => out.1
  | none => []


/-- After `CreateRoom("R1", 2, "")`, the creator having the empty name. -/
def exAnon0 : Registry :=
  match CreateRoom id id [] "R1" 2 "" with
  | some out => out.1
  | none => []

/-- After `CreateRoom("R1", 1, "")`, the creator having the empty name. -/
def exLast0 : Registry :=
  match CreateRoom id id [] "R1" 1 "" with
  | some out => out.1
  | none => []

/-- The 1-by-1 room after `SubmitGuess("R1", "", 0, 0, false)`. -/
def exLast3 : Registry :=
  match SubmitGuess exLast2 "R1" "" 0 0 false with
  | some out => out.1
  | none => []

/-- The started 1-by-1 room of `"A"` and `"B"` after `SubmitGuess("R1", "A", 0, 0, false)`,
a discard that ends the game. -/
def exOverDiscard : Registry :=
  match SubmitGuess exOver2 "R1" "A" 0 0 false with
  | some out => out.1
  | none => []
/-! ## Room values with a nil map -/

/-- A `Room` as a Go value, for the methods called on rooms built by hand: the map
`PlayerHands` of a `Room` literal that does not set the field is nil, here `none`. The nil
map reads as the empty map, and an assignment to one of its entries panics. -/
structure RoomValue where
  RoomCode : String
  GridSize : Int
  Players : List String
  GameStarted : Bool
  GameOver : Bool
  RowWords : List String
  ColumnWords : List String
  Grid : List (List Cell)
  CardDeck : List Card
  PlayerHands : Option (List (String × List Card))
deriving DecidableEq

/-- The room value of a room whose map `PlayerHands` was made. -/
def Room.toValue (r : Room) : RoomValue :=
  { RoomCode := r.RoomCode
    GridSize := r.GridSize
    Players := r.Players
    GameStarted := r.GameStarted
    GameOver := r.GameOver
    RowWords := r.RowWords
    ColumnWords := r.ColumnWords
    Grid := r.Grid
    CardDeck := r.CardDeck
    PlayerHands := some r.PlayerHands }

/-- The value `r.PlayerHands[playerName]` of a room value; the nil map and a missing key read
as the empty (nil) slice. -/
def RoomValue.hand (r : RoomValue) (playerName : String) : List Card :=
  match r.PlayerHands with
  | none => []
  | some hands => (mapGet hands playerName).getD []

/-- The method `GetCardsPerPlayer` on a room value. -/
def RoomValue.GetCardsPerPlayer (r : RoomValue) : Nat :=
  if r.Players.length ≤ 3 then 2 else 1

/-- The method `DrawCard` on a room value: the room afterwards and the returned flag. The
outer `none` is the panic of the assignment `r.PlayerHands[playerName] = ...` on the nil map,
reached after the deck was popped. -/
def RoomValue.DrawCard (r : RoomValue) (playerName : String) : Option (RoomValue × Bool) :=
  let maxCards := r.GetCardsPerPlayer
  match r.CardDeck with
  | card :: rest =>
    if (r.hand playerName).length < maxCards then
      match r.PlayerHands with
      | none => none
      | some hands =>
        some ({ r with
                CardDeck := rest
                PlayerHands := some (mapSet hands playerName (r.hand playerName ++ [card])) },
          true)
    else some (r, false)
  | [] => some (r, false)

/-- A room built by hand as `&Room{Players: []string{"A"}, CardDeck: []Card{{0, 0}}}`: the
map `PlayerHands` is nil. -/
def exNilRoom : RoomValue :=
  { RoomCode := "", GridSize := 0, Players := ["A"], GameStarted := false, GameOver := false,
    RowWords := [], ColumnWords := [], Grid := [], CardDeck := [Card.mk 0 0],
    PlayerHands := none }

/-! ## Lemmas on maps -/

theorem mapGet_mapSet_self {β : Type} (m : List (String × β)) (k : String) (v : β) :
    mapGet (mapSet m k v) k = some v := by
  induction m with
  | nil => simp [mapSet, mapGet]
  | cons e m ih =>
    obtain ⟨k1, v1⟩ := e
    by_cases h : k1 = k
    · simp [mapSet, mapGet, h]
    · simp [mapSet, mapGet, h, ih]

theorem mapGet_mapSet_ne {β : Type} (m : List (String × β)) (k k2 : String) (v : β)
    (h : k2 ≠ k) : mapGet (mapSet m k v) k2 = mapGet m k2 := by
  induction m with
  | nil => simp [mapSet, mapGet, Ne.symm h]
  | cons e m ih =>
    obtain ⟨k1, v1⟩ := e
    by_cases h1 : k1 = k
    · subst h1
      simp [mapSet, mapGet, Ne.symm h]
    · simp [mapSet, mapGet, h1, ih]

theorem mapGet_mapSet {β : Type} (m : List (String × β)) (k k2 : String) (v : β) :
    mapGet (mapSet m k v) k2 = if k2 = k then some v else mapGet m k2 := by
  by_cases h : k2 = k
  · subst h
    simp [mapGet_mapSet_self]
  · simp [h, mapGet_mapSet_ne]

theorem mapGet_eq_none_iff {β : Type} (m : List (String × β)) (k : String) :
    mapGet m k = none ↔ k ∉ m.map Prod.fst := by
  induction m with
  | nil => simp [mapGet]
  | cons e m ih =>
    obtain ⟨k1, v1⟩ := e
    by_cases h : k1 = k
    · simp [mapGet, h]
    · simp only [mapGet, h, if_false, ih, List.map_cons, List.mem_cons, not_or]
      constructor
      · intro hm
        exact ⟨Ne.symm h, hm⟩
      · intro hm
        exact hm.2

theorem mapGet_isSome_iff {β : Type} (m : List (String × β)) (k : String) :
    (mapGet m k).isSome ↔ k ∈ m.map Prod.fst := by
  rw [← not_iff_not, ← mapGet_eq_none_iff]
  cases mapGet m k <;> simp

theorem keys_mapSet_of_mem {β : Type} (m : List (String × β)) (k : String) (v : β)
    (h : k ∈ m.map Prod.fst) : (mapSet m k v).map Prod.fst = m.map Prod.fst := by
  induction m with
  | nil => simp at h
  | cons e m ih =>
    obtain ⟨k1, v1⟩ := e
    by_cases h1 : k1 = k
    · simp [mapSet, h1]
    · have hm : k ∈ m.map Prod.fst := by
        simp only [List.map_cons, List.mem_cons] at h
        rcases h with h | h
        · exact absurd h.symm h1
        · exact h
      simp [mapSet, h1, ih hm]

theorem keys_mapSet_of_not_mem {β : Type} (m : List (String × β)) (k : String) (v : β)
    (h : k ∉ m.map Prod.fst) : (mapSet m k v).map Prod.fst = m.map Prod.fst ++ [k] := by
  induction m with
  | nil => simp [mapSet]
  | cons e m ih =>
    obtain ⟨k1, v1⟩ := e
    simp only [List.map_cons, List.mem_cons, not_or] at h
    have h1 : ¬ k1 = k := fun hk => h.1 hk.symm
    simp [mapSet, h1, ih h.2]

theorem keys_mapDelete {β : Type} (m : List (String × β)) (k : String) :
    (mapDelete m k).map Prod.fst = (m.map Prod.fst).filter fun k1 => decide (k1 ≠ k) := by
  induction m with
  | nil => simp [mapDelete]
  | cons e m ih =>
    obtain ⟨k1, v1⟩ := e
    by_cases h1 : k1 = k
    · simp [mapDelete, h1, ih]
    · simp [mapDelete, h1, ih]

theorem mapGet_mapDelete_self {β : Type} (m : List (String × β)) (k : String) :
    mapGet (mapDelete m k) k = none := by
  rw [mapGet_eq_none_iff, keys_mapDelete]
  simp

theorem mapGet_mapDelete_ne {β : Type} (m : List (String × β)) (k k2 : String)
    (h : k2 ≠ k) : mapGet (mapDelete m k) k2 = mapGet m k2 := by
  induction m with
  | nil => simp [mapDelete, mapGet]
  | cons e m ih =>
    obtain ⟨k1, v1⟩ := e
    by_cases h1 : k1 = k
    · subst h1
      simp [mapDelete, mapGet, Ne.symm h, ih]
    · simp [mapDelete, mapGet, h1, ih]

theorem mapValues_mapSet (m : List (String × List Card)) (k : String) (v : List Card) :
    (mapValues (mapSet m k v) ++ (mapGet m k).getD []).Perm (v ++ mapValues m) := by
  induction m with
  | nil => simp [mapSet, mapGet, mapValues]
  | cons e m ih =>
    obtain ⟨k1, v1⟩ := e
    by_cases h1 : k1 = k
    · simp only [mapSet, h1, if_true, mapGet, mapValues, List.map_cons, List.flatten_cons,
        Option.getD_some]
      have h2 : (v ++ (List.map Prod.snd m).flatten ++ v1).Perm
          (v ++ (v1 ++ (List.map Prod.snd m).flatten)) := by
        rw [List.append_assoc]
        exact List.Perm.append_left v List.perm_append_comm
      exact h2
    · simp only [mapSet, h1, if_false, mapGet, mapValues, List.map_cons, List.flatten_cons]
      have h2 := List.Perm.append_left v1 ih
      simp only [mapValues] at h2
      refine (List.append_assoc _ _ _ ▸ h2).trans ?_
      rw [← List.append_assoc, ← List.append_assoc]
      exact List.Perm.append_right _ List.perm_append_comm

theorem mapValues_mapDelete (m : List (String × List Card)) (k : String)
    (hnd : (m.map Prod.fst).Nodup) :
    (mapValues (mapDelete m k) ++ (mapGet m k).getD []).Perm (mapValues m) := by
  induction m with
  | nil => simp [mapDelete, mapGet, mapValues]
  | cons e m ih =>
    obtain ⟨k1, v1⟩ := e
    simp only [List.map_cons, List.nodup_cons] at hnd
    by_cases h1 : k1 = k
    · subst h1
      have hk : mapGet m k1 = none := (mapGet_eq_none_iff m k1).2 hnd.1
      have h2 := ih hnd.2
      rw [hk] at h2
      simp only [Option.getD_none, List.append_nil] at h2
      simp only [mapDelete, if_true, mapGet, Option.getD_some, mapValues, List.map_cons,
        List.flatten_cons]
      exact (List.Perm.append_right v1 h2).trans List.perm_append_comm
    · simp only [mapDelete, h1, if_false, mapGet, mapValues, List.map_cons, List.flatten_cons,
        List.append_assoc]
      exact List.Perm.append_left v1 (ih hnd.2)

/-! ## Lemmas on the room methods -/

theorem SameFrame.refl (r : Room) : SameFrame r r :=
  ⟨rfl, rfl, rfl, rfl, rfl, rfl, rfl, rfl⟩

theorem SameFrame.trans {r r1 r2 : Room} (h1 : SameFrame r r1) (h2 : SameFrame r1 r2) :
    SameFrame r r2 :=
  ⟨h2.roomCode.trans h1.roomCode, h2.gridSize.trans h1.gridSize, h2.players.trans h1.players,
    h2.gameStarted.trans h1.gameStarted, h2.gameOver.trans h1.gameOver,
    h2.rowWords.trans h1.rowWords, h2.columnWords.trans h1.columnWords, h2.grid.trans h1.grid⟩

theorem setHand_frame (r : Room) (p : String) (v : List Card) : SameFrame r (r.setHand p v) :=
  ⟨rfl, rfl, rfl, rfl, rfl, rfl, rfl, rfl⟩

theorem setHand_hand (r : Room) (p q : String) (v : List Card) :
    (r.setHand p v).hand q = if q = p then v else r.hand q := by
  simp only [Room.hand, Room.setHand, mapGet_mapSet]
  by_cases h : q = p
  · simp [h]
  · simp [h]

theorem setHand_hand_self (r : Room) (p : String) (v : List Card) :
    (r.setHand p v).hand p = v := by
  simp [setHand_hand]

theorem setHand_hand_ne (r : Room) (p q : String) (v : List Card) (h : q ≠ p) :
    (r.setHand p v).hand q = r.hand q := by
  simp [setHand_hand, h]

theorem setHand_keys (r : Room) (p : String) (v : List Card)
    (h : p ∈ r.PlayerHands.map Prod.fst) :
    (r.setHand p v).PlayerHands.map Prod.fst = r.PlayerHands.map Prod.fst :=
  keys_mapSet_of_mem _ _ _ h

theorem setHand_circulation (r : Room) (p : String) (v : List Card) :
    ((r.setHand p v).circulation ++ r.hand p).Perm (v ++ r.circulation) := by
  have h := mapValues_mapSet r.PlayerHands p v
  simp only [Room.circulation, Room.allHands, Room.setHand, List.append_assoc]
  refine (List.Perm.append_left r.CardDeck h).trans ?_
  rw [← List.append_assoc, ← List.append_assoc]
  exact List.Perm.append_right _ List.perm_append_comm

theorem GetCardsPerPlayer_le_two (r : Room) : r.GetCardsPerPlayer ≤ 2 := by
  unfold Room.GetCardsPerPlayer
  split <;> omega

theorem GetCardsPerPlayer_congr {r r1 : Room} (h : r1.Players = r.Players) :
    r1.GetCardsPerPlayer = r.GetCardsPerPlayer := by
  unfold Room.GetCardsPerPlayer
  rw [h]

/-- The method `DrawCard` when a card is drawn. -/
theorem DrawCard_of_can (r : Room) (p : String) (card : Card) (rest : List Card)
    (hd : r.CardDeck = card :: rest) (hl : (r.hand p).length < r.GetCardsPerPlayer) :
    r.DrawCard p =
      (Room.setHand { r with CardDeck := rest } p (r.hand p ++ [card]), true) := by
  unfold Room.DrawCard
  simp only [hd, hl, if_true]

/-- The method `DrawCard` when no card is drawn. -/
theorem DrawCard_of_cannot (r : Room) (p : String)
    (h : r.CardDeck = [] ∨ r.GetCardsPerPlayer ≤ (r.hand p).length) :
    r.DrawCard p = (r, false) := by
  unfold Room.DrawCard
  cases hd : r.CardDeck with
  | nil => rfl
  | cons card rest =>
    rcases h with h | h
    · rw [hd] at h
      cases h
    · simp only [Nat.not_lt.2 h, if_false]

theorem DrawCard_cases (r : Room) (p : String) :
    (∃ card rest, r.CardDeck = card :: rest ∧ (r.hand p).length < r.GetCardsPerPlayer ∧
      r.DrawCard p =
        (Room.setHand { r with CardDeck := rest } p (r.hand p ++ [card]), true)) ∨
    ((r.CardDeck = [] ∨ r.GetCardsPerPlayer ≤ (r.hand p).length) ∧ r.DrawCard p = (r, false)) := by
  cases hd : r.CardDeck with
  | nil => exact Or.inr ⟨Or.inl rfl, DrawCard_of_cannot r p (Or.inl hd)⟩
  | cons card rest =>
    by_cases hl : (r.hand p).length < r.GetCardsPerPlayer
    · exact Or.inl ⟨card, rest, rfl, hl, DrawCard_of_can r p card rest hd hl⟩
    · exact Or.inr ⟨Or.inr (Nat.not_lt.1 hl), DrawCard_of_cannot r p (Or.inr (Nat.not_lt.1 hl))⟩

theorem DrawCard_frame (r : Room) (p : String) : SameFrame r (r.DrawCard p).1 := by
  rcases DrawCard_cases r p with ⟨card, rest, _, _, h⟩ | ⟨_, h⟩
  · rw [h]
    exact ⟨rfl, rfl, rfl, rfl, rfl, rfl, rfl, rfl⟩
  · rw [h]
    exact SameFrame.refl r

theorem DrawCard_hand_ne (r : Room) (p q : String) (h : q ≠ p) :
    (r.DrawCard p).1.hand q = r.hand q := by
  rcases DrawCard_cases r p with ⟨card, rest, _, _, he⟩ | ⟨_, he⟩
  · rw [he]
    exact setHand_hand_ne _ p q _ h
  · rw [he]

theorem DrawCard_keys (r : Room) (p : String) (h : p ∈ r.PlayerHands.map Prod.fst) :
    (r.DrawCard p).1.PlayerHands.map Prod.fst = r.PlayerHands.map Prod.fst := by
  rcases DrawCard_cases r p with ⟨card, rest, _, _, he⟩ | ⟨_, he⟩
  · rw [he]
    exact keys_mapSet_of_mem _ _ _ h
  · rw [he]

theorem perm_cancel_hand {a b h : List Card} {card : Card}
    (hp : (a ++ h).Perm ((h ++ [card]) ++ b)) : a.Perm (card :: b) := by
  have h1 : ((h ++ [card]) ++ b).Perm ((card :: b) ++ h) := by
    have : ((h ++ [card]) ++ b).Perm (h ++ (card :: b)) := by simp
    exact this.trans List.perm_append_comm
  exact (List.perm_append_right_iff h).1 (hp.trans h1)

theorem DrawCard_circulation (r : Room) (p : String) :
    (r.DrawCard p).1.circulation.Perm r.circulation := by
  rcases DrawCard_cases r p with ⟨card, rest, hd, _, he⟩ | ⟨_, he⟩
  · rw [he]
    have h1 := mapValues_mapSet r.PlayerHands p (r.hand p ++ [card])
    have h2 : (mapValues (mapSet r.PlayerHands p (r.hand p ++ [card]))).Perm
        (card :: mapValues r.PlayerHands) := perm_cancel_hand h1
    simp only [Room.circulation, Room.allHands, Room.setHand, hd]
    exact (List.Perm.append_left rest h2).trans List.perm_middle
  · rw [he]

theorem DrawCard_hand_length (r : Room) (p q : String) (hq : (r.hand q).length ≤ 2) :
    ((r.DrawCard p).1.hand q).length ≤ 2 := by
  by_cases h : q = p
  · subst h
    rcases DrawCard_cases r q with ⟨card, rest, _, hl, he⟩ | ⟨_, he⟩
    · rw [he]
      rw [setHand_hand_self]
      have := GetCardsPerPlayer_le_two r
      have hh : (Room.hand { r with CardDeck := rest } q) = r.hand q := rfl
      simp only [List.length_append, List.length_singleton]
      omega
    · rw [he]
      exact hq
  · rw [DrawCard_hand_ne r p q h]
    exact hq


theorem firstCardIdx_none (row col : Int) (hand : List Card) :
    firstCardIdx row col hand = none ↔ Card.mk row col ∉ hand := by
  induction hand with
  | nil => simp [firstCardIdx]
  | cons c rest ih =>
    obtain ⟨cr, cc⟩ := c
    by_cases h : cr = row ∧ cc = col
    · simp [firstCardIdx, h]
    · have h1 : ¬ (row = cr ∧ col = cc) := fun hh => h ⟨hh.1.symm, hh.2.symm⟩
      simp [firstCardIdx, h, ih, h1]

theorem firstCardIdx_some (row col : Int) (hand : List Card) (i : Nat)
    (h : firstCardIdx row col hand = some i) :
    hand.take i ++ hand.drop (i + 1) = hand.erase (Card.mk row col) := by
  induction hand generalizing i with
  | nil => simp [firstCardIdx] at h
  | cons c rest ih =>
    obtain ⟨cr, cc⟩ := c
    by_cases hc : cr = row ∧ cc = col
    · simp only [firstCardIdx, hc, and_self, if_true, Option.some.injEq] at h
      subst h
      obtain ⟨h1, h2⟩ := hc
      subst h1 h2
      simp
    · simp only [firstCardIdx, hc, if_false, Option.map_eq_some'] at h
      obtain ⟨j, hj, hji⟩ := h
      subst hji
      have hne : Card.mk cr cc ≠ Card.mk row col := by
        intro he
        injection he with h1 h2
        exact hc ⟨h1, h2⟩
      rw [List.erase_cons_tail (by simpa using hne)]
      simp only [List.take_succ_cons, List.drop_succ_cons, List.cons_append]
      rw [ih j hj]

theorem HasCard_iff (r : Room) (p : String) (row col : Int) :
    r.HasCard p row col = true ↔ Card.mk row col ∈ r.hand p := by
  unfold Room.HasCard
  simp only [List.any_eq_true, decide_eq_true_eq]
  constructor
  · rintro ⟨c, hc, h1, h2⟩
    obtain ⟨cr, cc⟩ := c
    simp only at h1 h2
    subst h1 h2
    exact hc
  · intro h
    exact ⟨_, h, rfl, rfl⟩

theorem HasPlayer_iff (r : Room) (p : String) : r.HasPlayer p = true ↔ p ∈ r.Players := by
  unfold Room.HasPlayer
  simp [List.any_eq_true]

/-- The method `RemoveCardFromHand` when the card is held. -/
theorem RemoveCardFromHand_of_mem (r : Room) (p : String) (row col : Int)
    (h : Card.mk row col ∈ r.hand p) :
    r.RemoveCardFromHand p row col =
      (r.setHand p ((r.hand p).erase (Card.mk row col)), true) := by
  cases hi : firstCardIdx row col (r.hand p) with
  | none => exact absurd h ((firstCardIdx_none row col _).1 hi)
  | some i =>
    simp only [Room.RemoveCardFromHand, hi, firstCardIdx_some row col _ i hi]

/-- The method `RemoveCardFromHand` when the card is not held. -/
theorem RemoveCardFromHand_of_not_mem (r : Room) (p : String) (row col : Int)
    (h : Card.mk row col ∉ r.hand p) :
    r.RemoveCardFromHand p row col = (r, false) := by
  simp only [Room.RemoveCardFromHand, (firstCardIdx_none row col _).2 h]

theorem hand_mem_keys (r : Room) (p : String) (c : Card) (h : c ∈ r.hand p) :
    p ∈ r.PlayerHands.map Prod.fst := by
  rw [← mapGet_isSome_iff]
  unfold Room.hand at h
  cases hg : mapGet r.PlayerHands p with
  | none => simp [hg] at h
  | some v => rfl

theorem perm_cancel_erase {a b h : List Card} {card : Card} (hm : card ∈ h)
    (hp : (a ++ h).Perm (h.erase card ++ b)) : (card :: a).Perm b := by
  have h1 : (card :: a ++ h).Perm (h ++ b) := by
    have h2 : (card :: (a ++ h)).Perm (card :: (h.erase card ++ b)) := List.Perm.cons card hp
    have h3 : (card :: (h.erase card ++ b)).Perm (h ++ b) :=
      List.Perm.append_right b (List.perm_cons_erase hm).symm
    exact h2.trans h3
  have h4 : ((card :: a) ++ h).Perm (b ++ h) := h1.trans List.perm_append_comm
  exact (List.perm_append_right_iff h).1 h4

theorem RemoveCardFromHand_circulation (r : Room) (p : String) (row col : Int)
    (h : Card.mk row col ∈ r.hand p) :
    (Card.mk row col :: (r.RemoveCardFromHand p row col).1.circulation).Perm r.circulation := by
  rw [RemoveCardFromHand_of_mem r p row col h]
  have h1 := mapValues_mapSet r.PlayerHands p ((r.hand p).erase (Card.mk row col))
  have h2 := perm_cancel_erase h h1
  simp only [Room.circulation, Room.allHands, Room.setHand]
  exact List.perm_middle.symm.trans (List.Perm.append_left r.CardDeck h2)

theorem RemoveCardFromHand_frame (r : Room) (p : String) (row col : Int) :
    SameFrame r (r.RemoveCardFromHand p row col).1 := by
  by_cases h : Card.mk row col ∈ r.hand p
  · rw [RemoveCardFromHand_of_mem r p row col h]
    exact setHand_frame r p _
  · rw [RemoveCardFromHand_of_not_mem r p row col h]
    exact SameFrame.refl r

/-! ## Lemmas on the dealing loops -/

theorem drawN_frame (r : Room) (p : String) (k : Nat) : SameFrame r (drawN r p k) := by
  induction k generalizing r with
  | zero => exact SameFrame.refl r
  | succ k ih => exact (DrawCard_frame r p).trans (ih _)

theorem drawN_hand_ne (r : Room) (p q : String) (k : Nat) (h : q ≠ p) :
    (drawN r p k).hand q = r.hand q := by
  induction k generalizing r with
  | zero => rfl
  | succ k ih =>
    simp only [drawN]
    rw [ih, DrawCard_hand_ne r p q h]

theorem drawN_keys (r : Room) (p : String) (k : Nat) (h : p ∈ r.PlayerHands.map Prod.fst) :
    (drawN r p k).PlayerHands.map Prod.fst = r.PlayerHands.map Prod.fst := by
  induction k generalizing r with
  | zero => rfl
  | succ k ih =>
    simp only [drawN]
    rw [ih _ (by rw [DrawCard_keys r p h]; exact h), DrawCard_keys r p h]

theorem drawN_circulation (r : Room) (p : String) (k : Nat) :
    (drawN r p k).circulation.Perm r.circulation := by
  induction k generalizing r with
  | zero => exact List.Perm.refl _
  | succ k ih => exact (ih _).trans (DrawCard_circulation r p)

theorem drawN_hand_length (r : Room) (p q : String) (k : Nat) (hq : (r.hand q).length ≤ 2) :
    ((drawN r p k).hand q).length ≤ 2 := by
  induction k generalizing r with
  | zero => exact hq
  | succ k ih => exact ih _ (DrawCard_hand_length r p q hq)

theorem dealCount_fst (r : Room) (p : String) (k : Nat) :
    (dealCount r p k).1 = drawN r p k := by
  induction k generalizing r with
  | zero => rfl
  | succ k ih =>
    simp only [dealCount, drawN]
    exact ih _


theorem mapValues_eq_flatMap (m : List (String × List Card)) (hnd : (m.map Prod.fst).Nodup) :
    mapValues m = (m.map Prod.fst).flatMap fun k => (mapGet m k).getD [] := by
  induction m with
  | nil => rfl
  | cons e m ih =>
    obtain ⟨k1, v1⟩ := e
    simp only [List.map_cons, List.nodup_cons] at hnd
    have h1 : mapValues ((k1, v1) :: m) = v1 ++ mapValues m := rfl
    rw [h1, ih hnd.2]
    simp only [List.map_cons, List.flatMap_cons, mapGet, if_true, Option.getD_some]
    congr 1
    apply List.flatMap_congr
    intro k hk
    have hne : ¬ k1 = k := fun he => hnd.1 (he ▸ hk)
    simp [hne]

theorem allHands_eq_flatMap (r : Room) (hk : r.PlayerHands.map Prod.fst = r.Players)
    (hnd : r.Players.Nodup) : r.allHands = r.Players.flatMap r.hand := by
  unfold Room.allHands
  rw [mapValues_eq_flatMap _ (hk ▸ hnd), hk]
  rfl

theorem dealAll_frame (r : Room) (ps : List String) : SameFrame r (dealAll r ps) := by
  induction ps generalizing r with
  | nil => exact SameFrame.refl r
  | cons p rest ih =>
    simp only [dealAll]
    exact ((setHand_frame r p []).trans (drawN_frame _ p _)).trans (ih _)

theorem dealAll_keys (r : Room) (ps : List String)
    (h : ∀ p ∈ ps, p ∈ r.PlayerHands.map Prod.fst) :
    (dealAll r ps).PlayerHands.map Prod.fst = r.PlayerHands.map Prod.fst := by
  induction ps generalizing r with
  | nil => rfl
  | cons p rest ih =>
    simp only [dealAll]
    have hp : p ∈ r.PlayerHands.map Prod.fst := h p (List.mem_cons_self _ _)
    have hk1 := setHand_keys r p [] hp
    have hk2 := drawN_keys (r.setHand p []) p (r.setHand p []).GetCardsPerPlayer
      (by rw [hk1]; exact hp)
    rw [ih _ (by
      intro q hq
      rw [hk2, hk1]
      exact h q (List.mem_cons_of_mem _ hq)), hk2, hk1]

theorem dealAll_hand_length (r : Room) (ps : List String)
    (h : ∀ q, (r.hand q).length ≤ 2) : ∀ q, ((dealAll r ps).hand q).length ≤ 2 := by
  induction ps generalizing r with
  | nil => exact h
  | cons p rest ih =>
    simp only [dealAll]
    apply ih
    intro q
    apply drawN_hand_length
    rw [setHand_hand]
    by_cases hq : q = p
    · simp [hq]
    · simp only [hq, if_false]
      exact h q

theorem dealAll_circulation (r : Room) (ps : List String) (hnd : ps.Nodup) :
    ((dealAll r ps).circulation ++ ps.flatMap r.hand).Perm r.circulation := by
  induction ps generalizing r with
  | nil => simp [dealAll]
  | cons p rest ih =>
    simp only [List.nodup_cons] at hnd
    simp only [dealAll, List.flatMap_cons]
    have hrest : ∀ q ∈ rest,
        (drawN (r.setHand p []) p (r.setHand p []).GetCardsPerPlayer).hand q = r.hand q := by
      intro q hq
      have hne : q ≠ p := fun he => hnd.1 (he ▸ hq)
      rw [drawN_hand_ne _ p q _ hne, setHand_hand_ne r p q [] hne]
    have h1 := ih (drawN (r.setHand p []) p (r.setHand p []).GetCardsPerPlayer) hnd.2
    rw [List.flatMap_congr hrest] at h1
    have h2 := h1.trans (drawN_circulation _ p _)
    have h3 : ((r.setHand p []).circulation ++ r.hand p).Perm r.circulation :=
      setHand_circulation r p []
    refine List.Perm.trans ?_ ((List.Perm.append_right (r.hand p) h2).trans h3)
    rw [List.append_assoc]
    exact List.Perm.append_left _ List.perm_append_comm

/-! ## Lemmas on grids, decks and words -/

theorem setAt_length {α : Type} {xs ys : List α} {i : Nat} {v : α}
    (h : setAt xs i v = some ys) : ys.length = xs.length := by
  unfold setAt at h
  split at h
  · cases h
    simp
  · cases h

theorem setAt_mem {α : Type} {xs ys : List α} {i : Nat} {v : α}
    (h : setAt xs i v = some ys) : ∀ y ∈ ys, y = v ∨ y ∈ xs := by
  unfold setAt at h
  split at h
  · cases h
    intro y hy
    rcases List.mem_or_eq_of_mem_set hy with h1 | h1
    · exact Or.inr h1
    · exact Or.inl h1
  · cases h

theorem setCell_dims {grid grid1 : List (List Cell)} {row col n : Nat} {cell : Cell}
    (h : setCell grid row col cell = some grid1) (hd : GridDims grid n) : GridDims grid1 n := by
  unfold setCell at h
  cases hr : grid[row]? with
  | none => simp [hr] at h
  | some cells =>
    simp only [hr] at h
    cases hc : setAt cells col cell with
    | none => simp [hc] at h
    | some cells1 =>
      simp only [hc] at h
      refine ⟨(setAt_length h).trans hd.1, ?_⟩
      intro y hy
      rcases setAt_mem h y hy with h1 | h1
      · rw [h1, setAt_length hc]
        exact hd.2 cells (List.getElem?_mem hr)
      · exact hd.2 y h1

theorem cellAt_of_dims {grid : List (List Cell)} {row col n : Nat} (hd : GridDims grid n)
    (hr : row < n) (hc : col < n) : ∃ cell, cellAt grid row col = some cell := by
  unfold cellAt
  have h1 : row < grid.length := hd.1 ▸ hr
  rw [List.getElem?_eq_getElem h1]
  have h2 : col < (grid[row]).length := by
    rw [hd.2 _ (List.getElem_mem h1)]
    exact hc
  exact ⟨_, List.getElem?_eq_getElem h2⟩

theorem setCell_of_dims {grid : List (List Cell)} {row col n : Nat} (cell : Cell)
    (hd : GridDims grid n) (hr : row < n) (hc : col < n) :
    ∃ grid1, setCell grid row col cell = some grid1 := by
  unfold setCell
  have h1 : row < grid.length := hd.1 ▸ hr
  rw [List.getElem?_eq_getElem h1]
  have h2 : col < (grid[row]).length := by
    rw [hd.2 _ (List.getElem_mem h1)]
    exact hc
  simp [setAt, h1, h2]

theorem mem_gridCoords (n row col : Nat) : (row, col) ∈ gridCoords n ↔ row < n ∧ col < n := by
  simp [gridCoords]

theorem resetGrid_dims {grid grid1 : List (List Cell)} {n : Nat} (l : List (Nat × Nat))
    (h : resetGrid grid l = some grid1) (hd : GridDims grid n) : GridDims grid1 n := by
  induction l generalizing grid with
  | nil =>
    simp only [resetGrid, Option.some.injEq] at h
    exact h ▸ hd
  | cons rc rest ih =>
    obtain ⟨row, col⟩ := rc
    simp only [resetGrid] at h
    cases hs : setCell grid row col (Cell.mk false "") with
    | none => simp [hs] at h
    | some g1 =>
      simp only [hs] at h
      exact ih h (setCell_dims hs hd)

theorem resolveCell_dims {grid grid1 : List (List Cell)} {row col : Int} {p : String}
    {correct : Bool} {n : Nat} (h : resolveCell grid row col p correct = some grid1)
    (hd : GridDims grid n) : GridDims grid1 n := by
  unfold resolveCell at h
  split at h
  · cases h
  · cases hc : cellAt grid row.toNat col.toNat with
    | none => simp [hc] at h
    | some cell =>
      simp only [hc] at h
      exact setCell_dims h hd

theorem checkCells_of_dims {grid : List (List Cell)} {n : Nat} (hd : GridDims grid n)
    (l : List (Nat × Nat)) (hl : ∀ rc ∈ l, rc.1 < n ∧ rc.2 < n) :
    ∃ b, checkCells grid l = some b := by
  induction l with
  | nil => exact ⟨true, rfl⟩
  | cons rc rest ih =>
    obtain ⟨row, col⟩ := rc
    have hrc := hl (row, col) (List.mem_cons_self _ _)
    obtain ⟨cell, hcell⟩ := cellAt_of_dims hd hrc.1 hrc.2
    simp only [checkCells, hcell]
    split
    · exact ⟨false, rfl⟩
    · exact ih fun rc h => hl rc (List.mem_cons_of_mem _ h)

theorem newGrid_dims (n : Nat) : GridDims (newGrid n) n := by
  unfold GridDims newGrid
  simp

theorem mem_allCards (g : Int) (c : Card) :
    c ∈ allCards g ↔ 0 ≤ c.Row ∧ c.Row < g ∧ 0 ≤ c.Column ∧ c.Column < g := by
  obtain ⟨cr, cc⟩ := c
  simp only [allCards, createCardDeck, id, List.mem_map, Prod.exists, mem_gridCoords,
    Card.mk.injEq]
  constructor
  · rintro ⟨row, col, ⟨h1, h2⟩, h3, h4⟩
    omega
  · intro h
    exact ⟨cr.toNat, cc.toNat, by omega, by omega, by omega⟩

theorem gridCoords_nodup (n : Nat) : (gridCoords n).Nodup := by
  unfold gridCoords
  rw [List.nodup_flatMap]
  refine ⟨?_, ?_⟩
  · intro row _
    exact (List.nodup_range n).map (fun a b h => (Prod.mk.inj h).2)
  · refine (List.nodup_range n).pairwise_of_forall_ne ?_
    intro a _ b _ hab
    simp only [Function.onFun, List.disjoint_left, List.mem_map, not_exists, not_and]
    rintro x ⟨c, _, rfl⟩ d _ h
    exact hab (Prod.mk.inj h).1.symm

theorem allCards_nodup (g : Int) : (allCards g).Nodup := by
  unfold allCards createCardDeck
  refine (gridCoords_nodup _).map ?_
  intro a b h
  simp only [id, Card.mk.injEq, Nat.cast_inj] at h
  exact Prod.ext h.1 h.2

theorem gridCoords_length (n : Nat) : (gridCoords n).length = n * n := by
  unfold gridCoords
  simp [List.length_flatMap, Function.comp_def]

theorem allCards_length (g : Int) : (allCards g).length = g.toNat * g.toNat := by
  simp [allCards, createCardDeck, gridCoords_length]

theorem createCardDeck_perm (shuffle : List Card → List Card) (hs : IsShuffle shuffle)
    (g : Int) : (createCardDeck shuffle g).Perm (allCards g) :=
  hs _

theorem assignWords_length (words : List String) (n : Nat) (l : List Nat)
    (rc out : List String × List String) (h : assignWords words n l rc = some out) :
    out.1.length = rc.1.length ∧ out.2.length = rc.2.length := by
  induction l generalizing rc with
  | nil =>
    simp only [assignWords, Option.some.injEq] at h
    subst h
    exact ⟨rfl, rfl⟩
  | cons i rest ih =>
    obtain ⟨rw, cw⟩ := rc
    unfold assignWords at h
    split at h
    · split at h
      · rename_i h1 h2
        obtain ⟨e1, e2⟩ := ih _ h
        exact ⟨e1.trans (setAt_length h1), e2.trans (setAt_length h2)⟩
      · cases h
    · cases h

theorem assignWords_bound (words : List String) (n : Nat) (l : List Nat)
    (rc out : List String × List String) (h : assignWords words n l rc = some out) :
    ∀ i ∈ l, i + n < words.length := by
  induction l generalizing rc with
  | nil => simp
  | cons i rest ih =>
    obtain ⟨rw, cw⟩ := rc
    unfold assignWords at h
    split at h
    · split at h
      · rename_i w w1 hw hw1 _ _ _ _ _ _
        intro j hj
        rcases List.mem_cons.1 hj with hj | hj
        · subst hj
          exact (List.getElem?_eq_some_iff.1 hw1).1
        · exact ih _ h j hj
      · cases h
    · cases h

theorem assignWords_catalog (words : List String) (n : Nat)
    (rc out : List String × List String)
    (h : assignWords words n (List.range n) rc = some out) : 2 * n ≤ words.length := by
  cases n with
  | zero => simp
  | succ k =>
    have := assignWords_bound words (k + 1) _ rc out h k (List.mem_range.2 (Nat.lt_succ_self k))
    omega


/-! ## Preservation of the room invariant -/

theorem RoomInv.of_frame {r r1 : Room} {pl pl1 : List Card} (h : RoomInv r pl)
    (hf : SameFrame r r1) (hk : r1.PlayerHands.map Prod.fst = r.PlayerHands.map Prod.fst)
    (hc : (r1.circulation ++ pl1).Perm (r.circulation ++ pl))
    (hh : ∀ q, (r1.hand q).length ≤ 2) : RoomInv r1 pl1 where
  keys := by rw [hk, hf.players, h.keys]
  nodup := by rw [hf.players]; exact h.nodup
  cards := by rw [hf.gridSize]; exact hc.trans h.cards
  grid := by rw [hf.grid, hf.gridSize]; exact h.grid
  handCap := hh
  size := by rw [hf.gridSize]; exact h.size
  catalog := by rw [hf.gridSize]; exact h.catalog
  rowWords := by rw [hf.rowWords, hf.gridSize]; exact h.rowWords
  columnWords := by rw [hf.columnWords, hf.gridSize]; exact h.columnWords
  flags := by rw [hf.gameOver, hf.gameStarted]; exact h.flags

theorem RoomInv.mem_keys {r : Room} {pl : List Card} (h : RoomInv r pl) {p : String}
    (hp : p ∈ r.Players) : p ∈ r.PlayerHands.map Prod.fst := by
  rw [h.keys]
  exact hp

theorem RoomInv.drawCard {r : Room} {pl : List Card} (h : RoomInv r pl) {p : String}
    (hp : p ∈ r.Players) : RoomInv (r.DrawCard p).1 pl :=
  h.of_frame (DrawCard_frame r p) (DrawCard_keys r p (h.mem_keys hp))
    (List.Perm.append_right pl (DrawCard_circulation r p))
    (fun q => DrawCard_hand_length r p q (h.handCap q))

theorem RoomInv.drawN {r : Room} {pl : List Card} (h : RoomInv r pl) {p : String}
    (hp : p ∈ r.Players) (k : Nat) : RoomInv (drawN r p k) pl :=
  h.of_frame (drawN_frame r p k) (drawN_keys r p k (h.mem_keys hp))
    (List.Perm.append_right pl (drawN_circulation r p k))
    (fun q => drawN_hand_length r p q k (h.handCap q))

theorem hand_eq_nil_of_not_mem (r : Room) (p : String) (h : p ∉ r.PlayerHands.map Prod.fst) :
    r.hand p = [] := by
  unfold Room.hand
  rw [(mapGet_eq_none_iff _ _).2 h]
  rfl

theorem RoomInv.addPlayer {r : Room} {pl : List Card} (h : RoomInv r pl) {p : String}
    (hp : p ∉ r.Players) :
    RoomInv (Room.setHand { r with Players := r.Players ++ [p] } p []) pl where
  keys := by
    have hk : p ∉ r.PlayerHands.map Prod.fst := by rw [h.keys]; exact hp
    simp only [Room.setHand]
    rw [keys_mapSet_of_not_mem _ _ _ hk, h.keys]
  nodup := by
    simp only [Room.setHand]
    exact List.Nodup.append h.nodup (List.nodup_singleton p) (by simpa using hp)
  cards := by
    have hk : p ∉ r.PlayerHands.map Prod.fst := by rw [h.keys]; exact hp
    have h1 := setHand_circulation { r with Players := r.Players ++ [p] } p []
    have h2 : Room.hand { r with Players := r.Players ++ [p] } p = [] :=
      hand_eq_nil_of_not_mem _ p hk
    rw [h2] at h1
    simp only [List.append_nil, List.nil_append] at h1
    exact (List.Perm.append_right pl h1).trans h.cards
  grid := h.grid
  handCap := by
    intro q
    rw [setHand_hand]
    by_cases hq : q = p
    · simp [hq]
    · simp only [hq, if_false]
      exact h.handCap q
  size := h.size
  catalog := h.catalog
  rowWords := h.rowWords
  columnWords := h.columnWords
  flags := h.flags

theorem RoomInv.removePlayer {r : Room} {pl : List Card} (h : RoomInv r pl) {p : String}
    {cards : List Card} (hc : mapGet r.PlayerHands p = some cards) :
    RoomInv { r with
        Players := r.Players.erase p
        CardDeck := r.CardDeck ++ cards
        PlayerHands := mapDelete r.PlayerHands p } pl where
  keys := by
    simp only
    rw [keys_mapDelete, h.keys, h.nodup.erase_eq_filter]
    apply List.filter_congr
    intro x _
    by_cases hx : x = p <;> simp [hx]
  nodup := h.nodup.erase p
  cards := by
    have h1 := mapValues_mapDelete r.PlayerHands p (h.keys ▸ h.nodup)
    rw [hc] at h1
    simp only [Option.getD_some] at h1
    refine List.Perm.trans (List.Perm.append_right pl ?_) h.cards
    simp only [Room.circulation, Room.allHands, List.append_assoc]
    exact List.Perm.append_left r.CardDeck (List.perm_append_comm.trans h1)
  grid := h.grid
  handCap := by
    intro q
    simp only [Room.hand]
    by_cases hq : q = p
    · subst hq
      rw [mapGet_mapDelete_self]
      simp
    · rw [mapGet_mapDelete_ne _ _ _ hq]
      exact h.handCap q
  size := h.size
  catalog := h.catalog
  rowWords := h.rowWords
  columnWords := h.columnWords
  flags := h.flags

theorem RoomInv.restart (r1 : Room) (hk : r1.PlayerHands.map Prod.fst = r1.Players)
    (hnd : r1.Players.Nodup) (hd : r1.CardDeck.Perm (allCards r1.GridSize))
    (hg : GridDims r1.Grid r1.GridSize.toNat) (hh : ∀ q, (r1.hand q).length ≤ 2)
    (hs : 0 ≤ r1.GridSize) (hcat : 2 * r1.GridSize.toNat ≤ wordList.length)
    (hw : r1.RowWords.length = r1.GridSize.toNat)
    (hcw : r1.ColumnWords.length = r1.GridSize.toNat) :
    RoomInv { dealAll r1 r1.Players with GameStarted := true, GameOver := false } [] := by
  have hf := dealAll_frame r1 r1.Players
  have hkeys := dealAll_keys r1 r1.Players (fun p hp => hk ▸ hp)
  have hc := dealAll_circulation r1 r1.Players hnd
  have hl := dealAll_hand_length r1 r1.Players hh
  refine
    { keys := ?_, nodup := ?_, cards := ?_, grid := ?_, handCap := hl, size := ?_,
      catalog := ?_, rowWords := ?_, columnWords := ?_, flags := fun _ => rfl }
  · show (dealAll r1 r1.Players).PlayerHands.map Prod.fst = (dealAll r1 r1.Players).Players
    rw [hkeys, hk, hf.players]
  · show (dealAll r1 r1.Players).Players.Nodup
    rw [hf.players]
    exact hnd
  · show ((dealAll r1 r1.Players).circulation ++ []).Perm
      (allCards (dealAll r1 r1.Players).GridSize)
    rw [hf.gridSize, List.append_nil]
    have hc1 : ((dealAll r1 r1.Players).circulation ++ r1.Players.flatMap r1.hand).Perm
        (r1.CardDeck ++ r1.Players.flatMap r1.hand) := by
      refine hc.trans ?_
      simp only [Room.circulation]
      rw [allHands_eq_flatMap r1 hk hnd]
    exact ((List.perm_append_right_iff _).1 hc1).trans hd
  · show GridDims (dealAll r1 r1.Players).Grid (dealAll r1 r1.Players).GridSize.toNat
    rw [hf.grid, hf.gridSize]
    exact hg
  · show 0 ≤ (dealAll r1 r1.Players).GridSize
    rw [hf.gridSize]
    exact hs
  · show 2 * (dealAll r1 r1.Players).GridSize.toNat ≤ wordList.length
    rw [hf.gridSize]
    exact hcat
  · show (dealAll r1 r1.Players).RowWords.length = (dealAll r1 r1.Players).GridSize.toNat
    rw [hf.rowWords, hf.gridSize]
    exact hw
  · show (dealAll r1 r1.Players).ColumnWords.length = (dealAll r1 r1.Players).GridSize.toNat
    rw [hf.columnWords, hf.gridSize]
    exact hcw

theorem RoomInv.guess {r : Room} {pl : List Card} (h : RoomInv r pl) {p : String}
    {row col : Int} {correct over : Bool} {grid : List (List Cell)}
    (hp : p ∈ r.Players) (hcard : Card.mk row col ∈ r.hand p) (hst : r.GameStarted = true)
    (hg : resolveCell (r.RemoveCardFromHand p row col).1.Grid row col p correct = some grid) :
    RoomInv { (Room.DrawCard { (r.RemoveCardFromHand p row col).1 with Grid := grid } p).1 with
              GameOver := over } (Card.mk row col :: pl) := by
  have hf1 := RemoveCardFromHand_frame r p row col
  have hc1 := RemoveCardFromHand_circulation r p row col hcard
  have hrm := RemoveCardFromHand_of_mem r p row col hcard
  have hk1 : (r.RemoveCardFromHand p row col).1.PlayerHands.map Prod.fst =
      r.PlayerHands.map Prod.fst := by
    rw [hrm]
    exact setHand_keys r p _ (h.mem_keys hp)
  have hl1 : ∀ q, ((r.RemoveCardFromHand p row col).1.hand q).length ≤ 2 := by
    intro q
    rw [hrm]
    show ((r.setHand p ((r.hand p).erase (Card.mk row col))).hand q).length ≤ 2
    rw [setHand_hand]
    by_cases hq : q = p
    · simp only [hq, if_true]
      exact (List.length_erase_le _ _).trans (h.handCap p)
    · simp only [hq, if_false]
      exact h.handCap q
  have hinv1 : RoomInv { (r.RemoveCardFromHand p row col).1 with Grid := grid }
      (Card.mk row col :: pl) :=
    { keys := hk1.trans (h.keys.trans hf1.players.symm)
      nodup := hf1.players ▸ h.nodup
      cards := by
        show ((r.RemoveCardFromHand p row col).1.circulation ++ Card.mk row col :: pl).Perm
          (allCards (r.RemoveCardFromHand p row col).1.GridSize)
        rw [hf1.gridSize]
        refine List.Perm.trans ?_ h.cards
        exact List.perm_middle.trans (List.Perm.append_right pl hc1)
      grid := by
        show GridDims grid (r.RemoveCardFromHand p row col).1.GridSize.toNat
        rw [hf1.gridSize]
        apply resolveCell_dims hg
        rw [hf1.grid]
        exact h.grid
      handCap := hl1
      size := hf1.gridSize ▸ h.size
      catalog := hf1.gridSize ▸ h.catalog
      rowWords := by
        show (r.RemoveCardFromHand p row col).1.RowWords.length =
          (r.RemoveCardFromHand p row col).1.GridSize.toNat
        rw [hf1.rowWords, hf1.gridSize]
        exact h.rowWords
      columnWords := by
        show (r.RemoveCardFromHand p row col).1.ColumnWords.length =
          (r.RemoveCardFromHand p row col).1.GridSize.toNat
        rw [hf1.columnWords, hf1.gridSize]
        exact h.columnWords
      flags := by
        intro _
        show (r.RemoveCardFromHand p row col).1.GameStarted = true
        rw [hf1.gameStarted]
        exact hst }
  have hp1 : p ∈ Room.Players { (r.RemoveCardFromHand p row col).1 with Grid := grid } := by
    show p ∈ (r.RemoveCardFromHand p row col).1.Players
    rw [hf1.players]
    exact hp
  have hinv2 := hinv1.drawCard hp1
  have hf2 := DrawCard_frame { (r.RemoveCardFromHand p row col).1 with Grid := grid } p
  exact
    { keys := hinv2.keys
      nodup := hinv2.nodup
      cards := hinv2.cards
      grid := hinv2.grid
      handCap := hinv2.handCap
      size := hinv2.size
      catalog := hinv2.catalog
      rowWords := hinv2.rowWords
      columnWords := hinv2.columnWords
      flags := by
        intro _
        show (Room.DrawCard { (r.RemoveCardFromHand p row col).1 with Grid := grid } p).1.GameStarted
          = true
        rw [hf2.gameStarted]
        show (r.RemoveCardFromHand p row col).1.GameStarted = true
        rw [hf1.gameStarted]
        exact hst }

theorem RoomInv.fresh (shuffleC : List Card → List Card) (hs : IsShuffle shuffleC)
    (roomCode playerName : String) (gridSize : Int) (rowWords columnWords : List String)
    (hsize : 0 ≤ gridSize) (hcat : 2 * gridSize.toNat ≤ wordList.length)
    (hw : rowWords.length = gridSize.toNat) (hcw : columnWords.length = gridSize.toNat) :
    RoomInv (Room.setHand
      { RoomCode := roomCode
        GridSize := gridSize
        Players := [playerName]
        GameStarted := false
        GameOver := false
        RowWords := rowWords
        ColumnWords := columnWords
        Grid := newGrid gridSize.toNat
        CardDeck := createCardDeck shuffleC gridSize
        PlayerHands := [] } playerName []) [] where
  keys := rfl
  nodup := List.nodup_singleton playerName
  cards := by
    simp only [Room.circulation, Room.allHands, Room.setHand, mapSet, mapValues, List.map_cons,
      List.map_nil, List.flatten_cons, List.flatten_nil, List.append_nil]
    exact createCardDeck_perm shuffleC hs gridSize
  grid := newGrid_dims _
  handCap := by
    intro q
    rw [setHand_hand]
    by_cases hq : q = playerName
    · simp [hq]
    · simp [hq, Room.hand, mapGet]
  size := hsize
  catalog := hcat
  rowWords := hw
  columnWords := hcw
  flags := by
    intro h
    cases h


/-! ## The invariant holds in every reachable registry -/

theorem RegInv.set {rooms : Registry} {played : String → List Card} (h : RegInv rooms played)
    (code : String) (room : Room) (v : List Card) (hr : RoomInv room v) :
    RegInv (mapSet rooms code room) (Function.update played code v) := by
  intro code2 room2 hget
  rw [mapGet_mapSet] at hget
  by_cases hc : code2 = code
  · subst hc
    simp only [if_true, Option.some.injEq] at hget
    subst hget
    rw [Function.update_same]
    exact hr
  · simp only [hc, if_false] at hget
    rw [Function.update_noteq hc]
    exact h code2 room2 hget

theorem RegInv.set_same {rooms : Registry} {played : String → List Card}
    (h : RegInv rooms played) (code : String) (room : Room)
    (hr : RoomInv room (played code)) : RegInv (mapSet rooms code room) played := by
  have h1 := h.set code room (played code) hr
  rwa [Function.update_eq_self] at h1

theorem RegInv.createRoom {rooms rooms1 : Registry} {played : String → List Card}
    {res : Option Room × Option GameError}
    (h : RegInv rooms played) (shuffleW : List String → List String)
    (shuffleC : List Card → List Card) (hw : IsShuffle shuffleW) (hc : IsShuffle shuffleC)
    (roomCode : String) (gridSize : Int) (playerName : String)
    (he : CreateRoom shuffleW shuffleC rooms roomCode gridSize playerName = some (rooms1, res)) :
    RegInv rooms1 (if res.2 = none then Function.update played roomCode [] else played) := by
  unfold CreateRoom at he
  split at he
  · simp only [Option.some.injEq, Prod.mk.injEq] at he
    obtain ⟨h1, h2⟩ := he
    subst h1 h2
    simpa using h
  · split at he
    · cases he
    · rename_i hneg
      cases hassign : assignWords (shuffleWords shuffleW) gridSize.toNat
          (List.range gridSize.toNat)
          (List.replicate gridSize.toNat "", List.replicate gridSize.toNat "") with
      | none =>
        simp only [hassign] at he
        cases he
      | some out =>
        obtain ⟨rw, cw⟩ := out
        simp only [hassign, Option.some.injEq, Prod.mk.injEq] at he
        obtain ⟨h1, h2⟩ := he
        subst h1 h2
        simp only [if_true]
        have hlen := assignWords_length _ _ _ _ _ hassign
        have hcat := assignWords_catalog _ _ _ _ hassign
        have hwl : (shuffleWords shuffleW).length = wordList.length := (hw wordList).length_eq
        rw [hwl] at hcat
        simp only [List.length_replicate] at hlen
        have hfresh := RoomInv.fresh shuffleC hc roomCode playerName gridSize rw cw
          (not_lt.1 hneg) hcat hlen.1 hlen.2
        have hp : playerName ∈ (Room.setHand
            { RoomCode := roomCode
              GridSize := gridSize
              Players := [playerName]
              GameStarted := false
              GameOver := false
              RowWords := rw
              ColumnWords := cw
              Grid := newGrid gridSize.toNat
              CardDeck := createCardDeck shuffleC gridSize
              PlayerHands := [] } playerName []).Players := List.mem_singleton_self _
        have h1 := hfresh.drawCard hp
        have hp1 : playerName ∈ (Room.DrawCard (Room.setHand
            { RoomCode := roomCode
              GridSize := gridSize
              Players := [playerName]
              GameStarted := false
              GameOver := false
              RowWords := rw
              ColumnWords := cw
              Grid := newGrid gridSize.toNat
              CardDeck := createCardDeck shuffleC gridSize
              PlayerHands := [] } playerName []) playerName).1.Players := by
          rw [(DrawCard_frame _ _).players]
          exact hp
        exact h.set roomCode _ [] (h1.drawCard hp1)

theorem RegInv.joinRoom {rooms : Registry} {played : String → List Card}
    (h : RegInv rooms played) (roomCode playerName : String) :
    RegInv (JoinRoom rooms roomCode playerName).1 played := by
  unfold JoinRoom
  cases hg : mapGet rooms roomCode with
  | none => exact h
  | some room =>
    simp only
    split
    · exact h
    · rename_i hp
      have hp1 : playerName ∉ room.Players := fun hm => hp ((HasPlayer_iff room playerName).2 hm)
      have h1 := (h roomCode room hg).addPlayer hp1
      simp only [dealCount_fst]
      apply h.set_same
      apply h1.drawN
      show playerName ∈ room.Players ++ [playerName]
      simp

theorem RegInv.leaveRoom {rooms : Registry} {played : String → List Card}
    (h : RegInv rooms played) (roomCode playerName : String) :
    RegInv (LeaveRoom rooms roomCode playerName).1 played := by
  unfold LeaveRoom
  cases hg : mapGet rooms roomCode with
  | none => exact h
  | some room =>
    simp only
    split
    · exact h
    · rename_i hp
      have hinv := h roomCode room hg
      have hp1 : playerName ∈ room.Players := by
        rw [← HasPlayer_iff]
        simpa using hp
      have hk : (mapGet room.PlayerHands playerName).isSome :=
        (mapGet_isSome_iff _ _).2 (hinv.mem_keys hp1)
      cases hc : mapGet room.PlayerHands playerName with
      | none => simp [hc] at hk
      | some cards =>
        simp only [hc]
        exact h.set_same roomCode _ (hinv.removePlayer hc)

theorem RegInv.startGame {rooms rooms1 : Registry} {played : String → List Card}
    {err : Option GameError}
    (h : RegInv rooms played) (shuffleW : List String → List String)
    (shuffleC : List Card → List Card) (hc : IsShuffle shuffleC) (roomCode : String)
    (he : StartGame shuffleW shuffleC rooms roomCode = some (rooms1, err)) :
    RegInv rooms1 (if err = none then Function.update played roomCode [] else played) := by
  unfold StartGame at he
  cases hg : mapGet rooms roomCode with
  | none =>
    simp only [hg, Option.some.injEq, Prod.mk.injEq] at he
    obtain ⟨h1, h2⟩ := he
    subst h1 h2
    simpa using h
  | some room =>
    simp only [hg] at he
    split at he
    · simp only [Option.some.injEq, Prod.mk.injEq] at he
      obtain ⟨h1, h2⟩ := he
      subst h1 h2
      simpa using h
    · cases hassign : assignWords (shuffleWords shuffleW) room.GridSize.toNat
          (List.range room.GridSize.toNat) (room.RowWords, room.ColumnWords) with
      | none =>
        simp only [hassign] at he
        cases he
      | some out =>
        obtain ⟨rw, cw⟩ := out
        cases hgrid : resetGrid room.Grid (gridCoords room.GridSize.toNat) with
        | none =>
          simp only [hassign, hgrid] at he
          cases he
        | some grid =>
          simp only [hassign, hgrid, Option.some.injEq, Prod.mk.injEq] at he
          obtain ⟨h1, h2⟩ := he
          subst h1 h2
          simp only [if_true]
          have hinv := h roomCode room hg
          have hlen := assignWords_length _ _ _ _ _ hassign
          apply h.set roomCode _ []
          exact RoomInv.restart
            { room with
              RowWords := rw
              ColumnWords := cw
              Grid := grid
              CardDeck := createCardDeck shuffleC room.GridSize }
            hinv.keys hinv.nodup (createCardDeck_perm shuffleC hc room.GridSize)
            (resetGrid_dims _ hgrid hinv.grid) hinv.handCap hinv.size hinv.catalog
            (hlen.1.trans hinv.rowWords) (hlen.2.trans hinv.columnWords)

theorem RegInv.submitGuess {rooms rooms1 : Registry} {played : String → List Card}
    {res : Bool × Option GameError}
    (h : RegInv rooms played) (roomCode playerName : String) (row col : Int) (correct : Bool)
    (he : SubmitGuess rooms roomCode playerName row col correct = some (rooms1, res)) :
    RegInv rooms1
      (if res.2 = none then
        Function.update played roomCode (Card.mk row col :: played roomCode)
       else played) := by
  unfold SubmitGuess at he
  cases hg : mapGet rooms roomCode with
  | none =>
    simp only [hg, Option.some.injEq, Prod.mk.injEq] at he
    obtain ⟨h1, h2⟩ := he
    subst h1 h2
    simpa using h
  | some room =>
    simp only [hg] at he
    split at he
    · simp only [Option.some.injEq, Prod.mk.injEq] at he
      obtain ⟨h1, h2⟩ := he
      subst h1 h2
      simpa using h
    · rename_i hst
      split at he
      · simp only [Option.some.injEq, Prod.mk.injEq] at he
        obtain ⟨h1, h2⟩ := he
        subst h1 h2
        simpa using h
      · split at he
        · simp only [Option.some.injEq, Prod.mk.injEq] at he
          obtain ⟨h1, h2⟩ := he
          subst h1 h2
          simpa using h
        · rename_i hpl
          split at he
          · simp only [Option.some.injEq, Prod.mk.injEq] at he
            obtain ⟨h1, h2⟩ := he
            subst h1 h2
            simpa using h
          · rename_i hcard
            cases hgrid : resolveCell (room.RemoveCardFromHand playerName row col).1.Grid
                row col playerName correct with
            | none =>
              simp only [hgrid] at he
              cases he
            | some grid =>
              simp only [hgrid] at he
              cases hover : Room.CheckGameOver (Room.DrawCard
                  { (room.RemoveCardFromHand playerName row col).1 with Grid := grid }
                  playerName).1 with
              | none =>
                simp only [hover] at he
                cases he
              | some over =>
                simp only [hover, Option.some.injEq, Prod.mk.injEq] at he
                obtain ⟨h1, h2⟩ := he
                subst h1 h2
                simp only [if_true]
                apply h.set roomCode _ _
                apply (h roomCode room hg).guess
                · rw [← HasPlayer_iff]
                  simpa using hpl
                · rw [← HasCard_iff]
                  simpa using hcard
                · simpa using hst
                · exact hgrid

theorem ReachablePlayed.inv {rooms : Registry} {played : String → List Card}
    (h : ReachablePlayed rooms played) : RegInv rooms played := by
  induction h with
  | empty =>
    intro code room hget
    simp [mapGet] at hget
  | createRoom shuffleW shuffleC roomCode gridSize playerName _ hw hc he ih =>
    exact ih.createRoom shuffleW shuffleC hw hc roomCode gridSize playerName he
  | joinRoom roomCode playerName _ ih => exact ih.joinRoom roomCode playerName
  | leaveRoom roomCode playerName _ ih => exact ih.leaveRoom roomCode playerName
  | startGame shuffleW shuffleC roomCode _ _ hc he ih =>
    exact ih.startGame shuffleW shuffleC hc roomCode he
  | submitGuess roomCode playerName row col correct _ he ih =>
    exact ih.submitGuess roomCode playerName row col correct he

theorem ReachablePlayed.reachable {rooms : Registry} {played : String → List Card}
    (h : ReachablePlayed rooms played) : Reachable rooms := by
  induction h with
  | empty => exact Reachable.empty
  | createRoom shuffleW shuffleC roomCode gridSize playerName _ hw hc he ih =>
    exact Reachable.createRoom shuffleW shuffleC roomCode gridSize playerName ih hw hc he
  | joinRoom roomCode playerName _ ih => exact Reachable.joinRoom roomCode playerName ih
  | leaveRoom roomCode playerName _ ih => exact Reachable.leaveRoom roomCode playerName ih
  | startGame shuffleW shuffleC roomCode _ hw hc he ih =>
    exact Reachable.startGame shuffleW shuffleC roomCode ih hw hc he
  | submitGuess roomCode playerName row col correct _ he ih =>
    exact Reachable.submitGuess roomCode playerName row col correct ih he

theorem Reachable.played {rooms : Registry} (h : Reachable rooms) :
    ∃ played, ReachablePlayed rooms played := by
  induction h with
  | empty => exact ⟨_, ReachablePlayed.empty⟩
  | createRoom shuffleW shuffleC roomCode gridSize playerName _ hw hc he ih =>
    obtain ⟨pl, hpl⟩ := ih
    exact ⟨_, ReachablePlayed.createRoom shuffleW shuffleC roomCode gridSize playerName hpl hw hc he⟩
  | joinRoom roomCode playerName _ ih =>
    obtain ⟨pl, hpl⟩ := ih
    exact ⟨_, ReachablePlayed.joinRoom roomCode playerName hpl⟩
  | leaveRoom roomCode playerName _ ih =>
    obtain ⟨pl, hpl⟩ := ih
    exact ⟨_, ReachablePlayed.leaveRoom roomCode playerName hpl⟩
  | startGame shuffleW shuffleC roomCode _ hw hc he ih =>
    obtain ⟨pl, hpl⟩ := ih
    exact ⟨_, ReachablePlayed.startGame shuffleW shuffleC roomCode hpl hw hc he⟩
  | submitGuess roomCode playerName row col correct _ he ih =>
    obtain ⟨pl, hpl⟩ := ih
    exact ⟨_, ReachablePlayed.submitGuess roomCode playerName row col correct hpl he⟩

theorem Reachable.roomInv {rooms : Registry} (h : Reachable rooms) {code : String} {room : Room}
    (hg : mapGet rooms code = some room) : ∃ played, RoomInv room played := by
  obtain ⟨pl, hpl⟩ := h.played
  exact ⟨pl code, hpl.inv code room hg⟩


/-! ## Lemmas on cells and game-over detection -/

theorem cellAt_setCell {grid grid1 : List (List Cell)} {row col : Nat} {cell : Cell}
    (h : setCell grid row col cell = some grid1) (r k : Nat) :
    cellAt grid1 r k = if r = row ∧ k = col then some cell else cellAt grid r k := by
  unfold setCell at h
  cases hr : grid[row]? with
  | none => simp [hr] at h
  | some cells =>
    simp only [hr] at h
    cases hc : setAt cells col cell with
    | none => simp [hc] at h
    | some cells1 =>
      simp only [hc] at h
      unfold setAt at h hc
      split at hc
      · rename_i hcol
        split at h
        · rename_i hrow
          simp only [Option.some.injEq] at h hc
          subst h hc
          unfold cellAt
          by_cases h1 : r = row
          · subst h1
            simp only [List.getElem?_set_self, hrow, List.getElem?_eq_getElem, true_and]
            by_cases h2 : k = col
            · subst h2
              simp [hcol]
            · have h3 : ¬ col = k := fun e => h2 e.symm
              simp only [h2, if_false]
              rw [List.getElem?_set_ne h3]
              rw [List.getElem?_eq_getElem hrow] at hr
              simp only [Option.some.injEq] at hr
              rw [hr]
          · have h3 : ¬ row = r := fun e => h1 e.symm
            simp only [h1, false_and, if_false]
            rw [List.getElem?_set_ne h3]
        · cases h
      · cases hc

theorem checkCells_eq_true_iff (grid : List (List Cell)) (l : List (Nat × Nat)) :
    checkCells grid l = some true ↔
      ∀ rc ∈ l, ∃ cell, cellAt grid rc.1 rc.2 = some cell ∧ cell.Resolved := by
  induction l with
  | nil => simp [checkCells]
  | cons rc rest ih =>
    obtain ⟨row, col⟩ := rc
    simp only [checkCells, List.mem_cons, forall_eq_or_imp]
    cases hc : cellAt grid row col with
    | none => simp
    | some cell =>
      simp only [Option.some.injEq, exists_eq_left']
      by_cases hres : cell.Resolved
      · have h1 : (!cell.GuessedCorrectly && cell.DiscardedBy == "") = false := by
          rcases hres with h | h
          · simp [h]
          · simp [h]
        simp only [h1, Bool.false_eq_true, if_false, ih, hres, true_and]
      · have h1 : (!cell.GuessedCorrectly && cell.DiscardedBy == "") = true := by
          unfold Cell.Resolved at hres
          simp only [not_or, Bool.not_eq_true, ne_eq, not_not] at hres
          simp [hres.1, hres.2]
        simp [h1, hres]

theorem checkCells_eq_false {grid : List (List Cell)} {n : Nat} (hd : GridDims grid n)
    (l : List (Nat × Nat)) (hl : ∀ rc ∈ l, rc.1 < n ∧ rc.2 < n)
    (hex : ∃ rc ∈ l, ∃ cell, cellAt grid rc.1 rc.2 = some cell ∧ ¬ cell.Resolved) :
    checkCells grid l = some false := by
  obtain ⟨b, hb⟩ := checkCells_of_dims hd l hl
  cases b with
  | false => exact hb
  | true =>
    obtain ⟨rc, hrc, cell, hcell, hres⟩ := hex
    obtain ⟨cell1, hcell1, hres1⟩ := (checkCells_eq_true_iff grid l).1 hb rc hrc
    rw [hcell] at hcell1
    cases hcell1
    exact absurd hres1 hres


/-! ## Lemmas on `SubmitGuess` -/

theorem mem_mapValues_of_mapGet {m : List (String × List Card)} {k : String} {v : List Card}
    (h : mapGet m k = some v) {c : Card} (hc : c ∈ v) : c ∈ mapValues m := by
  induction m with
  | nil => simp [mapGet] at h
  | cons e m ih =>
    obtain ⟨k1, v1⟩ := e
    have hv : mapValues ((k1, v1) :: m) = v1 ++ mapValues m := rfl
    rw [hv, List.mem_append]
    by_cases h1 : k1 = k
    · simp only [mapGet, h1, if_true, Option.some.injEq] at h
      exact Or.inl (h ▸ hc)
    · simp only [mapGet, h1, if_false] at h
      exact Or.inr (ih h)

theorem mem_circulation_of_mem_hand {r : Room} {p : String} {c : Card} (h : c ∈ r.hand p) :
    c ∈ r.circulation := by
  unfold Room.hand at h
  cases hg : mapGet r.PlayerHands p with
  | none => simp [hg] at h
  | some v =>
    rw [hg] at h
    exact List.mem_append_right _ (mem_mapValues_of_mapGet hg h)

theorem RoomInv.card_in_range {r : Room} {pl : List Card} (h : RoomInv r pl) {c : Card}
    (hc : c ∈ r.circulation) :
    0 ≤ c.Row ∧ c.Row < r.GridSize ∧ 0 ≤ c.Column ∧ c.Column < r.GridSize :=
  (mem_allCards _ _).1 (h.cards.subset (List.mem_append_left _ hc))

theorem resolveCell_of_dims {grid : List (List Cell)} {n : Nat} (hd : GridDims grid n)
    {row col : Int} (hr0 : 0 ≤ row) (hr : row.toNat < n) (hc0 : 0 ≤ col) (hc : col.toNat < n)
    (p : String) (correct : Bool) : ∃ grid1, resolveCell grid row col p correct = some grid1 := by
  unfold resolveCell
  have h1 : ¬ (row < 0 ∨ col < 0) := by omega
  obtain ⟨cell, hcell⟩ := cellAt_of_dims hd hr hc
  simp only [h1, if_false, hcell]
  exact setCell_of_dims _ hd hr hc

theorem submitGuessError_eq_none {rooms : Registry} {code p : String} {row col : Int}
    (h : submitGuessError rooms code p row col = none) :
    ∃ room, mapGet rooms code = some room ∧ room.GameStarted = true ∧ room.GameOver = false ∧
      p ∈ room.Players ∧ Card.mk row col ∈ room.hand p := by
  unfold submitGuessError at h
  cases hg : mapGet rooms code with
  | none => simp [hg] at h
  | some room =>
    simp only [hg] at h
    split at h
    · cases h
    · rename_i h1
      split at h
      · cases h
      · rename_i h2
        split at h
        · cases h
        · rename_i h3
          split at h
          · cases h
          · rename_i h4
            exact ⟨room, rfl, by simpa using h1, by simpa using h2, by simpa using h3,
              by simpa using h4⟩

/-- The function `SubmitGuess` once all five checks have passed. -/
theorem SubmitGuess_of_checks {rooms : Registry} {code p : String} {row col : Int}
    {room : Room} (correct : Bool) (hg : mapGet rooms code = some room)
    (hst : room.GameStarted = true) (hov : room.GameOver = false) (hp : p ∈ room.Players)
    (hc : Card.mk row col ∈ room.hand p) :
    SubmitGuess rooms code p row col correct =
      match resolveCell room.Grid row col p correct with
      | none => none
      | some grid =>
        match Room.CheckGameOver (Room.DrawCard
            { room.setHand p ((room.hand p).erase (Card.mk row col)) with Grid := grid } p).1 with
        | none => none
        | some over =>
          some (mapSet rooms code
            { (Room.DrawCard
                { room.setHand p ((room.hand p).erase (Card.mk row col)) with Grid := grid }
                p).1 with GameOver := over }, over, none) := by
  have h1 : room.HasPlayer p = true := (HasPlayer_iff room p).2 hp
  have h2 : room.HasCard p row col = true := (HasCard_iff room p row col).2 hc
  unfold SubmitGuess
  simp only [hg, hst, hov, h1, h2, Bool.not_true, Bool.false_eq_true, if_false,
    RemoveCardFromHand_of_mem room p row col hc]
  rfl

/-- The function `SubmitGuess` when a check fails. -/
theorem SubmitGuess_of_error {rooms : Registry} {code p : String} {row col : Int}
    {e : GameError} (correct : Bool) (h : submitGuessError rooms code p row col = some e) :
    SubmitGuess rooms code p row col correct = some (rooms, false, some e) := by
  unfold submitGuessError at h
  unfold SubmitGuess
  cases hg : mapGet rooms code with
  | none =>
    simp only [hg, Option.some.injEq] at h
    simp [h]
  | some room =>
    simp only [hg] at h
    simp only
    split at h
    · rename_i h1
      simp only [Option.some.injEq] at h
      simp [h1, h]
    · rename_i h1
      split at h
      · rename_i h2
        simp only [Option.some.injEq] at h
        simp [h1, h2, h]
      · rename_i h2
        split at h
        · rename_i h3
          simp only [Option.some.injEq] at h
          have h3b : room.HasPlayer p = false := by
            rw [← Bool.not_eq_true, HasPlayer_iff]
            exact h3
          simp [h1, h2, h3b, h]
        · rename_i h3
          split at h
          · rename_i h4
            simp only [Option.some.injEq] at h
            have h3b : room.HasPlayer p = true := (HasPlayer_iff room p).2 (by simpa using h3)
            have h4b : room.HasCard p row col = false := by
              rw [← Bool.not_eq_true, HasCard_iff]
              exact h4
            simp [h1, h2, h3b, h4b, h]
          · cases h

/-- A successful `SubmitGuess`, unfolded. -/
theorem SubmitGuess_success {rooms rooms1 : Registry} {code p : String} {row col : Int}
    {correct over : Bool}
    (h : SubmitGuess rooms code p row col correct = some (rooms1, over, none)) :
    ∃ room grid, mapGet rooms code = some room ∧ room.GameStarted = true ∧
      room.GameOver = false ∧ p ∈ room.Players ∧ Card.mk row col ∈ room.hand p ∧
      resolveCell room.Grid row col p correct = some grid ∧
      (guessRoom room p row col grid over).CheckGameOver = some over ∧
      rooms1 = mapSet rooms code (guessRoom room p row col grid over) := by
  cases he : submitGuessError rooms code p row col with
  | some e =>
    rw [SubmitGuess_of_error correct he] at h
    simp at h
  | none =>
    obtain ⟨room, hg, hst, hov, hp, hc⟩ := submitGuessError_eq_none he
    rw [SubmitGuess_of_checks correct hg hst hov hp hc] at h
    cases hgrid : resolveCell room.Grid row col p correct with
    | none =>
      simp only [hgrid] at h
      cases h
    | some grid =>
      simp only [hgrid] at h
      cases hover : Room.CheckGameOver (Room.DrawCard
          { room.setHand p ((room.hand p).erase (Card.mk row col)) with Grid := grid } p).1 with
      | none =>
        simp only [hover] at h
        cases h
      | some over1 =>
        simp only [hover, Option.some.injEq, Prod.mk.injEq, and_true] at h
        obtain ⟨h1, h2⟩ := h
        subst h2
        exact ⟨room, grid, hg, hst, hov, hp, hc, hgrid, hover, h1.symm⟩

/-- In a room satisfying the invariant, `SubmitGuess` does not panic once the five checks
have passed. -/
theorem SubmitGuess_no_panic {rooms : Registry} {code p : String} {row col : Int}
    {room : Room} {pl : List Card} (correct : Bool) (hinv : RoomInv room pl)
    (hg : mapGet rooms code = some room)
    (hst : room.GameStarted = true) (hov : room.GameOver = false) (hp : p ∈ room.Players)
    (hc : Card.mk row col ∈ room.hand p) :
    ∃ rooms1 over, SubmitGuess rooms code p row col correct = some (rooms1, over, none) := by
  rw [SubmitGuess_of_checks correct hg hst hov hp hc]
  have hr := hinv.card_in_range (mem_circulation_of_mem_hand hc)
  simp only at hr
  obtain ⟨grid, hgrid⟩ := resolveCell_of_dims hinv.grid hr.1 (by omega) hr.2.2.1 (by omega)
    p correct
  simp only [hgrid]
  have hd : GridDims grid room.GridSize.toNat := resolveCell_dims hgrid hinv.grid
  have hf := DrawCard_frame
    { room.setHand p ((room.hand p).erase (Card.mk row col)) with Grid := grid } p
  obtain ⟨over, hover⟩ : ∃ over, Room.CheckGameOver (Room.DrawCard
      { room.setHand p ((room.hand p).erase (Card.mk row col)) with Grid := grid } p).1 =
      some over := by
    unfold Room.CheckGameOver
    rw [hf.grid, hf.gridSize]
    apply checkCells_of_dims hd
    rintro ⟨a, b⟩ hab
    exact (mem_gridCoords _ _ _).1 hab
  simp only [hover]
  exact ⟨_, _, rfl⟩


theorem SubmitGuess_error_inv {rooms rooms1 : Registry} {code p : String} {row col : Int}
    {correct over : Bool} {e : GameError}
    (h : SubmitGuess rooms code p row col correct = some (rooms1, over, some e)) :
    submitGuessError rooms code p row col = some e ∧ rooms1 = rooms ∧ over = false := by
  cases he : submitGuessError rooms code p row col with
  | some e1 =>
    rw [SubmitGuess_of_error correct he] at h
    simp only [Option.some.injEq, Prod.mk.injEq] at h
    exact ⟨by rw [h.2.2], h.1.symm, h.2.1.symm⟩
  | none =>
    obtain ⟨room, hg, hst, hov, hp, hc⟩ := submitGuessError_eq_none he
    rw [SubmitGuess_of_checks correct hg hst hov hp hc] at h
    split at h
    · cases h
    · split at h
      · cases h
      · simp at h

theorem resolveCell_spec {grid grid1 : List (List Cell)} {row col : Int} {p : String}
    {correct : Bool} (h : resolveCell grid row col p correct = some grid1) :
    0 ≤ row ∧ 0 ≤ col ∧ ∃ cell, cellAt grid row.toNat col.toNat = some cell ∧
      ∀ r k : Nat, cellAt grid1 r k =
        if r = row.toNat ∧ k = col.toNat then
          some (if correct then { cell with GuessedCorrectly := true }
            else { cell with DiscardedBy := p })
        else cellAt grid r k := by
  unfold resolveCell at h
  split at h
  · cases h
  · rename_i hneg
    cases hc : cellAt grid row.toNat col.toNat with
    | none => simp [hc] at h
    | some cell =>
      simp only [hc] at h
      exact ⟨by omega, by omega, cell, rfl, fun r k => cellAt_setCell h r k⟩

theorem guessRoom_frame (room : Room) (p : String) (row col : Int)
    (grid : List (List Cell)) (over : Bool) :
    (guessRoom room p row col grid over).RoomCode = room.RoomCode ∧
    (guessRoom room p row col grid over).GridSize = room.GridSize ∧
    (guessRoom room p row col grid over).Players = room.Players ∧
    (guessRoom room p row col grid over).GameStarted = room.GameStarted ∧
    (guessRoom room p row col grid over).RowWords = room.RowWords ∧
    (guessRoom room p row col grid over).ColumnWords = room.ColumnWords ∧
    (guessRoom room p row col grid over).Grid = grid ∧
    (guessRoom room p row col grid over).GameOver = over := by
  have hf := DrawCard_frame
    { room.setHand p ((room.hand p).erase (Card.mk row col)) with Grid := grid } p
  exact ⟨hf.roomCode, hf.gridSize, hf.players, hf.gameStarted, hf.rowWords, hf.columnWords,
    hf.grid, rfl⟩

theorem guessRoom_hand_ne (room : Room) (p q : String) (row col : Int)
    (grid : List (List Cell)) (over : Bool) (hq : q ≠ p) :
    (guessRoom room p row col grid over).hand q = room.hand q := by
  have h1 := DrawCard_hand_ne
    { room.setHand p ((room.hand p).erase (Card.mk row col)) with Grid := grid } p q hq
  have h2 : Room.hand { room.setHand p ((room.hand p).erase (Card.mk row col)) with
      Grid := grid } q = room.hand q := setHand_hand_ne room p q _ hq
  exact h1.trans h2

/-- The deck and the hand of the guessing player after a successful `SubmitGuess`. -/
theorem guessRoom_cards (room : Room) (p : String) (row col : Int)
    (grid : List (List Cell)) (over : Bool) :
    (∃ card rest, room.CardDeck = card :: rest ∧
      ((room.hand p).erase (Card.mk row col)).length < room.GetCardsPerPlayer ∧
      (guessRoom room p row col grid over).CardDeck = rest ∧
      (guessRoom room p row col grid over).hand p =
        (room.hand p).erase (Card.mk row col) ++ [card]) ∨
    ((room.CardDeck = [] ∨
        room.GetCardsPerPlayer ≤ ((room.hand p).erase (Card.mk row col)).length) ∧
      (guessRoom room p row col grid over).CardDeck = room.CardDeck ∧
      (guessRoom room p row col grid over).hand p = (room.hand p).erase (Card.mk row col)) := by
  have hhand0 : Room.hand { room.setHand p ((room.hand p).erase (Card.mk row col)) with
      Grid := grid } p = (room.hand p).erase (Card.mk row col) :=
    setHand_hand_self room p _
  have hcap0 : Room.GetCardsPerPlayer { room.setHand p ((room.hand p).erase (Card.mk row col))
      with Grid := grid } = room.GetCardsPerPlayer := rfl
  have hdeck0 : Room.CardDeck { room.setHand p ((room.hand p).erase (Card.mk row col)) with
      Grid := grid } = room.CardDeck := rfl
  have hdraw := DrawCard_cases
    { room.setHand p ((room.hand p).erase (Card.mk row col)) with Grid := grid } p
  rw [hhand0, hcap0, hdeck0] at hdraw
  rcases hdraw with ⟨card, rest, hd, hl, he⟩ | ⟨hc, he⟩
  · refine Or.inl ⟨card, rest, hd, hl, ?_, ?_⟩
    · unfold guessRoom
      rw [he]
      rfl
    · unfold guessRoom
      rw [he]
      exact setHand_hand_self _ p _
  · refine Or.inr ⟨hc, ?_, ?_⟩
    · unfold guessRoom
      rw [he]
      rfl
    · unfold guessRoom
      rw [he]
      exact hhand0

theorem guessRoom_checkGameOver (room : Room) (p : String) (row col : Int)
    (grid : List (List Cell)) (over over1 : Bool) :
    (guessRoom room p row col grid over).CheckGameOver =
      (guessRoom room p row col grid over1).CheckGameOver := rfl

/-! ## The example run is reachable -/

set_option maxRecDepth 100000

theorem isShuffle_id {α : Type} : IsShuffle (id : List α → List α) :=
  fun l => List.Perm.refl l

theorem exRooms0_eq :
    CreateRoom id id [] "R1" 3 "A" = some (exRooms0, some (exRoom exRooms0), none) := by
  decide

theorem exRooms2_eq : StartGame id id exRooms1 "R1" = some (exRooms2, none) := by
  decide

theorem exRooms3_eq :
    SubmitGuess exRooms2 "R1" "A" 0 0 true = some (exRooms3, false, none) := by
  decide

theorem exRooms2_get : mapGet exRooms2 "R1" = some (exRoom exRooms2) := by
  decide

theorem exRooms3_get : mapGet exRooms3 "R1" = some (exRoom exRooms3) := by
  decide

theorem exRooms2_reachablePlayed :
    ReachablePlayed exRooms2 (Function.update (Function.update (fun _ => []) "R1" []) "R1" []) :=
  ReachablePlayed.startGame id id "R1"
    (ReachablePlayed.joinRoom "R1" "B"
      (ReachablePlayed.createRoom id id "R1" 3 "A" ReachablePlayed.empty isShuffle_id
        isShuffle_id exRooms0_eq))
    isShuffle_id isShuffle_id exRooms2_eq

theorem exRooms3_reachablePlayed : ReachablePlayed exRooms3 exPlayed :=
  ReachablePlayed.submitGuess "R1" "A" 0 0 true exRooms2_reachablePlayed exRooms3_eq


/-! ## Card accounting -/

/-- C1, refuted as stated: after `CreateRoom("R1", 3, "A")`, `JoinRoom("R1", "B")`,
`StartGame("R1")` and the successful `SubmitGuess("R1", "A", 0, 0, true)` the deck and the
hands of the 3-by-3 room hold 8 cards, not 9, and the card `(0, 0)` is in none of them. -/
theorem C1_counterexample :
    Reachable exRooms3 ∧ mapGet exRooms3 "R1" = some (exRoom exRooms3) ∧
      (exRoom exRooms3).GridSize = 3 ∧
      (exRoom exRooms3).CardDeck.length + (exRoom exRooms3).allHands.length = 8 ∧
      Card.mk 0 0 ∉ (exRoom exRooms3).circulation ∧
      ¬ (exRoom exRooms3).circulation.Perm (allCards (exRoom exRooms3).GridSize) := by
  refine ⟨exRooms3_reachablePlayed.reachable, exRooms3_get, by decide, by decide, by decide, ?_⟩
  intro h
  have := h.length_eq
  revert this
  decide

/-- C1, amended: in every reachable registry, with `played` the cards guessed in each room
since its last deal (`CreateRoom` or `StartGame`), the deck, the hands and the played cards
of a room together are exactly the `GridSize * GridSize` coordinates, each once; so
`|deck| + sum of hand sizes = GridSize^2 - |played|`. -/
theorem C1_card_accounting (rooms : Registry) (played : String → List Card)
    (h : ReachablePlayed rooms played) (code : String) (room : Room)
    (hg : mapGet rooms code = some room) :
    (room.CardDeck ++ room.allHands ++ played code).Perm (allCards room.GridSize) ∧
    (room.CardDeck ++ room.allHands ++ played code).Nodup ∧
    (∀ c : Card, c ∈ room.CardDeck ++ room.allHands ++ played code ↔
      0 ≤ c.Row ∧ c.Row < room.GridSize ∧ 0 ≤ c.Column ∧ c.Column < room.GridSize) ∧
    room.CardDeck.length + room.allHands.length + (played code).length =
      room.GridSize.toNat * room.GridSize.toNat := by
  have hinv := h.inv code room hg
  have hp : (room.CardDeck ++ room.allHands ++ played code).Perm (allCards room.GridSize) :=
    hinv.cards
  refine ⟨hp, hp.nodup_iff.2 (allCards_nodup _), ?_, ?_⟩
  · intro c
    rw [hp.mem_iff]
    exact mem_allCards _ c
  · have := hp.length_eq
    rw [allCards_length] at this
    simpa [Nat.add_assoc] using this

/-- Witness of `C1_card_accounting`: the example run after the first guess. -/
theorem C1_card_accounting_witness :
    ((exRoom exRooms3).CardDeck ++ (exRoom exRooms3).allHands ++ exPlayed "R1").Perm
      (allCards (exRoom exRooms3).GridSize) ∧
    ((exRoom exRooms3).CardDeck ++ (exRoom exRooms3).allHands ++ exPlayed "R1").Nodup ∧
    (∀ c : Card, c ∈ (exRoom exRooms3).CardDeck ++ (exRoom exRooms3).allHands ++ exPlayed "R1" ↔
      0 ≤ c.Row ∧ c.Row < (exRoom exRooms3).GridSize ∧
      0 ≤ c.Column ∧ c.Column < (exRoom exRooms3).GridSize) ∧
    (exRoom exRooms3).CardDeck.length + (exRoom exRooms3).allHands.length +
        (exPlayed "R1").length =
      (exRoom exRooms3).GridSize.toNat * (exRoom exRooms3).GridSize.toNat :=
  C1_card_accounting exRooms3 exPlayed exRooms3_reachablePlayed "R1" (exRoom exRooms3)
    exRooms3_get

/-! ## Errors of `SubmitGuess` and atomic rejection -/

/-- C2: `SubmitGuess` returns the error of the first failing check, in the order room,
started, over, player, card, changing nothing; it returns no error when no check fails, and
then, in a reachable registry, it succeeds. -/
theorem C2_submitGuess_error_selection (rooms : Registry) (code p : String) (row col : Int)
    (correct : Bool) :
    (∀ e, submitGuessError rooms code p row col = some e →
      SubmitGuess rooms code p row col correct = some (rooms, false, some e)) ∧
    (∀ rooms1 over e, SubmitGuess rooms code p row col correct = some (rooms1, over, some e) →
      submitGuessError rooms code p row col = some e) ∧
    (Reachable rooms → submitGuessError rooms code p row col = none →
      ∃ rooms1 over, SubmitGuess rooms code p row col correct = some (rooms1, over, none)) := by
  refine ⟨fun e he => SubmitGuess_of_error correct he, ?_, ?_⟩
  · intro rooms1 over e h
    exact (SubmitGuess_error_inv h).1
  · intro hreach he
    obtain ⟨room, hg, hst, hov, hp, hc⟩ := submitGuessError_eq_none he
    obtain ⟨pl, hinv⟩ := hreach.roomInv hg
    exact SubmitGuess_no_panic correct hinv hg hst hov hp hc

/-- Witness of `C2_submitGuess_error_selection`: in the started example room the guess of
`"A"` on `(0, 0)` passes all checks and succeeds, and a guess on `(2, 2)`, which `"A"` does
not hold, is rejected with `ErrNoCard`. -/
theorem C2_submitGuess_error_selection_witness :
    (∃ rooms1 over, SubmitGuess exRooms2 "R1" "A" 0 0 true = some (rooms1, over, none)) ∧
    SubmitGuess exRooms2 "R1" "A" 2 2 true = some (exRooms2, false, some GameError.ErrNoCard) :=
  ⟨(C2_submitGuess_error_selection exRooms2 "R1" "A" 0 0 true).2.2
      exRooms2_reachablePlayed.reachable (by decide),
    (C2_submitGuess_error_selection exRooms2 "R1" "A" 2 2 true).1 GameError.ErrNoCard
      (by decide)⟩

/-- C3: a call of `CreateRoom`, `JoinRoom`, `LeaveRoom`, `StartGame` or `SubmitGuess` that
returns an error leaves the registry, hence every room in it, as it was; a `SubmitGuess` on a
cell whose card the player does not hold returns `ErrNoCard`. -/
theorem C3_atomic_rejection (rooms : Registry) :
    (∀ shuffleW shuffleC code g p rooms1 room e,
      CreateRoom shuffleW shuffleC rooms code g p = some (rooms1, room, some e) →
        rooms1 = rooms) ∧
    (∀ code p e, (JoinRoom rooms code p).2.2 = some e → (JoinRoom rooms code p).1 = rooms) ∧
    (∀ code p e, (LeaveRoom rooms code p).2 = some e → (LeaveRoom rooms code p).1 = rooms) ∧
    (∀ shuffleW shuffleC code rooms1 e,
      StartGame shuffleW shuffleC rooms code = some (rooms1, some e) → rooms1 = rooms) ∧
    (∀ code p row col correct rooms1 over e,
      SubmitGuess rooms code p row col correct = some (rooms1, over, some e) →
        rooms1 = rooms) ∧
    (∀ code p row col correct room, mapGet rooms code = some room →
      room.GameStarted = true → room.GameOver = false → p ∈ room.Players →
      Card.mk row col ∉ room.hand p →
        SubmitGuess rooms code p row col correct =
          some (rooms, false, some GameError.ErrNoCard)) := by
  refine ⟨?_, ?_, ?_, ?_, ?_, ?_⟩
  · intro shuffleW shuffleC code g p rooms1 room e h
    unfold CreateRoom at h
    split at h
    · simp only [Option.some.injEq, Prod.mk.injEq] at h
      exact h.1.symm
    · split at h
      · cases h
      · cases hassign : assignWords (shuffleWords shuffleW) g.toNat (List.range g.toNat)
            (List.replicate g.toNat "", List.replicate g.toNat "") with
        | none =>
          simp only [hassign] at h
          cases h
        | some out =>
          simp [hassign] at h
  · intro code p e h
    unfold JoinRoom at h ⊢
    cases hg : mapGet rooms code with
    | none => rfl
    | some room =>
      simp only [hg] at h ⊢
      split
      · rfl
      · rename_i hp
        simp [hp] at h
  · intro code p e h
    unfold LeaveRoom at h ⊢
    cases hg : mapGet rooms code with
    | none => rfl
    | some room =>
      simp only [hg] at h ⊢
      split
      · rfl
      · rename_i hp
        simp [hp] at h
  · intro shuffleW shuffleC code rooms1 e h
    unfold StartGame at h
    cases hg : mapGet rooms code with
    | none =>
      simp only [hg, Option.some.injEq, Prod.mk.injEq] at h
      exact h.1.symm
    | some room =>
      simp only [hg] at h
      split at h
      · simp only [Option.some.injEq, Prod.mk.injEq] at h
        exact h.1.symm
      · cases hassign : assignWords (shuffleWords shuffleW) room.GridSize.toNat
            (List.range room.GridSize.toNat) (room.RowWords, room.ColumnWords) with
        | none =>
          simp only [hassign] at h
          cases h
        | some out =>
          cases hgrid : resetGrid room.Grid (gridCoords room.GridSize.toNat) with
          | none =>
            simp only [hassign, hgrid] at h
            cases h
          | some grid =>
            simp [hassign, hgrid] at h
  · intro code p row col correct rooms1 over e h
    exact (SubmitGuess_error_inv h).2.1
  · intro code p row col correct room hg hst hov hp hc
    apply SubmitGuess_of_error
    unfold submitGuessError
    simp [hg, hst, hov, hp, hc]

/-- Witness of `C3_atomic_rejection`: in the started example room a second `JoinRoom` of
`"A"` is rejected and a guess of `"A"` on `(1, 2)`, which is still in the deck, is rejected
with `ErrNoCard`; the registry stays as it was. -/
theorem C3_atomic_rejection_witness :
    (JoinRoom exRooms2 "R1" "A").1 = exRooms2 ∧
    SubmitGuess exRooms2 "R1" "A" 1 2 false =
      some (exRooms2, false, some GameError.ErrNoCard) :=
  ⟨(C3_atomic_rejection exRooms2).2.1 "R1" "A" GameError.ErrPlayerExists (by decide),
    (C3_atomic_rejection exRooms2).2.2.2.2.2 "R1" "A" 1 2 false (exRoom exRooms2) exRooms2_get
      (by decide) (by decide) (by decide) (by decide)⟩

/-! ## Effects of a successful `SubmitGuess` -/

/-- C4: a successful `SubmitGuess` sets `GuessedCorrectly` of the cell `(row, col)` when
`correct` holds and leaves its `DiscardedBy` alone, and otherwise sets its `DiscardedBy` to
the player and leaves `GuessedCorrectly` alone; every other cell, the player list, the words
and the started flag are unchanged. -/
theorem C4_submitGuess_grid_effect (rooms rooms1 : Registry) (code p : String) (row col : Int)
    (correct over : Bool) (room : Room)
    (h : SubmitGuess rooms code p row col correct = some (rooms1, over, none))
    (hg : mapGet rooms code = some room) :
    ∃ room1 cell cell1, mapGet rooms1 code = some room1 ∧
      room.cell row col = some cell ∧ room1.cell row col = some cell1 ∧
      (correct = true →
        cell1.GuessedCorrectly = true ∧ cell1.DiscardedBy = cell.DiscardedBy) ∧
      (correct = false →
        cell1.DiscardedBy = p ∧ cell1.GuessedCorrectly = cell.GuessedCorrectly) ∧
      (∀ r c : Int, r ≠ row ∨ c ≠ col → room1.cell r c = room.cell r c) ∧
      room1.Players = room.Players ∧ room1.RowWords = room.RowWords ∧
      room1.ColumnWords = room.ColumnWords ∧ room1.GameStarted = room.GameStarted := by
  obtain ⟨room0, grid, hg0, _, _, _, _, hgrid, _, hr1⟩ := SubmitGuess_success h
  rw [hg] at hg0
  cases hg0
  obtain ⟨hrow, hcol, cell, hcell, hcells⟩ := resolveCell_spec hgrid
  obtain ⟨_, _, hpl, hst, hrw, hcw, hgr, _⟩ := guessRoom_frame room p row col grid over
  have hneg : ¬ (row < 0 ∨ col < 0) := by omega
  refine ⟨guessRoom room p row col grid over, cell,
    if correct then { cell with GuessedCorrectly := true } else { cell with DiscardedBy := p },
    by rw [hr1, mapGet_mapSet_self], ?_, ?_, ?_, ?_, ?_, hpl, hrw, hcw, hst⟩
  · simp only [Room.cell, hneg, if_false]
    exact hcell
  · simp only [Room.cell, hneg, if_false]
    rw [hgr, hcells]
    simp
  · intro hc
    simp [hc]
  · intro hc
    simp [hc]
  · intro r c hne
    simp only [Room.cell]
    by_cases hrc : r < 0 ∨ c < 0
    · simp [hrc]
    · simp only [hrc, if_false]
      rw [hgr, hcells]
      have : ¬ (r.toNat = row.toNat ∧ c.toNat = col.toNat) := by omega
      simp [this]

/-- Witness of `C4_submitGuess_grid_effect`: the first guess of the example run. -/
theorem C4_submitGuess_grid_effect_witness :
    ∃ room1 cell cell1, mapGet exRooms3 "R1" = some room1 ∧
      (exRoom exRooms2).cell 0 0 = some cell ∧ room1.cell 0 0 = some cell1 ∧
      (true = true →
        cell1.GuessedCorrectly = true ∧ cell1.DiscardedBy = cell.DiscardedBy) ∧
      (true = false →
        cell1.DiscardedBy = "A" ∧ cell1.GuessedCorrectly = cell.GuessedCorrectly) ∧
      (∀ r c : Int, r ≠ 0 ∨ c ≠ 0 → room1.cell r c = (exRoom exRooms2).cell r c) ∧
      room1.Players = (exRoom exRooms2).Players ∧ room1.RowWords = (exRoom exRooms2).RowWords ∧
      room1.ColumnWords = (exRoom exRooms2).ColumnWords ∧
      room1.GameStarted = (exRoom exRooms2).GameStarted :=
  C4_submitGuess_grid_effect exRooms2 exRooms3 "R1" "A" 0 0 true false (exRoom exRooms2)
    exRooms3_eq exRooms2_get

/-- C5: after a successful `SubmitGuess` the hand of the player is the old hand without its
first card `(row, col)`, followed by the first card of the old deck exactly when the old deck
was non-empty and the reduced hand is smaller than `GetCardsPerPlayer()`; the deck loses
that card in that case and is unchanged otherwise; the other hands are unchanged. A hand of 2
cards in a room of at most 3 players with a non-empty deck is a hand of 2 cards afterwards. -/
theorem C5_submitGuess_cards_effect (rooms rooms1 : Registry) (code p : String)
    (row col : Int) (correct over : Bool) (room : Room)
    (h : SubmitGuess rooms code p row col correct = some (rooms1, over, none))
    (hg : mapGet rooms code = some room) :
    ∃ room1, mapGet rooms1 code = some room1 ∧
      (room.CardDeck ≠ [] ∧
          ((room.hand p).erase (Card.mk row col)).length < room.GetCardsPerPlayer →
        ∃ card rest, room.CardDeck = card :: rest ∧ room1.CardDeck = rest ∧
          room1.hand p = (room.hand p).erase (Card.mk row col) ++ [card]) ∧
      (¬ (room.CardDeck ≠ [] ∧
          ((room.hand p).erase (Card.mk row col)).length < room.GetCardsPerPlayer) →
        room1.CardDeck = room.CardDeck ∧
          room1.hand p = (room.hand p).erase (Card.mk row col)) ∧
      (∀ q, q ≠ p → room1.hand q = room.hand q) ∧
      ((room.hand p).length = 2 → room.Players.length ≤ 3 → room.CardDeck ≠ [] →
        (room1.hand p).length = 2) := by
  obtain ⟨room0, grid, hg0, _, _, _, hcard, _, _, hr1⟩ := SubmitGuess_success h
  rw [hg] at hg0
  cases hg0
  have hcards := guessRoom_cards room p row col grid over
  have hmain : (room.CardDeck ≠ [] ∧
          ((room.hand p).erase (Card.mk row col)).length < room.GetCardsPerPlayer →
        ∃ card rest, room.CardDeck = card :: rest ∧
          (guessRoom room p row col grid over).CardDeck = rest ∧
          (guessRoom room p row col grid over).hand p =
            (room.hand p).erase (Card.mk row col) ++ [card]) := by
    rintro ⟨hne, hl⟩
    rcases hcards with ⟨card, rest, hd, _, h1, h2⟩ | ⟨hc, _, _⟩
    · exact ⟨card, rest, hd, h1, h2⟩
    · rcases hc with hc | hc
      · exact absurd hc hne
      · omega
  refine ⟨guessRoom room p row col grid over, by rw [hr1, mapGet_mapSet_self], hmain, ?_,
    fun q hq => guessRoom_hand_ne room p q row col grid over hq, ?_⟩
  · intro hn
    rcases hcards with ⟨card, rest, hd, hl, _, _⟩ | ⟨_, h1, h2⟩
    · exact absurd ⟨by rw [hd]; simp, hl⟩ hn
    · exact ⟨h1, h2⟩
  · intro hlen hpl hne
    have hel : ((room.hand p).erase (Card.mk row col)).length = 1 := by
      rw [List.length_erase_of_mem hcard, hlen]
    have hcap : room.GetCardsPerPlayer = 2 := by simp [Room.GetCardsPerPlayer, hpl]
    obtain ⟨card, rest, _, _, hh⟩ := hmain ⟨hne, by omega⟩
    rw [hh, List.length_append, hel]
    rfl

/-- Witness of `C5_submitGuess_cards_effect`: the first guess of the example run. -/
theorem C5_submitGuess_cards_effect_witness :
    ∃ room1, mapGet exRooms3 "R1" = some room1 ∧
      ((exRoom exRooms2).CardDeck ≠ [] ∧
          (((exRoom exRooms2).hand "A").erase (Card.mk 0 0)).length <
            (exRoom exRooms2).GetCardsPerPlayer →
        ∃ card rest, (exRoom exRooms2).CardDeck = card :: rest ∧ room1.CardDeck = rest ∧
          room1.hand "A" = ((exRoom exRooms2).hand "A").erase (Card.mk 0 0) ++ [card]) ∧
      (¬ ((exRoom exRooms2).CardDeck ≠ [] ∧
          (((exRoom exRooms2).hand "A").erase (Card.mk 0 0)).length <
            (exRoom exRooms2).GetCardsPerPlayer) →
        room1.CardDeck = (exRoom exRooms2).CardDeck ∧
          room1.hand "A" = ((exRoom exRooms2).hand "A").erase (Card.mk 0 0)) ∧
      (∀ q, q ≠ "A" → room1.hand q = (exRoom exRooms2).hand q) ∧
      (((exRoom exRooms2).hand "A").length = 2 → (exRoom exRooms2).Players.length ≤ 3 →
        (exRoom exRooms2).CardDeck ≠ [] → (room1.hand "A").length = 2) :=
  C5_submitGuess_cards_effect exRooms2 exRooms3 "R1" "A" 0 0 true false (exRoom exRooms2)
    exRooms3_eq exRooms2_get


/-! ## Game over -/

theorem IsOver.after_createRoom {rooms rooms1 : Registry} {code : String}
    {res : Option Room × Option GameError} (h : IsOver rooms code)
    (shuffleW : List String → List String) (shuffleC : List Card → List Card)
    (roomCode : String) (gridSize : Int) (playerName : String)
    (he : CreateRoom shuffleW shuffleC rooms roomCode gridSize playerName = some (rooms1, res)) :
    IsOver rooms1 code := by
  obtain ⟨room, hg, hst, hov⟩ := h
  unfold CreateRoom at he
  split at he
  · simp only [Option.some.injEq, Prod.mk.injEq] at he
    exact he.1 ▸ ⟨room, hg, hst, hov⟩
  · rename_i hex
    split at he
    · cases he
    · cases hassign : assignWords (shuffleWords shuffleW) gridSize.toNat
          (List.range gridSize.toNat)
          (List.replicate gridSize.toNat "", List.replicate gridSize.toNat "") with
      | none =>
        simp only [hassign] at he
        cases he
      | some out =>
        simp only [hassign, Option.some.injEq, Prod.mk.injEq] at he
        have hne : code ≠ roomCode := by
          intro hc
          rw [← hc, hg] at hex
          simp at hex
        refine ⟨room, ?_, hst, hov⟩
        rw [← he.1, mapGet_mapSet_ne _ _ _ _ hne]
        exact hg

theorem IsOver.after_joinRoom {rooms : Registry} {code : String} (h : IsOver rooms code)
    (roomCode playerName : String) : IsOver (JoinRoom rooms roomCode playerName).1 code := by
  obtain ⟨room, hg, hst, hov⟩ := h
  unfold JoinRoom
  cases hg1 : mapGet rooms roomCode with
  | none => exact ⟨room, hg, hst, hov⟩
  | some room1 =>
    simp only
    split
    · exact ⟨room, hg, hst, hov⟩
    · by_cases hc : code = roomCode
      · subst hc
        rw [hg] at hg1
        cases hg1
        have hf := (setHand_frame { room with Players := room.Players ++ [playerName] }
          playerName []).trans (drawN_frame _ playerName
            (Room.setHand { room with Players := room.Players ++ [playerName] }
              playerName []).GetCardsPerPlayer)
        refine ⟨_, mapGet_mapSet_self _ _ _, ?_, ?_⟩
        · rw [dealCount_fst, hf.gameStarted]
          exact hst
        · rw [dealCount_fst, hf.gameOver]
          exact hov
      · exact ⟨room, by rw [mapGet_mapSet_ne _ _ _ _ hc]; exact hg, hst, hov⟩

theorem IsOver.after_leaveRoom {rooms : Registry} {code : String} (h : IsOver rooms code)
    (roomCode playerName : String) : IsOver (LeaveRoom rooms roomCode playerName).1 code := by
  obtain ⟨room, hg, hst, hov⟩ := h
  unfold LeaveRoom
  cases hg1 : mapGet rooms roomCode with
  | none => exact ⟨room, hg, hst, hov⟩
  | some room1 =>
    simp only
    split
    · exact ⟨room, hg, hst, hov⟩
    · by_cases hc : code = roomCode
      · subst hc
        rw [hg] at hg1
        cases hg1
        refine ⟨_, mapGet_mapSet_self _ _ _, ?_, ?_⟩
        · split
          · exact hst
          · exact hst
        · split
          · exact hov
          · exact hov
      · exact ⟨room, by rw [mapGet_mapSet_ne _ _ _ _ hc]; exact hg, hst, hov⟩

theorem IsOver.after_startGame {rooms rooms1 : Registry} {code : String} {err : Option GameError}
    (h : IsOver rooms code) (shuffleW : List String → List String)
    (shuffleC : List Card → List Card) (roomCode : String) (hne : roomCode ≠ code)
    (he : StartGame shuffleW shuffleC rooms roomCode = some (rooms1, err)) :
    IsOver rooms1 code := by
  obtain ⟨room, hg, hst, hov⟩ := h
  unfold StartGame at he
  cases hg1 : mapGet rooms roomCode with
  | none =>
    simp only [hg1, Option.some.injEq, Prod.mk.injEq] at he
    exact he.1 ▸ ⟨room, hg, hst, hov⟩
  | some room1 =>
    simp only [hg1] at he
    split at he
    · simp only [Option.some.injEq, Prod.mk.injEq] at he
      exact he.1 ▸ ⟨room, hg, hst, hov⟩
    · cases hassign : assignWords (shuffleWords shuffleW) room1.GridSize.toNat
          (List.range room1.GridSize.toNat) (room1.RowWords, room1.ColumnWords) with
      | none =>
        simp only [hassign] at he
        cases he
      | some out =>
        cases hgrid : resetGrid room1.Grid (gridCoords room1.GridSize.toNat) with
        | none =>
          simp only [hassign, hgrid] at he
          cases he
        | some grid =>
          simp only [hassign, hgrid, Option.some.injEq, Prod.mk.injEq] at he
          refine ⟨room, ?_, hst, hov⟩
          rw [← he.1, mapGet_mapSet_ne _ _ _ _ (Ne.symm hne)]
          exact hg

theorem SubmitGuess_of_over {rooms : Registry} {code : String} (h : IsOver rooms code)
    (p : String) (row col : Int) (correct : Bool) :
    SubmitGuess rooms code p row col correct = some (rooms, false, some GameError.ErrGameOver) := by
  obtain ⟨room, hg, hst, hov⟩ := h
  apply SubmitGuess_of_error
  unfold submitGuessError
  simp [hg, hst, hov]

theorem IsOver.after_submitGuess {rooms rooms1 : Registry} {code : String}
    {res : Bool × Option GameError} (h : IsOver rooms code)
    (roomCode playerName : String) (row col : Int) (correct : Bool)
    (he : SubmitGuess rooms roomCode playerName row col correct = some (rooms1, res)) :
    IsOver rooms1 code := by
  by_cases hc : roomCode = code
  · subst hc
    rw [SubmitGuess_of_over h] at he
    simp only [Option.some.injEq, Prod.mk.injEq] at he
    exact he.1 ▸ h
  · obtain ⟨over, err⟩ := res
    cases err with
    | some e => exact (SubmitGuess_error_inv he).2.1 ▸ h
    | none =>
      obtain ⟨room1, grid, _, _, _, _, _, _, _, hr1⟩ := SubmitGuess_success he
      obtain ⟨room, hg, hst, hov⟩ := h
      refine ⟨room, ?_, hst, hov⟩
      rw [hr1, mapGet_mapSet_ne _ _ _ _ (Ne.symm hc)]
      exact hg

theorem IsOver.later {rooms rooms1 : Registry} {code : String} (h : IsOver rooms code)
    (hr : ReachableWithoutStart code rooms rooms1) : IsOver rooms1 code := by
  induction hr with
  | refl => exact h
  | createRoom shuffleW shuffleC roomCode gridSize playerName _ he ih =>
    exact ih.after_createRoom shuffleW shuffleC roomCode gridSize playerName he
  | joinRoom roomCode playerName _ ih => exact ih.after_joinRoom roomCode playerName
  | leaveRoom roomCode playerName _ ih => exact ih.after_leaveRoom roomCode playerName
  | startGame shuffleW shuffleC roomCode hne _ he ih =>
    exact ih.after_startGame shuffleW shuffleC roomCode hne he
  | submitGuess roomCode playerName row col correct _ he ih =>
    exact ih.after_submitGuess roomCode playerName row col correct he

/-- C6: a successful `SubmitGuess` returns the value of `CheckGameOver` on the grid after the
cell was resolved and stores it in `GameOver`; it is true exactly when every cell of that grid
is resolved, so when all other cells were resolved and this call resolves the cell
(`correct`, or a non-empty player name) it is true; and once it is true every `SubmitGuess`
on the room fails with `ErrGameOver` in every registry reached without a `StartGame` of the
room. -/
theorem C6_submitGuess_game_over (rooms rooms1 : Registry) (code p : String) (row col : Int)
    (correct over : Bool) (room : Room)
    (h : SubmitGuess rooms code p row col correct = some (rooms1, over, none))
    (hg : mapGet rooms code = some room) :
    ∃ room1, mapGet rooms1 code = some room1 ∧
      resolveCell room.Grid row col p correct = some room1.Grid ∧
      room1.CheckGameOver = some over ∧ room1.GameOver = over ∧
      (over = true ↔
        ∀ r c : Nat, r < room1.GridSize.toNat → c < room1.GridSize.toNat →
          ∃ cell, cellAt room1.Grid r c = some cell ∧ cell.Resolved) ∧
      ((∀ r c : Nat, r < room.GridSize.toNat → c < room.GridSize.toNat →
          ((r : Int) ≠ row ∨ (c : Int) ≠ col) →
          ∃ cell, cellAt room.Grid r c = some cell ∧ cell.Resolved) →
        (correct = true ∨ p ≠ "") → over = true) ∧
      (over = true → ∀ rooms2, ReachableWithoutStart code rooms1 rooms2 →
        ∀ p2 row2 col2 correct2,
          SubmitGuess rooms2 code p2 row2 col2 correct2 =
            some (rooms2, false, some GameError.ErrGameOver)) := by
  obtain ⟨room0, grid, hg0, hst, _, _, _, hgrid, hover, hr1⟩ := SubmitGuess_success h
  rw [hg] at hg0
  cases hg0
  obtain ⟨_, hgs, _, hst1, _, _, hgr, hov1⟩ := guessRoom_frame room p row col grid over
  have hget : mapGet rooms1 code = some (guessRoom room p row col grid over) := by
    rw [hr1, mapGet_mapSet_self]
  have hiff : over = true ↔
      ∀ r c : Nat, r < (guessRoom room p row col grid over).GridSize.toNat →
        c < (guessRoom room p row col grid over).GridSize.toNat →
        ∃ cell, cellAt (guessRoom room p row col grid over).Grid r c = some cell ∧
          cell.Resolved := by
    unfold Room.CheckGameOver at hover
    constructor
    · intro ho r c hr hc
      rw [ho, checkCells_eq_true_iff] at hover
      exact hover (r, c) ((mem_gridCoords _ _ _).2 ⟨hr, hc⟩)
    · intro hall
      have : checkCells (guessRoom room p row col grid over).Grid
          (gridCoords (guessRoom room p row col grid over).GridSize.toNat) = some true := by
        rw [checkCells_eq_true_iff]
        rintro ⟨r, c⟩ hrc
        obtain ⟨hr, hc⟩ := (mem_gridCoords _ _ _).1 hrc
        exact hall r c hr hc
      rw [this] at hover
      simpa using hover.symm
  refine ⟨guessRoom room p row col grid over, hget, by rw [hgr]; exact hgrid, hover, hov1,
    hiff, ?_, ?_⟩
  · intro hothers hres
    rw [hiff, hgs, hgr]
    obtain ⟨hrow, hcol, cell, hcell, hcells⟩ := resolveCell_spec hgrid
    intro r c hr hc
    rw [hcells]
    by_cases hrc : r = row.toNat ∧ c = col.toNat
    · simp only [hrc, and_self, if_true, Option.some.injEq, exists_eq_left']
      rcases hres with hres | hres
      · rw [hres]
        exact Or.inl rfl
      · cases correct with
        | true => exact Or.inl rfl
        | false => exact Or.inr hres
    · simp only [hrc, if_false]
      exact hothers r c hr hc (by omega)
  · intro ho rooms2 hlater p2 row2 col2 correct2
    have hisover : IsOver rooms1 code :=
      ⟨_, hget, by rw [hst1]; exact hst, by rw [hov1]; exact ho⟩
    exact SubmitGuess_of_over (hisover.later hlater) p2 row2 col2 correct2

/-- Witness of `C6_submitGuess_game_over`: in the started 1-by-1 room the guess of `"A"` on
`(0, 0)` resolves the only cell and returns true. -/
theorem C6_submitGuess_game_over_witness :
    ∃ room1, mapGet exOver3 "R1" = some room1 ∧
      resolveCell (exRoom exOver2).Grid 0 0 "A" true = some room1.Grid ∧
      room1.CheckGameOver = some true ∧ room1.GameOver = true ∧
      (true = true ↔
        ∀ r c : Nat, r < room1.GridSize.toNat → c < room1.GridSize.toNat →
          ∃ cell, cellAt room1.Grid r c = some cell ∧ cell.Resolved) ∧
      ((∀ r c : Nat, r < (exRoom exOver2).GridSize.toNat →
          c < (exRoom exOver2).GridSize.toNat → ((r : Int) ≠ 0 ∨ (c : Int) ≠ 0) →
          ∃ cell, cellAt (exRoom exOver2).Grid r c = some cell ∧ cell.Resolved) →
        (true = true ∨ "A" ≠ "") → true = true) ∧
      (true = true → ∀ rooms2, ReachableWithoutStart "R1" exOver3 rooms2 →
        ∀ p2 row2 col2 correct2,
          SubmitGuess rooms2 "R1" p2 row2 col2 correct2 =
            some (rooms2, false, some GameError.ErrGameOver)) :=
  C6_submitGuess_game_over exOver2 exOver3 "R1" "A" 0 0 true true (exRoom exOver2)
    (by decide) (by decide)


/-! ## Room methods: game-over detection, card cap, drawing -/

/-- C7: `CheckGameOver` returns true exactly when every cell `(row, col)` with
`0 <= row, col < GridSize` is resolved (guessed correctly, or `DiscardedBy` non-empty); on a
grid of `GridSize` rows of `GridSize` cells in which some cell is unresolved, in particular
exactly one, it returns false. -/
theorem C7_checkGameOver_iff_all_resolved (r : Room) :
    (r.CheckGameOver = some true ↔
      ∀ row col : Nat, row < r.GridSize.toNat → col < r.GridSize.toNat →
        ∃ cell, cellAt r.Grid row col = some cell ∧ cell.Resolved) ∧
    (GridDims r.Grid r.GridSize.toNat →
      (∃ row col : Nat, row < r.GridSize.toNat ∧ col < r.GridSize.toNat ∧
        ∃ cell, cellAt r.Grid row col = some cell ∧ ¬ cell.Resolved) →
      r.CheckGameOver = some false) := by
  constructor
  · unfold Room.CheckGameOver
    rw [checkCells_eq_true_iff]
    constructor
    · intro h row col hr hc
      exact h (row, col) ((mem_gridCoords _ _ _).2 ⟨hr, hc⟩)
    · rintro h ⟨row, col⟩ hrc
      obtain ⟨hr, hc⟩ := (mem_gridCoords _ _ _).1 hrc
      exact h row col hr hc
  · rintro hd ⟨row, col, hr, hc, cell, hcell, hres⟩
    apply checkCells_eq_false hd
    · rintro ⟨a, b⟩ hab
      exact (mem_gridCoords _ _ _).1 hab
    · exact ⟨(row, col), (mem_gridCoords _ _ _).2 ⟨hr, hc⟩, cell, hcell, hres⟩

/-- C8: `GetCardsPerPlayer` is 2 with at most 3 players and 1 with 4 or more, and depends
only on the length of the player list. -/
theorem C8_getCardsPerPlayer (r : Room) :
    (r.Players.length ≤ 3 → r.GetCardsPerPlayer = 2) ∧
    (4 ≤ r.Players.length → r.GetCardsPerPlayer = 1) ∧
    (∀ r1 : Room, r1.Players.length = r.Players.length →
      r1.GetCardsPerPlayer = r.GetCardsPerPlayer) := by
  refine ⟨?_, ?_, ?_⟩
  · intro h
    simp [Room.GetCardsPerPlayer, h]
  · intro h
    have h1 : ¬ r.Players.length ≤ 3 := by omega
    simp [Room.GetCardsPerPlayer, h1]
  · intro r1 h
    simp [Room.GetCardsPerPlayer, h]

theorem toValue_hand (r : Room) (p : String) : r.toValue.hand p = r.hand p := rfl

/-- On a room whose map was made, `DrawCard` on the room value is `Room.DrawCard`. -/
theorem DrawCard_toValue (r : Room) (p : String) :
    r.toValue.DrawCard p = some ((r.DrawCard p).1.toValue, (r.DrawCard p).2) := by
  unfold RoomValue.DrawCard Room.DrawCard
  cases hd : r.CardDeck with
  | nil => simp [Room.toValue, hd]
  | cons card rest =>
    have h1 : r.toValue.CardDeck = card :: rest := hd
    have h2 : r.toValue.GetCardsPerPlayer = r.GetCardsPerPlayer := rfl
    simp only [h1, h2, toValue_hand]
    split
    · rfl
    · rfl

theorem toValue_of_made (r : RoomValue) (h : r.PlayerHands ≠ none) :
    ∃ r0 : Room, r = r0.toValue := by
  obtain ⟨a, b, c, d, e, f, g, i, j, hands⟩ := r
  cases hands with
  | none => exact absurd rfl h
  | some hs => exact ⟨Room.mk a b c d e f g i j hs, rfl⟩

/-- C9, refuted as stated: on the room built by hand with one player, one card in the deck
and the nil map `PlayerHands`, the deck is non-empty and the hand of `"A"` is below the cap,
and `DrawCard("A")` panics. -/
theorem C9_counterexample :
    exNilRoom.PlayerHands = none ∧ exNilRoom.CardDeck ≠ [] ∧
      (exNilRoom.hand "A").length < exNilRoom.GetCardsPerPlayer ∧
      exNilRoom.DrawCard "A" = none := by
  decide

/-- C9, amended: on a room whose map `PlayerHands` is not nil, as in every room built by
`CreateRoom`, `DrawCard` returns without a panic; it returns true exactly when the deck is
non-empty and the hand holds fewer than `GetCardsPerPlayer()` cards; then the first card of
the deck moves to the end of that hand and the rest of the deck keeps its order; otherwise
the room is unchanged; the hands of the other players never change, and the map stays made.
On a room with the nil map `DrawCard` panics exactly when the deck is non-empty, and returns
false on the unchanged room otherwise. -/
theorem C9_drawCard (r : RoomValue) (p : String) :
    (r.PlayerHands ≠ none →
      ∃ r1 b, r.DrawCard p = some (r1, b) ∧
        (b = true ↔ r.CardDeck ≠ [] ∧ (r.hand p).length < r.GetCardsPerPlayer) ∧
        (b = true →
          ∃ card, r.CardDeck = card :: r1.CardDeck ∧ r1.hand p = r.hand p ++ [card]) ∧
        (b = false → r1 = r) ∧
        (∀ q, q ≠ p → r1.hand q = r.hand q) ∧
        r1.PlayerHands ≠ none) ∧
    (r.PlayerHands = none →
      (r.DrawCard p = none ↔ r.CardDeck ≠ []) ∧
      (r.CardDeck = [] → r.DrawCard p = some (r, false))) := by
  constructor
  · intro hmade
    obtain ⟨r0, hr0⟩ := toValue_of_made r hmade
    subst hr0
    refine ⟨_, _, DrawCard_toValue r0 p, ?_, ?_, ?_,
      fun q hq => DrawCard_hand_ne r0 p q hq, fun hn => by cases hn⟩
    · show (r0.DrawCard p).2 = true ↔
        r0.CardDeck ≠ [] ∧ (r0.hand p).length < r0.GetCardsPerPlayer
      rcases DrawCard_cases r0 p with ⟨card, rest, hd, hl, he⟩ | ⟨hc, he⟩
      · rw [he]
        simp [hd, hl]
      · rw [he]
        simp only [Bool.false_eq_true, false_iff, not_and, not_lt]
        intro hne
        rcases hc with hc | hc
        · exact absurd hc hne
        · exact hc
    · show (r0.DrawCard p).2 = true →
        ∃ card, r0.CardDeck = card :: (r0.DrawCard p).1.CardDeck ∧
          (r0.DrawCard p).1.hand p = r0.hand p ++ [card]
      rcases DrawCard_cases r0 p with ⟨card, rest, hd, hl, he⟩ | ⟨hc, he⟩
      · intro _
        rw [he]
        exact ⟨card, hd, setHand_hand_self _ p _⟩
      · rw [he]
        intro h
        cases h
    · intro hb
      rcases DrawCard_cases r0 p with ⟨card, rest, hd, hl, he⟩ | ⟨hc, he⟩
      · rw [he] at hb
        cases hb
      · rw [he]
  · intro hnil
    have hhand : r.hand p = [] := by
      unfold RoomValue.hand
      rw [hnil]
    have hcap : 0 < r.GetCardsPerPlayer := by
      unfold RoomValue.GetCardsPerPlayer
      split <;> omega
    unfold RoomValue.DrawCard
    cases hd : r.CardDeck with
    | nil => simp
    | cons card rest => simp [hhand, hcap, hnil]

/-- Witness of `C9_drawCard`: in the example room of `"A"` and `"B"`, whose map is made, the
name `"C"` has no hand yet and draws the first card of the deck. -/
theorem C9_drawCard_witness :
    ∃ r1 b, (exRoom exRooms1).toValue.DrawCard "C" = some (r1, b) ∧
      (b = true ↔ (exRoom exRooms1).toValue.CardDeck ≠ [] ∧
        ((exRoom exRooms1).toValue.hand "C").length <
          (exRoom exRooms1).toValue.GetCardsPerPlayer) ∧
      (b = true →
        ∃ card, (exRoom exRooms1).toValue.CardDeck = card :: r1.CardDeck ∧
          r1.hand "C" = (exRoom exRooms1).toValue.hand "C" ++ [card]) ∧
      (b = false → r1 = (exRoom exRooms1).toValue) ∧
      (∀ q, q ≠ "C" → r1.hand q = (exRoom exRooms1).toValue.hand q) ∧
      r1.PlayerHands ≠ none :=
  (C9_drawCard (exRoom exRooms1).toValue "C").1 (by decide)


/-! ## The card cap -/

theorem DrawCard_hand_le_cap (r : Room) (p : String) :
    ((r.DrawCard p).1.hand p).length ≤ max (r.hand p).length r.GetCardsPerPlayer := by
  rcases DrawCard_cases r p with ⟨card, rest, _, hl, he⟩ | ⟨_, he⟩
  · rw [he, setHand_hand_self]
    have hh : (Room.hand { r with CardDeck := rest } p) = r.hand p := rfl
    simp only [List.length_append, List.length_singleton]
    omega
  · rw [he]
    exact le_max_left _ _

theorem drawN_hand_le_cap (r : Room) (p : String) (k : Nat) :
    ((drawN r p k).hand p).length ≤ max (r.hand p).length r.GetCardsPerPlayer := by
  induction k generalizing r with
  | zero => exact le_max_left _ _
  | succ k ih =>
    simp only [drawN]
    have h1 := ih (r.DrawCard p).1
    have h2 := DrawCard_hand_le_cap r p
    have h3 : (r.DrawCard p).1.GetCardsPerPlayer = r.GetCardsPerPlayer :=
      GetCardsPerPlayer_congr (DrawCard_frame r p).players
    rw [h3] at h1
    omega

theorem dealCount_snd_le (r : Room) (p : String) (k : Nat) : (dealCount r p k).2 ≤ k := by
  induction k generalizing r with
  | zero => exact Nat.le_refl 0
  | succ k ih =>
    simp only [dealCount]
    have := ih (r.DrawCard p).1
    split <;> omega

theorem dealAll_hand_not_mem (r : Room) (ps : List String) (q : String) (hq : q ∉ ps) :
    (dealAll r ps).hand q = r.hand q := by
  induction ps generalizing r with
  | nil => rfl
  | cons p rest ih =>
    simp only [List.mem_cons, not_or] at hq
    simp only [dealAll]
    rw [ih _ hq.2, drawN_hand_ne _ p q _ hq.1, setHand_hand_ne r p q [] hq.1]

theorem dealAll_hand_le_cap (r : Room) (ps : List String) (hnd : ps.Nodup) :
    ∀ q ∈ ps, ((dealAll r ps).hand q).length ≤ r.GetCardsPerPlayer := by
  induction ps generalizing r with
  | nil => simp
  | cons p rest ih =>
    simp only [List.nodup_cons] at hnd
    have hcap : (drawN (r.setHand p []) p (r.setHand p []).GetCardsPerPlayer).GetCardsPerPlayer =
        r.GetCardsPerPlayer :=
      GetCardsPerPlayer_congr ((setHand_frame r p []).trans (drawN_frame _ p _)).players
    intro q hq
    simp only [dealAll]
    rcases List.mem_cons.1 hq with hq | hq
    · subst hq
      rw [dealAll_hand_not_mem _ rest q hnd.1]
      have h1 := drawN_hand_le_cap (r.setHand q []) q (r.setHand q []).GetCardsPerPlayer
      rw [setHand_hand_self] at h1
      have h2 : (r.setHand q []).GetCardsPerPlayer = r.GetCardsPerPlayer := rfl
      rw [h2] at h1
      simpa using h1
    · have h1 := ih (drawN (r.setHand p []) p (r.setHand p []).GetCardsPerPlayer) hnd.2 q hq
      rw [hcap] at h1
      exact h1

/-- A successful `StartGame`, unfolded. -/
theorem StartGame_success {rooms rooms1 : Registry} {code : String}
    {shuffleW : List String → List String} {shuffleC : List Card → List Card}
    (h : StartGame shuffleW shuffleC rooms code = some (rooms1, none)) :
    ∃ room rowWords columnWords grid, mapGet rooms code = some room ∧
      2 ≤ room.Players.length ∧
      assignWords (shuffleWords shuffleW) room.GridSize.toNat (List.range room.GridSize.toNat)
        (room.RowWords, room.ColumnWords) = some (rowWords, columnWords) ∧
      resetGrid room.Grid (gridCoords room.GridSize.toNat) = some grid ∧
      rooms1 = mapSet rooms code
        { dealAll { room with
              RowWords := rowWords
              ColumnWords := columnWords
              Grid := grid
              CardDeck := createCardDeck shuffleC room.GridSize } room.Players with
          GameStarted := true, GameOver := false } := by
  unfold StartGame at h
  cases hg : mapGet rooms code with
  | none => simp [hg] at h
  | some room =>
    simp only [hg] at h
    split at h
    · simp at h
    · rename_i hlen
      cases hassign : assignWords (shuffleWords shuffleW) room.GridSize.toNat
          (List.range room.GridSize.toNat) (room.RowWords, room.ColumnWords) with
      | none =>
        simp only [hassign] at h
        cases h
      | some out =>
        obtain ⟨rw, cw⟩ := out
        cases hgrid : resetGrid room.Grid (gridCoords room.GridSize.toNat) with
        | none =>
          simp only [hassign, hgrid] at h
          cases h
        | some grid =>
          simp only [hassign, hgrid, Option.some.injEq, Prod.mk.injEq, and_true] at h
          exact ⟨room, rw, cw, grid, rfl, by omega, hassign, hgrid, h.symm⟩

/-- The function `JoinRoom` when it succeeds. -/
theorem JoinRoom_success {rooms : Registry} {code p : String} {room : Room}
    (hg : mapGet rooms code = some room) (h : (JoinRoom rooms code p).2.2 = none) :
    p ∉ room.Players ∧
    JoinRoom rooms code p =
      (mapSet rooms code
        (drawN (Room.setHand { room with Players := room.Players ++ [p] } p []) p
          (Room.setHand { room with Players := room.Players ++ [p] } p []).GetCardsPerPlayer),
        (dealCount (Room.setHand { room with Players := room.Players ++ [p] } p []) p
          (Room.setHand { room with Players := room.Players ++ [p] } p []).GetCardsPerPlayer).2,
        none) := by
  by_cases hp : room.HasPlayer p = true
  · simp [JoinRoom, hg, hp] at h
  · refine ⟨fun hm => hp ((HasPlayer_iff room p).2 hm), ?_⟩
    simp only [JoinRoom, hg, hp, if_false, dealCount_fst]
    rfl

theorem exFour_reachable : Reachable exFour := by
  have h0 : CreateRoom id id [] "R1" 5 "P1" = some (exFour0, some (exRoom exFour0), none) := by
    decide
  exact Reachable.joinRoom "R1" "P4" (Reachable.joinRoom "R1" "P3" (Reachable.joinRoom "R1" "P2"
    (Reachable.createRoom id id "R1" 5 "P1" Reachable.empty isShuffle_id isShuffle_id h0)))

/-- C10, refuted as stated: after `CreateRoom("R1", 5, "P1")` and the joins of `"P2"`,
`"P3"` and `"P4"` the room has four players and `"P1"` still holds the 2 cards dealt at
creation. -/
theorem C10_counterexample :
    Reachable exFour ∧ mapGet exFour "R1" = some (exRoom exFour) ∧
      (exRoom exFour).Players.length = 4 ∧ ((exRoom exFour).hand "P1").length = 2 := by
  exact ⟨exFour_reachable, by decide, by decide, by decide⟩

/-- C10, amended: in every reachable room no hand holds more than 2 cards, and with four or
more players dealing never raises a hand above 1 card: `DrawCard` returns true only for an
empty hand and leaves no hand larger than 1 card unless it already was; a player joining a
room of three or more players is dealt at most 1 card and holds at most 1 card; after a
successful `StartGame` with four or more players every hand holds at most 1 card. -/
theorem C10_hand_cap (rooms : Registry) (code : String) (room : Room) (h : Reachable rooms)
    (hg : mapGet rooms code = some room) :
    (∀ p, (room.hand p).length ≤ 2) ∧
    (4 ≤ room.Players.length → ∀ p,
      ((room.DrawCard p).2 = true → room.hand p = []) ∧
      ((room.DrawCard p).1.hand p).length ≤ max 1 (room.hand p).length) ∧
    (3 ≤ room.Players.length → ∀ p, (JoinRoom rooms code p).2.2 = none →
      (JoinRoom rooms code p).2.1 ≤ 1 ∧
      ∃ room1, mapGet (JoinRoom rooms code p).1 code = some room1 ∧
        (room1.hand p).length ≤ 1) ∧
    (4 ≤ room.Players.length → ∀ shuffleW shuffleC rooms1,
      StartGame shuffleW shuffleC rooms code = some (rooms1, none) →
      ∃ room1, mapGet rooms1 code = some room1 ∧ ∀ p, (room1.hand p).length ≤ 1) := by
  obtain ⟨pl, hinv⟩ := h.roomInv hg
  refine ⟨hinv.handCap, ?_, ?_, ?_⟩
  · intro h4 p
    have hcap : room.GetCardsPerPlayer = 1 := by
      have : ¬ room.Players.length ≤ 3 := by omega
      simp [Room.GetCardsPerPlayer, this]
    constructor
    · intro hd
      rcases DrawCard_cases room p with ⟨card, rest, _, hl, _⟩ | ⟨_, he⟩
      · rw [hcap] at hl
        exact List.length_eq_zero.1 (by omega)
      · rw [he] at hd
        cases hd
    · have := DrawCard_hand_le_cap room p
      rw [hcap] at this
      omega
  · intro h3 p hjoin
    obtain ⟨_, hj⟩ := JoinRoom_success hg hjoin
    rw [hj]
    have hcap : (Room.setHand { room with Players := room.Players ++ [p] } p
        []).GetCardsPerPlayer = 1 := by
      have : ¬ (room.Players ++ [p]).length ≤ 3 := by
        rw [List.length_append, List.length_singleton]
        omega
      show (if (room.Players ++ [p]).length ≤ 3 then 2 else 1) = 1
      rw [if_neg this]
    rw [hcap]
    refine ⟨?_, _, mapGet_mapSet_self _ _ _, ?_⟩
    · exact dealCount_snd_le _ p 1
    · have := drawN_hand_le_cap (Room.setHand { room with Players := room.Players ++ [p] } p [])
        p 1
      rw [setHand_hand_self, hcap] at this
      simpa using this
  · intro h4 shuffleW shuffleC rooms1 hs
    obtain ⟨room0, rw, cw, grid, hg0, _, _, _, hr1⟩ := StartGame_success hs
    rw [hg] at hg0
    cases hg0
    refine ⟨_, by rw [hr1, mapGet_mapSet_self], ?_⟩
    intro p
    have hcap : Room.GetCardsPerPlayer { room with
        RowWords := rw
        ColumnWords := cw
        Grid := grid
        CardDeck := createCardDeck shuffleC room.GridSize } = 1 := by
      have : ¬ room.Players.length ≤ 3 := by omega
      simp [Room.GetCardsPerPlayer, this]
    show ((dealAll { room with
        RowWords := rw
        ColumnWords := cw
        Grid := grid
        CardDeck := createCardDeck shuffleC room.GridSize } room.Players).hand p).length ≤ 1
    by_cases hp : p ∈ room.Players
    · have := dealAll_hand_le_cap { room with
        RowWords := rw
        ColumnWords := cw
        Grid := grid
        CardDeck := createCardDeck shuffleC room.GridSize } room.Players hinv.nodup p hp
      rw [hcap] at this
      exact this
    · rw [dealAll_hand_not_mem _ _ p hp]
      have hk : p ∉ room.PlayerHands.map Prod.fst := by
        rw [hinv.keys]
        exact hp
      have : Room.hand { room with
          RowWords := rw
          ColumnWords := cw
          Grid := grid
          CardDeck := createCardDeck shuffleC room.GridSize } p = [] :=
        hand_eq_nil_of_not_mem _ p hk
      rw [this]
      exact Nat.zero_le 1

/-- Witness of `C10_hand_cap`: the room of four players. -/
theorem C10_hand_cap_witness :
    (∀ p, ((exRoom exFour).hand p).length ≤ 2) ∧
    (4 ≤ (exRoom exFour).Players.length → ∀ p,
      (((exRoom exFour).DrawCard p).2 = true → (exRoom exFour).hand p = []) ∧
      (((exRoom exFour).DrawCard p).1.hand p).length ≤ max 1 ((exRoom exFour).hand p).length) ∧
    (3 ≤ (exRoom exFour).Players.length → ∀ p, (JoinRoom exFour "R1" p).2.2 = none →
      (JoinRoom exFour "R1" p).2.1 ≤ 1 ∧
      ∃ room1, mapGet (JoinRoom exFour "R1" p).1 "R1" = some room1 ∧
        (room1.hand p).length ≤ 1) ∧
    (4 ≤ (exRoom exFour).Players.length → ∀ shuffleW shuffleC rooms1,
      StartGame shuffleW shuffleC exFour "R1" = some (rooms1, none) →
      ∃ room1, mapGet rooms1 "R1" = some room1 ∧ ∀ p, (room1.hand p).length ≤ 1) :=
  C10_hand_cap exFour "R1" (exRoom exFour) exFour_reachable (by decide)


/-! ## Removing a card from a hand -/

/-- C11: `RemoveCardFromHand` returns true exactly when the hand holds a card equal to
`(row, col)`, that is when `HasCard` is true; then the new hand is the old one without its
first such card, the other cards in their order, one card shorter; otherwise the room is
unchanged; the deck and the other hands never change. -/
theorem C11_removeCardFromHand (r : Room) (p : String) (row col : Int) :
    ((r.RemoveCardFromHand p row col).2 = true ↔ Card.mk row col ∈ r.hand p) ∧
    ((r.RemoveCardFromHand p row col).2 = r.HasCard p row col) ∧
    ((r.RemoveCardFromHand p row col).2 = true →
      (r.RemoveCardFromHand p row col).1.hand p = (r.hand p).erase (Card.mk row col) ∧
      (∃ before after, r.hand p = before ++ Card.mk row col :: after ∧
        Card.mk row col ∉ before ∧
        (r.RemoveCardFromHand p row col).1.hand p = before ++ after) ∧
      ((r.RemoveCardFromHand p row col).1.hand p).length + 1 = (r.hand p).length) ∧
    ((r.RemoveCardFromHand p row col).2 = false → (r.RemoveCardFromHand p row col).1 = r) ∧
    (r.RemoveCardFromHand p row col).1.CardDeck = r.CardDeck ∧
    (∀ q, q ≠ p → (r.RemoveCardFromHand p row col).1.hand q = r.hand q) := by
  by_cases h : Card.mk row col ∈ r.hand p
  · have he := RemoveCardFromHand_of_mem r p row col h
    have hc : r.HasCard p row col = true := (HasCard_iff r p row col).2 h
    rw [he]
    refine ⟨by simp [h], by simp [hc], ?_, by simp, rfl, ?_⟩
    · intro _
      refine ⟨setHand_hand_self r p _, ?_, ?_⟩
      · obtain ⟨before, after, hnot, hsplit, herase⟩ := List.exists_erase_eq h
        exact ⟨before, after, hsplit, hnot, (setHand_hand_self r p _).trans herase⟩
      · rw [setHand_hand_self, List.length_erase_of_mem h]
        have : 0 < (r.hand p).length := List.length_pos_of_mem h
        omega
    · intro q hq
      exact setHand_hand_ne r p q _ hq
  · have he := RemoveCardFromHand_of_not_mem r p row col h
    have hc : r.HasCard p row col = false := by
      rw [← Bool.not_eq_true, HasCard_iff]
      exact h
    rw [he]
    exact ⟨by simp [h], by simp [hc], by simp, fun _ => rfl, rfl, fun _ _ => rfl⟩

/-! ## Exact effect of the dealing loops -/

/-- The number of cards that `count` calls of `DrawCard` move from the deck to a hand. -/
theorem drawN_spec (r : Room) (p : String) (count : Nat) :
    (drawN r p count).hand p =
      r.hand p ++ r.CardDeck.take
        (min count (min (r.GetCardsPerPlayer - (r.hand p).length) r.CardDeck.length)) ∧
    (drawN r p count).CardDeck =
      r.CardDeck.drop
        (min count (min (r.GetCardsPerPlayer - (r.hand p).length) r.CardDeck.length)) := by
  induction count generalizing r with
  | zero => simp [drawN]
  | succ k ih =>
    simp only [drawN]
    rcases DrawCard_cases r p with ⟨card, rest, hd, hl, he⟩ | ⟨hc, he⟩
    · have h1 := ih (r.DrawCard p).1
      have hcap : (r.DrawCard p).1.GetCardsPerPlayer = r.GetCardsPerPlayer :=
        GetCardsPerPlayer_congr (DrawCard_frame r p).players
      have hhand : (r.DrawCard p).1.hand p = r.hand p ++ [card] := by
        rw [he]
        exact setHand_hand_self _ p _
      have hdeck : (r.DrawCard p).1.CardDeck = rest := by
        rw [he]
        rfl
      rw [hcap, hhand, hdeck] at h1
      have hm : min (k + 1) (min (r.GetCardsPerPlayer - (r.hand p).length) (card :: rest).length) =
          min k (min (r.GetCardsPerPlayer - (r.hand p ++ [card]).length) rest.length) + 1 := by
        simp only [List.length_cons, List.length_append, List.length_singleton, List.length_nil]
        omega
      rw [hd, hm]
      simp only [List.take_succ_cons, List.drop_succ_cons]
      constructor
      · rw [h1.1]
        simp
      · exact h1.2
    · have h1 := ih r
      rw [he]
      have hm : min (k + 1) (min (r.GetCardsPerPlayer - (r.hand p).length) r.CardDeck.length) =
          min k (min (r.GetCardsPerPlayer - (r.hand p).length) r.CardDeck.length) := by
        rcases hc with hc | hc
        · rw [hc]
          simp
        · have : r.GetCardsPerPlayer - (r.hand p).length = 0 := by omega
          rw [this]
          simp
      rw [hm]
      exact h1

theorem dealCount_snd (r : Room) (p : String) (count : Nat) :
    (dealCount r p count).2 =
      min count (min (r.GetCardsPerPlayer - (r.hand p).length) r.CardDeck.length) := by
  induction count generalizing r with
  | zero => simp [dealCount]
  | succ k ih =>
    simp only [dealCount]
    rcases DrawCard_cases r p with ⟨card, rest, hd, hl, he⟩ | ⟨hc, he⟩
    · have h1 := ih (r.DrawCard p).1
      have hcap : (r.DrawCard p).1.GetCardsPerPlayer = r.GetCardsPerPlayer :=
        GetCardsPerPlayer_congr (DrawCard_frame r p).players
      have hhand : (r.DrawCard p).1.hand p = r.hand p ++ [card] := by
        rw [he]
        exact setHand_hand_self _ p _
      have hdeck : (r.DrawCard p).1.CardDeck = rest := by
        rw [he]
        rfl
      rw [hcap, hhand, hdeck] at h1
      have h2 : (r.DrawCard p).2 = true := by rw [he]
      rw [h1, h2, hd]
      simp only [if_true, List.length_cons, List.length_append, List.length_singleton,
        List.length_nil]
      omega
    · have h1 := ih r
      have h2 : (r.DrawCard p).2 = false := by rw [he]
      have h3 : (r.DrawCard p).1 = r := by rw [he]
      rw [h3, h1, h2]
      simp only [Bool.false_eq_true, if_false]
      rcases hc with hc | hc
      · rw [hc]
        simp
      · have : r.GetCardsPerPlayer - (r.hand p).length = 0 := by omega
        rw [this]
        simp

theorem assignWords_of_bounds (words : List String) (n : Nat) (l : List Nat)
    (rc : List String × List String)
    (hl : ∀ i ∈ l, i + n < words.length ∧ i < rc.1.length ∧ i < rc.2.length) :
    ∃ out, assignWords words n l rc = some out := by
  induction l generalizing rc with
  | nil => exact ⟨rc, rfl⟩
  | cons i rest ih =>
    obtain ⟨rw, cw⟩ := rc
    obtain ⟨h1, h2, h3⟩ := hl i (List.mem_cons_self _ _)
    simp only at h2 h3
    have hw : words[i]? = some words[i] := List.getElem?_eq_getElem (by omega)
    have hw1 : words[i + n]? = some words[i + n] := List.getElem?_eq_getElem h1
    unfold assignWords
    simp only [hw, hw1, setAt, h2, h3, if_true]
    apply ih
    intro j hj
    obtain ⟨g1, g2, g3⟩ := hl j (List.mem_cons_of_mem _ hj)
    simp only at g2 g3
    simp only [List.length_set]
    exact ⟨g1, g2, g3⟩

theorem resetGrid_of_dims {grid : List (List Cell)} {n : Nat} (hd : GridDims grid n)
    (l : List (Nat × Nat)) (hl : ∀ rc ∈ l, rc.1 < n ∧ rc.2 < n) :
    ∃ grid1, resetGrid grid l = some grid1 := by
  induction l generalizing grid with
  | nil => exact ⟨grid, rfl⟩
  | cons rc rest ih =>
    obtain ⟨row, col⟩ := rc
    obtain ⟨hr, hc⟩ := hl (row, col) (List.mem_cons_self _ _)
    obtain ⟨g1, hg1⟩ := setCell_of_dims (Cell.mk false "") hd hr hc
    simp only [resetGrid, hg1]
    exact ih (setCell_dims hg1 hd) fun rc h => hl rc (List.mem_cons_of_mem _ h)

/-- After the grid-reset loop every visited cell is unresolved and the others are as before. -/
theorem resetGrid_spec {grid grid1 : List (List Cell)} (l : List (Nat × Nat))
    (h : resetGrid grid l = some grid1) (r c : Nat) :
    cellAt grid1 r c = if (r, c) ∈ l then some (Cell.mk false "") else cellAt grid r c := by
  induction l generalizing grid with
  | nil =>
    simp only [resetGrid, Option.some.injEq] at h
    simp [h]
  | cons rc rest ih =>
    obtain ⟨row, col⟩ := rc
    simp only [resetGrid] at h
    cases hs : setCell grid row col (Cell.mk false "") with
    | none => simp [hs] at h
    | some g1 =>
      simp only [hs] at h
      rw [ih h, cellAt_setCell hs]
      by_cases h1 : (r, c) ∈ rest
      · simp [h1]
      · by_cases h2 : r = row ∧ c = col
        · simp [h2]
        · have h3 : ¬ (r, c) = (row, col) := fun e => h2 (Prod.mk.inj e)
          simp [h1, h2, h3]

theorem cellAt_newGrid (n r c : Nat) (hr : r < n) (hc : c < n) :
    cellAt (newGrid n) r c = some (Cell.mk false "") := by
  simp [cellAt, newGrid, List.getElem?_map, List.getElem?_range, hr, hc]

theorem cellAt_eq_some_lt {grid : List (List Cell)} {n r c : Nat} {cell : Cell}
    (hd : GridDims grid n) (h : cellAt grid r c = some cell) : r < n ∧ c < n := by
  unfold cellAt at h
  cases hr : grid[r]? with
  | none => simp [hr] at h
  | some cells =>
    simp only [hr] at h
    obtain ⟨h1, h2⟩ := List.getElem?_eq_some_iff.1 hr
    obtain ⟨h3, _⟩ := List.getElem?_eq_some_iff.1 h
    have := hd.2 cells (List.getElem?_mem hr)
    exact ⟨hd.1 ▸ h1, this ▸ h3⟩

/-! ## Creating a room -/

/-- The function `CreateRoom` on an unused code, when the word loop does not panic. -/
theorem CreateRoom_of_free {rooms : Registry} {code : String} {g : Int}
    {rowWords columnWords : List String} (shuffleW : List String → List String)
    (shuffleC : List Card → List Card) (p : String) (hfree : mapGet rooms code = none)
    (hg : 0 ≤ g)
    (hassign : assignWords (shuffleWords shuffleW) g.toNat (List.range g.toNat)
      (List.replicate g.toNat "", List.replicate g.toNat "") = some (rowWords, columnWords)) :
    CreateRoom shuffleW shuffleC rooms code g p =
      some (mapSet rooms code
          (drawN (newRoom code g p rowWords columnWords (createCardDeck shuffleC g)) p 2),
        some (drawN (newRoom code g p rowWords columnWords (createCardDeck shuffleC g)) p 2),
        none) := by
  have hneg : ¬ g < 0 := by omega
  unfold CreateRoom
  simp only [hfree, Option.isSome_none, Bool.false_eq_true, if_false, hneg, hassign]
  rfl

/-- The function `CreateRoom` on a code in use. -/
theorem CreateRoom_of_used {rooms : Registry} {code : String}
    (shuffleW : List String → List String) (shuffleC : List Card → List Card) (g : Int)
    (p : String) (hused : (mapGet rooms code).isSome = true) :
    CreateRoom shuffleW shuffleC rooms code g p =
      some (rooms, none, some GameError.ErrRoomExists) := by
  unfold CreateRoom
  simp only [hused, if_true]

theorem IsShuffle.length_eq {α : Type} {shuffle : List α → List α} (h : IsShuffle shuffle)
    (l : List α) : (shuffle l).length = l.length :=
  (h l).length_eq

/-- The word loop writes `words[i]` to `rowWords[i]` and `words[i + gridSize]` to
`columnWords[i]` for the indices it visits and leaves the other entries alone. -/
theorem assignWords_spec (words : List String) (n : Nat) (l : List Nat)
    (rc out : List String × List String) (h : assignWords words n l rc = some out) (i : Nat) :
    (i ∈ l → out.1[i]? = words[i]? ∧ out.2[i]? = words[i + n]?) ∧
    (i ∉ l → out.1[i]? = rc.1[i]? ∧ out.2[i]? = rc.2[i]?) := by
  induction l generalizing rc with
  | nil =>
    simp only [assignWords, Option.some.injEq] at h
    subst h
    simp
  | cons j rest ih =>
    obtain ⟨rw, cw⟩ := rc
    unfold assignWords at h
    split at h
    · rename_i w w1 hw hw1
      split at h
      · rename_i rw1 cw1 h1 h2
        obtain ⟨ihin, ihout⟩ := ih _ h
        have hrw : ∀ k, rw1[k]? = if k = j then some w else rw[k]? := by
          intro k
          unfold setAt at h1
          split at h1
          · rename_i hlt
            simp only [Option.some.injEq] at h1
            subst h1
            by_cases hk : k = j
            · subst hk
              simp [hlt]
            · simp [hk, List.getElem?_set_ne (Ne.symm hk)]
          · cases h1
        have hcw : ∀ k, cw1[k]? = if k = j then some w1 else cw[k]? := by
          intro k
          unfold setAt at h2
          split at h2
          · rename_i hlt
            simp only [Option.some.injEq] at h2
            subst h2
            by_cases hk : k = j
            · subst hk
              simp [hlt]
            · simp [hk, List.getElem?_set_ne (Ne.symm hk)]
          · cases h2
        by_cases hmem : i ∈ rest
        · exact ⟨fun _ => ihin hmem, fun hn => absurd (List.mem_cons_of_mem _ hmem) hn⟩
        · obtain ⟨e1, e2⟩ := ihout hmem
          simp only at e1 e2
          constructor
          · intro hi
            have hij : i = j := by
              rcases List.mem_cons.1 hi with hij | hij
              · exact hij
              · exact absurd hij hmem
            subst hij
            rw [e1, e2, hrw, hcw, if_pos rfl, if_pos rfl, hw, hw1]
            exact ⟨rfl, rfl⟩
          · intro hi
            have hij : i ≠ j := fun hij => hi (hij ▸ List.mem_cons_self _ _)
            rw [e1, e2, hrw, hcw, if_neg hij, if_neg hij]
            exact ⟨rfl, rfl⟩
      · cases h
    · cases h

/-- The words written by the word loop of `CreateRoom`: the first `n` words and the next `n`
words of the shuffled catalog. -/
theorem assignWords_fresh (words : List String) (n : Nat) (out : List String × List String)
    (h : assignWords words n (List.range n) (List.replicate n "", List.replicate n "") =
      some out) :
    out.1 = words.take n ∧ out.2 = (words.drop n).take n := by
  have hlen := assignWords_length _ _ _ _ _ h
  simp only [List.length_replicate] at hlen
  have hcat := assignWords_catalog _ _ _ _ h
  constructor
  · apply List.ext_getElem?
    intro i
    by_cases hi : i < n
    · rw [((assignWords_spec _ _ _ _ _ h i).1 (List.mem_range.2 hi)).1, List.getElem?_take]
      simp [hi]
    · rw [List.getElem?_eq_none (by omega), List.getElem?_eq_none]
      simp only [List.length_take]
      omega
  · apply List.ext_getElem?
    intro i
    by_cases hi : i < n
    · rw [((assignWords_spec _ _ _ _ _ h i).1 (List.mem_range.2 hi)).2, List.getElem?_take]
      simp [hi, Nat.add_comm]
    · rw [List.getElem?_eq_none (by omega), List.getElem?_eq_none]
      simp only [List.length_take, List.length_drop]
      omega

theorem not_mem_wordList_empty : "" ∉ wordList := by
  decide

/-- C12, refuted as stated: `CreateRoom` with grid size 100 on an empty registry panics, the
catalog of 198 words being shorter than the 200 words the word loop reads. -/
theorem C12_counterexample :
    (2 : Int) ≤ 100 ∧ mapGet ([] : Registry) "R1" = none ∧ IsShuffle (id : List String → List String) ∧
      IsShuffle (id : List Card → List Card) ∧ wordList.length = 198 ∧
      CreateRoom id id [] "R1" 100 "A" = none := by
  refine ⟨by decide, rfl, isShuffle_id, isShuffle_id, by decide, by decide⟩

/-- C12, amended: `CreateRoom` on an unused code with grid size `g`, `2 <= g` and
`2 * g` at most the 198 words of the catalog (so `g <= 99`), succeeds for every shuffle and
registers a room with that code, `GridSize = g`, `Players = [firstPlayer]`, both flags false,
`g` row words and `g` column words, which are the first `g` and the next `g` words of the
shuffled catalog, each a non-empty word of the catalog, a `g`-by-`g` grid of unresolved
cells, 2 cards in the hand of the first player and `g * g - 2` cards in the deck; the other
rooms are untouched. -/
theorem C12_createRoom_success (shuffleW : List String → List String)
    (shuffleC : List Card → List Card) (rooms : Registry) (code : String) (g : Int)
    (p : String) (hw : IsShuffle shuffleW) (hc : IsShuffle shuffleC)
    (hfree : mapGet rooms code = none) (hg : 2 ≤ g) (hcat : 2 * g ≤ 198) :
    ∃ rooms1 room, CreateRoom shuffleW shuffleC rooms code g p = some (rooms1, some room, none) ∧
      mapGet rooms1 code = some room ∧
      (∀ code2, code2 ≠ code → mapGet rooms1 code2 = mapGet rooms code2) ∧
      room.RoomCode = code ∧ room.GridSize = g ∧ room.Players = [p] ∧
      room.GameStarted = false ∧ room.GameOver = false ∧
      room.RowWords.length = g.toNat ∧ room.ColumnWords.length = g.toNat ∧
      room.RowWords = (shuffleWords shuffleW).take g.toNat ∧
      room.ColumnWords = ((shuffleWords shuffleW).drop g.toNat).take g.toNat ∧
      (∀ w ∈ room.RowWords ++ room.ColumnWords, w ∈ wordList ∧ w ≠ "") ∧
      GridDims room.Grid g.toNat ∧
      (∀ r c : Nat, r < g.toNat → c < g.toNat →
        cellAt room.Grid r c = some (Cell.mk false "")) ∧
      (room.hand p).length = 2 ∧ room.CardDeck.length = g.toNat * g.toNat - 2 := by
  have hwl : (shuffleWords shuffleW).length = 198 := by
    unfold shuffleWords
    rw [hw.length_eq]
    decide
  obtain ⟨out, hassign⟩ := assignWords_of_bounds (shuffleWords shuffleW) g.toNat
    (List.range g.toNat) (List.replicate g.toNat "", List.replicate g.toNat "") (by
      intro i hi
      have := List.mem_range.1 hi
      simp only [List.length_replicate]
      omega)
  obtain ⟨rw, cw⟩ := out
  have hlen := assignWords_length _ _ _ _ _ hassign
  simp only [List.length_replicate] at hlen
  have hwords := assignWords_fresh _ _ _ hassign
  simp only at hwords
  have hcatw : ∀ w ∈ shuffleWords shuffleW, w ∈ wordList ∧ w ≠ "" := by
    intro w hmem
    have hin : w ∈ wordList := (hw wordList).subset hmem
    exact ⟨hin, fun he => not_mem_wordList_empty (he ▸ hin)⟩
  have hdeck : (createCardDeck shuffleC g).length = g.toNat * g.toNat := by
    rw [(createCardDeck_perm shuffleC hc g).length_eq, allCards_length]
  have hf := drawN_frame (newRoom code g p rw cw (createCardDeck shuffleC g)) p 2
  have hspec := drawN_spec (newRoom code g p rw cw (createCardDeck shuffleC g)) p 2
  have hhand0 : (newRoom code g p rw cw (createCardDeck shuffleC g)).hand p = [] :=
    setHand_hand_self _ p []
  have hcap0 : (newRoom code g p rw cw (createCardDeck shuffleC g)).GetCardsPerPlayer = 2 := rfl
  have hdeck0 : (newRoom code g p rw cw (createCardDeck shuffleC g)).CardDeck =
      createCardDeck shuffleC g := rfl
  rw [hhand0, hcap0, hdeck0] at hspec
  have h4 : 4 ≤ g.toNat * g.toNat := by
    have : 2 ≤ g.toNat := by omega
    nlinarith
  have hm : min 2 (min (2 - ([] : List Card).length) (createCardDeck shuffleC g).length) = 2 := by
    rw [hdeck]
    simp only [List.length_nil]
    omega
  rw [hm] at hspec
  refine ⟨_, _, CreateRoom_of_free shuffleW shuffleC p hfree (by omega) hassign,
    mapGet_mapSet_self _ _ _, fun code2 h2 => mapGet_mapSet_ne _ _ _ _ h2,
    hf.roomCode, hf.gridSize, hf.players, hf.gameStarted, hf.gameOver,
    (congrArg List.length hf.rowWords).trans hlen.1,
    (congrArg List.length hf.columnWords).trans hlen.2,
    hf.rowWords.trans hwords.1, hf.columnWords.trans hwords.2, ?_, ?_, ?_, ?_, ?_⟩
  · intro w hmem
    rw [hf.rowWords.trans hwords.1, hf.columnWords.trans hwords.2] at hmem
    rcases List.mem_append.1 hmem with h1 | h1
    · exact hcatw w (List.mem_of_mem_take h1)
    · exact hcatw w (List.mem_of_mem_drop (List.mem_of_mem_take h1))
  · rw [hf.grid]
    exact newGrid_dims _
  · intro r c hr hcc
    rw [hf.grid]
    exact cellAt_newGrid _ r c hr hcc
  · rw [hspec.1]
    simp only [List.nil_append, List.length_take]
    omega
  · rw [hspec.2]
    simp only [List.length_drop]
    omega

/-- Witness of `C12_createRoom_success`: room `"R1"` of size 3 on the empty registry, whose
words with the identity shuffle are the first six of the catalog. -/
theorem C12_createRoom_success_witness :
    ∃ rooms1 room, CreateRoom id id [] "R1" 3 "A" = some (rooms1, some room, none) ∧
      mapGet rooms1 "R1" = some room ∧
      (∀ code2, code2 ≠ "R1" → mapGet rooms1 code2 = mapGet ([] : Registry) code2) ∧
      room.RoomCode = "R1" ∧ room.GridSize = 3 ∧ room.Players = ["A"] ∧
      room.GameStarted = false ∧ room.GameOver = false ∧
      room.RowWords.length = (3 : Int).toNat ∧ room.ColumnWords.length = (3 : Int).toNat ∧
      room.RowWords = (shuffleWords id).take (3 : Int).toNat ∧
      room.ColumnWords = ((shuffleWords id).drop (3 : Int).toNat).take (3 : Int).toNat ∧
      (∀ w ∈ room.RowWords ++ room.ColumnWords, w ∈ wordList ∧ w ≠ "") ∧
      GridDims room.Grid (3 : Int).toNat ∧
      (∀ r c : Nat, r < (3 : Int).toNat → c < (3 : Int).toNat →
        cellAt room.Grid r c = some (Cell.mk false "")) ∧
      (room.hand "A").length = 2 ∧ room.CardDeck.length = (3 : Int).toNat * (3 : Int).toNat - 2 :=
  C12_createRoom_success id id [] "R1" 3 "A" isShuffle_id isShuffle_id rfl (by decide)
    (by decide)

/-- C13: `CreateRoom` returns `ErrRoomExists` exactly when the registry holds a room with the
code, whatever the grid size and the player name; it then returns no room and leaves the
registry, the existing room included, as it was. -/
theorem C13_createRoom_exists (shuffleW : List String → List String)
    (shuffleC : List Card → List Card) (rooms : Registry) (code : String) (g : Int)
    (p : String) :
    ((∃ rooms1 room, CreateRoom shuffleW shuffleC rooms code g p =
        some (rooms1, room, some GameError.ErrRoomExists)) ↔ (mapGet rooms code).isSome = true) ∧
    ((mapGet rooms code).isSome = true →
      CreateRoom shuffleW shuffleC rooms code g p =
        some (rooms, none, some GameError.ErrRoomExists)) ∧
    (∀ rooms1 room e, CreateRoom shuffleW shuffleC rooms code g p = some (rooms1, room, some e) →
      e = GameError.ErrRoomExists ∧ rooms1 = rooms ∧ room = none ∧
        mapGet rooms1 code = mapGet rooms code) := by
  have herr : ∀ rooms1 room e,
      CreateRoom shuffleW shuffleC rooms code g p = some (rooms1, room, some e) →
      (mapGet rooms code).isSome = true ∧ e = GameError.ErrRoomExists ∧ rooms1 = rooms ∧
        room = none := by
    intro rooms1 room e h
    by_cases hused : (mapGet rooms code).isSome = true
    · rw [CreateRoom_of_used shuffleW shuffleC g p hused] at h
      simp only [Option.some.injEq, Prod.mk.injEq] at h
      exact ⟨hused, h.2.2.symm, h.1.symm, h.2.1.symm⟩
    · unfold CreateRoom at h
      split at h
      · rename_i hyes
        exact absurd hyes hused
      · split at h
        · cases h
        · cases hassign : assignWords (shuffleWords shuffleW) g.toNat (List.range g.toNat)
              (List.replicate g.toNat "", List.replicate g.toNat "") with
          | none =>
            simp only [hassign] at h
            cases h
          | some out =>
            simp [hassign] at h
  refine ⟨⟨?_, ?_⟩, fun hused => CreateRoom_of_used shuffleW shuffleC g p hused, ?_⟩
  · rintro ⟨rooms1, room, h⟩
    exact (herr rooms1 room _ h).1
  · intro hused
    exact ⟨rooms, none, CreateRoom_of_used shuffleW shuffleC g p hused⟩
  · intro rooms1 room e h
    obtain ⟨_, h1, h2, h3⟩ := herr rooms1 room e h
    exact ⟨h1, h2, h3, by rw [h2]⟩

/-- Witness of `C13_createRoom_exists`: a second `CreateRoom("R1", ...)` is rejected. -/
theorem C13_createRoom_exists_witness :
    CreateRoom id id exRooms0 "R1" 7 "Z" = some (exRooms0, none, some GameError.ErrRoomExists) :=
  (C13_createRoom_exists id id exRooms0 "R1" 7 "Z").2.1 (by decide)

/-! ## Joining and leaving a room -/

/-- C14: a successful `JoinRoom` appends the player to the list and returns
`k = min(c, d)`, `c` being 2 when the room now has at most 3 players and 1 otherwise and `d`
the size of the deck before the call; the hand of the new player is the first `k` cards of
the old deck, the deck is the old deck without them, and the other hands, the grid, the words
and the flags are unchanged. So with enough cards in the deck the 2nd and 3rd players are
dealt 2 cards and later players 1. -/
theorem C14_joinRoom_success (rooms : Registry) (code p : String) (room : Room)
    (hg : mapGet rooms code = some room) (hok : (JoinRoom rooms code p).2.2 = none) :
    ∃ room1, mapGet (JoinRoom rooms code p).1 code = some room1 ∧
      room1.Players = room.Players ++ [p] ∧
      (JoinRoom rooms code p).2.1 =
        min (if (room.Players ++ [p]).length ≤ 3 then 2 else 1) room.CardDeck.length ∧
      room1.hand p = room.CardDeck.take (JoinRoom rooms code p).2.1 ∧
      room1.CardDeck = room.CardDeck.drop (JoinRoom rooms code p).2.1 ∧
      (∀ q, q ≠ p → room1.hand q = room.hand q) ∧
      room1.Grid = room.Grid ∧ room1.GameStarted = room.GameStarted ∧
      room1.GameOver = room.GameOver ∧ room1.RowWords = room.RowWords ∧
      room1.ColumnWords = room.ColumnWords ∧ room1.GridSize = room.GridSize ∧
      room1.RoomCode = room.RoomCode ∧
      (room.Players.length + 1 ≤ 3 → 2 ≤ room.CardDeck.length →
        (JoinRoom rooms code p).2.1 = 2) ∧
      (3 ≤ room.Players.length → 1 ≤ room.CardDeck.length →
        (JoinRoom rooms code p).2.1 = 1) := by
  obtain ⟨_, hj⟩ := JoinRoom_success hg hok
  have hhand0 : (Room.setHand { room with Players := room.Players ++ [p] } p []).hand p = [] :=
    setHand_hand_self _ p []
  have hcap0 : (Room.setHand { room with Players := room.Players ++ [p] } p
      []).GetCardsPerPlayer = if (room.Players ++ [p]).length ≤ 3 then 2 else 1 := rfl
  have hdeck0 : (Room.setHand { room with Players := room.Players ++ [p] } p []).CardDeck =
      room.CardDeck := rfl
  have hspec := drawN_spec (Room.setHand { room with Players := room.Players ++ [p] } p []) p
    (Room.setHand { room with Players := room.Players ++ [p] } p []).GetCardsPerPlayer
  have hcount := dealCount_snd (Room.setHand { room with Players := room.Players ++ [p] } p [])
    p (Room.setHand { room with Players := room.Players ++ [p] } p []).GetCardsPerPlayer
  have hf := (setHand_frame { room with Players := room.Players ++ [p] } p []).trans
    (drawN_frame (Room.setHand { room with Players := room.Players ++ [p] } p []) p
      (Room.setHand { room with Players := room.Players ++ [p] } p []).GetCardsPerPlayer)
  rw [hhand0, hdeck0] at hspec hcount
  have hm : min (Room.setHand { room with Players := room.Players ++ [p] } p
        []).GetCardsPerPlayer
      (min ((Room.setHand { room with Players := room.Players ++ [p] } p
        []).GetCardsPerPlayer - ([] : List Card).length) room.CardDeck.length) =
      min (if (room.Players ++ [p]).length ≤ 3 then 2 else 1) room.CardDeck.length := by
    rw [hcap0]
    simp only [List.length_nil]
    omega
  rw [hm] at hspec hcount
  rw [hj]
  have hk : (dealCount (Room.setHand { room with Players := room.Players ++ [p] } p []) p
      (Room.setHand { room with Players := room.Players ++ [p] } p []).GetCardsPerPlayer).2 =
      min (if (room.Players ++ [p]).length ≤ 3 then 2 else 1) room.CardDeck.length := hcount
  refine ⟨_, mapGet_mapSet_self _ _ _, hf.players, hk, ?_, ?_, ?_, hf.grid, hf.gameStarted,
    hf.gameOver, hf.rowWords, hf.columnWords, hf.gridSize, hf.roomCode, ?_, ?_⟩
  · show _ = room.CardDeck.take (dealCount _ p _).2
    rw [hk, hspec.1]
    simp
  · show _ = room.CardDeck.drop (dealCount _ p _).2
    rw [hk, hspec.2]
  · intro q hq
    rw [drawN_hand_ne _ p q _ hq]
    exact setHand_hand_ne _ p q [] hq
  · intro h3 h2
    show (dealCount _ p _).2 = 2
    rw [hk]
    have : (room.Players ++ [p]).length ≤ 3 := by
      rw [List.length_append, List.length_singleton]
      exact h3
    rw [if_pos this]
    omega
  · intro h3 h1
    show (dealCount _ p _).2 = 1
    rw [hk]
    have : ¬ (room.Players ++ [p]).length ≤ 3 := by
      rw [List.length_append, List.length_singleton]
      omega
    rw [if_neg this]
    omega

/-- Witness of `C14_joinRoom_success`: `"C"` joins the started example room. -/
theorem C14_joinRoom_success_witness :
    ∃ room1, mapGet (JoinRoom exRooms2 "R1" "C").1 "R1" = some room1 ∧
      room1.Players = (exRoom exRooms2).Players ++ ["C"] ∧
      (JoinRoom exRooms2 "R1" "C").2.1 =
        min (if ((exRoom exRooms2).Players ++ ["C"]).length ≤ 3 then 2 else 1)
          (exRoom exRooms2).CardDeck.length ∧
      room1.hand "C" = (exRoom exRooms2).CardDeck.take (JoinRoom exRooms2 "R1" "C").2.1 ∧
      room1.CardDeck = (exRoom exRooms2).CardDeck.drop (JoinRoom exRooms2 "R1" "C").2.1 ∧
      (∀ q, q ≠ "C" → room1.hand q = (exRoom exRooms2).hand q) ∧
      room1.Grid = (exRoom exRooms2).Grid ∧
      room1.GameStarted = (exRoom exRooms2).GameStarted ∧
      room1.GameOver = (exRoom exRooms2).GameOver ∧
      room1.RowWords = (exRoom exRooms2).RowWords ∧
      room1.ColumnWords = (exRoom exRooms2).ColumnWords ∧
      room1.GridSize = (exRoom exRooms2).GridSize ∧
      room1.RoomCode = (exRoom exRooms2).RoomCode ∧
      ((exRoom exRooms2).Players.length + 1 ≤ 3 → 2 ≤ (exRoom exRooms2).CardDeck.length →
        (JoinRoom exRooms2 "R1" "C").2.1 = 2) ∧
      (3 ≤ (exRoom exRooms2).Players.length → 1 ≤ (exRoom exRooms2).CardDeck.length →
        (JoinRoom exRooms2 "R1" "C").2.1 = 1) :=
  C14_joinRoom_success exRooms2 "R1" "C" (exRoom exRooms2) exRooms2_get (by decide)

/-- C15: `JoinRoom` returns `ErrRoomNotFound` exactly when no room has the code and, for an
existing room, `ErrPlayerExists` exactly when the name is in its player list; with either
error, indeed with any error, the returned card count is 0. -/
theorem C15_joinRoom_errors (rooms : Registry) (code p : String) :
    ((JoinRoom rooms code p).2.2 = some GameError.ErrRoomNotFound ↔
      mapGet rooms code = none) ∧
    (∀ room, mapGet rooms code = some room →
      ((JoinRoom rooms code p).2.2 = some GameError.ErrPlayerExists ↔ p ∈ room.Players)) ∧
    (∀ e, (JoinRoom rooms code p).2.2 = some e → (JoinRoom rooms code p).2.1 = 0) := by
  cases hg : mapGet rooms code with
  | none =>
    have hj : JoinRoom rooms code p = (rooms, 0, some GameError.ErrRoomNotFound) := by
      simp [JoinRoom, hg]
    rw [hj]
    exact ⟨by simp, by simp, fun _ _ => rfl⟩
  | some room =>
    by_cases hp : room.HasPlayer p = true
    · have hj : JoinRoom rooms code p = (rooms, 0, some GameError.ErrPlayerExists) := by
        simp [JoinRoom, hg, hp]
      rw [hj]
      refine ⟨by simp, ?_, fun _ _ => rfl⟩
      intro room1 h1
      cases h1
      simp [(HasPlayer_iff room p).1 hp]
    · have hnone : (JoinRoom rooms code p).2.2 = none := by
        simp [JoinRoom, hg, hp]
      have hnot : p ∉ room.Players := fun hm => hp ((HasPlayer_iff room p).2 hm)
      rw [hnone]
      refine ⟨by simp, ?_, by simp⟩
      intro room1 h1
      cases h1
      simp [hnot]

/-- The function `LeaveRoom` when it succeeds. -/
theorem LeaveRoom_of_member {rooms : Registry} {code p : String} {room : Room}
    (hg : mapGet rooms code = some room) (hp : p ∈ room.Players) :
    LeaveRoom rooms code p = (mapSet rooms code (leftRoom room p), none) := by
  have h1 : room.HasPlayer p = true := (HasPlayer_iff room p).2 hp
  unfold LeaveRoom leftRoom
  simp only [hg, h1, Bool.not_true, Bool.false_eq_true, if_false]

theorem leftRoom_frame (room : Room) (p : String) :
    (leftRoom room p).RoomCode = room.RoomCode ∧ (leftRoom room p).GridSize = room.GridSize ∧
    (leftRoom room p).Players = room.Players.erase p ∧
    (leftRoom room p).GameStarted = room.GameStarted ∧
    (leftRoom room p).GameOver = room.GameOver ∧
    (leftRoom room p).RowWords = room.RowWords ∧
    (leftRoom room p).ColumnWords = room.ColumnWords ∧
    (leftRoom room p).Grid = room.Grid ∧
    (leftRoom room p).CardDeck = room.CardDeck ++ room.hand p ∧
    mapGet (leftRoom room p).PlayerHands p = none ∧
    (∀ q, q ≠ p → mapGet (leftRoom room p).PlayerHands q = mapGet room.PlayerHands q) := by
  cases hc : mapGet room.PlayerHands p with
  | none => simp [leftRoom, Room.hand, hc]
  | some cards =>
    simp only [leftRoom, Room.hand, hc, Option.getD_some, mapGet_mapDelete_self, true_and]
    exact fun q hq => mapGet_mapDelete_ne _ _ _ hq

/-- C16: `LeaveRoom` returns `ErrRoomNotFound` for an unknown code and `ErrPlayerNotFound`
for a name not in the room, changing nothing; otherwise it succeeds: the first occurrence of
the name leaves the player list (with a duplicate-free list the name is gone and the others
keep their order), the deck is the old deck followed by the hand of the player in hand order,
the hand entry of the player is deleted, and the other hands, the grid, the words and the
flags are unchanged. -/
theorem C16_leaveRoom (rooms : Registry) (code p : String) :
    (mapGet rooms code = none →
      LeaveRoom rooms code p = (rooms, some GameError.ErrRoomNotFound)) ∧
    (∀ room, mapGet rooms code = some room → p ∉ room.Players →
      LeaveRoom rooms code p = (rooms, some GameError.ErrPlayerNotFound)) ∧
    (∀ room, mapGet rooms code = some room → p ∈ room.Players →
      (LeaveRoom rooms code p).2 = none ∧
      ∃ room1, mapGet (LeaveRoom rooms code p).1 code = some room1 ∧
        room1.Players = room.Players.erase p ∧
        (room.Players.Nodup →
          room1.Players = room.Players.filter (fun q => decide (q ≠ p)) ∧
            p ∉ room1.Players) ∧
        room1.CardDeck = room.CardDeck ++ room.hand p ∧
        mapGet room1.PlayerHands p = none ∧
        (∀ q, q ≠ p → mapGet room1.PlayerHands q = mapGet room.PlayerHands q) ∧
        room1.Grid = room.Grid ∧ room1.RowWords = room.RowWords ∧
        room1.ColumnWords = room.ColumnWords ∧ room1.GameStarted = room.GameStarted ∧
        room1.GameOver = room.GameOver ∧ room1.GridSize = room.GridSize ∧
        room1.RoomCode = room.RoomCode) := by
  refine ⟨?_, ?_, ?_⟩
  · intro hg
    simp [LeaveRoom, hg]
  · intro room hg hp
    have h1 : room.HasPlayer p = false := by
      rw [← Bool.not_eq_true, HasPlayer_iff]
      exact hp
    simp [LeaveRoom, hg, h1]
  · intro room hg hp
    rw [LeaveRoom_of_member hg hp]
    obtain ⟨h1, h2, h3, h4, h5, h6, h7, h8, h9, h10, h11⟩ := leftRoom_frame room p
    refine ⟨rfl, leftRoom room p, mapGet_mapSet_self _ _ _, h3, ?_, h9, h10, h11, h8, h6, h7,
      h4, h5, h2, h1⟩
    intro hnd
    rw [h3, hnd.erase_eq_filter]
    constructor
    · apply List.filter_congr
      intro x _
      by_cases hx : x = p <;> simp [hx]
    · simp

/-- Witness of `C16_leaveRoom`: `"B"` leaves the started example room. -/
theorem C16_leaveRoom_witness :
    (LeaveRoom exRooms2 "R1" "B").2 = none ∧
      ∃ room1, mapGet (LeaveRoom exRooms2 "R1" "B").1 "R1" = some room1 ∧
        room1.Players = (exRoom exRooms2).Players.erase "B" ∧
        ((exRoom exRooms2).Players.Nodup →
          room1.Players = (exRoom exRooms2).Players.filter (fun q => decide (q ≠ "B")) ∧
            "B" ∉ room1.Players) ∧
        room1.CardDeck = (exRoom exRooms2).CardDeck ++ (exRoom exRooms2).hand "B" ∧
        mapGet room1.PlayerHands "B" = none ∧
        (∀ q, q ≠ "B" → mapGet room1.PlayerHands q = mapGet (exRoom exRooms2).PlayerHands q) ∧
        room1.Grid = (exRoom exRooms2).Grid ∧ room1.RowWords = (exRoom exRooms2).RowWords ∧
        room1.ColumnWords = (exRoom exRooms2).ColumnWords ∧
        room1.GameStarted = (exRoom exRooms2).GameStarted ∧
        room1.GameOver = (exRoom exRooms2).GameOver ∧
        room1.GridSize = (exRoom exRooms2).GridSize ∧
        room1.RoomCode = (exRoom exRooms2).RoomCode :=
  (C16_leaveRoom exRooms2 "R1" "B").2.2 (exRoom exRooms2) exRooms2_get (by decide)

/-! ## Starting and restarting a game -/

/-- In a room satisfying the invariant, `StartGame` with at least 2 players does not panic. -/
theorem StartGame_no_panic {rooms : Registry} {code : String} {room : Room} {pl : List Card}
    (shuffleW : List String → List String) (shuffleC : List Card → List Card)
    (hw : IsShuffle shuffleW) (hinv : RoomInv room pl) (hg : mapGet rooms code = some room)
    (h2 : 2 ≤ room.Players.length) :
    ∃ rooms1, StartGame shuffleW shuffleC rooms code = some (rooms1, none) := by
  have hwl : (shuffleWords shuffleW).length = wordList.length := hw.length_eq wordList
  obtain ⟨out, hassign⟩ := assignWords_of_bounds (shuffleWords shuffleW) room.GridSize.toNat
    (List.range room.GridSize.toNat) (room.RowWords, room.ColumnWords) (by
      intro i hi
      have h1 := List.mem_range.1 hi
      have h3 := hinv.catalog
      have h4 := hinv.rowWords
      have h5 := hinv.columnWords
      simp only
      omega)
  obtain ⟨rw, cw⟩ := out
  obtain ⟨grid, hgrid⟩ := resetGrid_of_dims hinv.grid (gridCoords room.GridSize.toNat) (by
    rintro ⟨a, b⟩ hab
    exact (mem_gridCoords _ _ _).1 hab)
  have hlt : ¬ room.Players.length < 2 := by omega
  unfold StartGame
  simp only [hg, hlt, if_false, hassign, hgrid]
  exact ⟨_, rfl⟩

/-- A `StartGame` that returns an error, unfolded. -/
theorem StartGame_error_inv {rooms rooms1 : Registry} {code : String} {e : GameError}
    {shuffleW : List String → List String} {shuffleC : List Card → List Card}
    (h : StartGame shuffleW shuffleC rooms code = some (rooms1, some e)) :
    rooms1 = rooms ∧
      ((mapGet rooms code = none ∧ e = GameError.ErrRoomNotFound) ∨
        (∃ room, mapGet rooms code = some room ∧ room.Players.length < 2 ∧
          e = GameError.ErrNotEnoughPlayers)) := by
  unfold StartGame at h
  cases hg : mapGet rooms code with
  | none =>
    simp only [hg, Option.some.injEq, Prod.mk.injEq] at h
    exact ⟨h.1.symm, Or.inl ⟨rfl, h.2.symm⟩⟩
  | some room =>
    simp only [hg] at h
    split at h
    · rename_i hlt
      simp only [Option.some.injEq, Prod.mk.injEq] at h
      exact ⟨h.1.symm, Or.inr ⟨room, rfl, hlt, h.2.symm⟩⟩
    · cases hassign : assignWords (shuffleWords shuffleW) room.GridSize.toNat
          (List.range room.GridSize.toNat) (room.RowWords, room.ColumnWords) with
      | none =>
        simp only [hassign] at h
        cases h
      | some out =>
        cases hgrid : resetGrid room.Grid (gridCoords room.GridSize.toNat) with
        | none =>
          simp only [hassign, hgrid] at h
          cases h
        | some grid =>
          simp [hassign, hgrid] at h

/-- C17: `StartGame` returns `ErrRoomNotFound` exactly when the room does not exist and, for
an existing room, `ErrNotEnoughPlayers` exactly when it has fewer than 2 players; in a
reachable registry every other call succeeds, whatever the flags of the room. -/
theorem C17_startGame_errors (shuffleW : List String → List String)
    (shuffleC : List Card → List Card) (rooms : Registry) (code : String) :
    ((∃ rooms1, StartGame shuffleW shuffleC rooms code =
        some (rooms1, some GameError.ErrRoomNotFound)) ↔ mapGet rooms code = none) ∧
    (∀ room, mapGet rooms code = some room →
      ((∃ rooms1, StartGame shuffleW shuffleC rooms code =
          some (rooms1, some GameError.ErrNotEnoughPlayers)) ↔ room.Players.length < 2)) ∧
    (Reachable rooms → IsShuffle shuffleW → ∀ room, mapGet rooms code = some room →
      2 ≤ room.Players.length →
      ∃ rooms1, StartGame shuffleW shuffleC rooms code = some (rooms1, none)) := by
  refine ⟨⟨?_, ?_⟩, ?_, ?_⟩
  · rintro ⟨rooms1, h⟩
    rcases (StartGame_error_inv h).2 with ⟨hn, _⟩ | ⟨room, _, _, he⟩
    · exact hn
    · cases he
  · intro hn
    exact ⟨rooms, by simp [StartGame, hn]⟩
  · intro room hg
    constructor
    · rintro ⟨rooms1, h⟩
      rcases (StartGame_error_inv h).2 with ⟨_, he⟩ | ⟨room1, hg1, hlt, _⟩
      · cases he
      · rw [hg] at hg1
        cases hg1
        exact hlt
    · intro hlt
      exact ⟨rooms, by simp [StartGame, hg, hlt]⟩
  · intro hreach hw room hg h2
    obtain ⟨pl, hinv⟩ := hreach.roomInv hg
    exact StartGame_no_panic shuffleW shuffleC hw hinv hg h2

/-- Witness of `C17_startGame_errors`: `StartGame` succeeds on the started example room and
fails with `ErrNotEnoughPlayers` on the room of one player. -/
theorem C17_startGame_errors_witness :
    (∃ rooms1, StartGame id id exRooms2 "R1" = some (rooms1, none)) ∧
    (∃ rooms1, StartGame id id exRooms0 "R1" =
      some (rooms1, some GameError.ErrNotEnoughPlayers)) :=
  ⟨(C17_startGame_errors id id exRooms2 "R1").2.2 exRooms2_reachablePlayed.reachable
      isShuffle_id (exRoom exRooms2) exRooms2_get (by decide),
    ((C17_startGame_errors id id exRooms0 "R1").2.1 (exRoom exRooms0) (by decide)).2
      (by decide)⟩

/-- C18: a successful `StartGame`, whatever the state of the room before, leaves
`GameStarted = true`, `GameOver = false` and every cell within `GridSize` unresolved, and
keeps the room code, `GridSize` and the player list; in a reachable registry these are all
the cells of the grid, and a second `StartGame` succeeds with the same flags. -/
theorem C18_startGame_restart (shuffleW : List String → List String)
    (shuffleC : List Card → List Card) (rooms rooms1 : Registry) (code : String) (room : Room)
    (h : StartGame shuffleW shuffleC rooms code = some (rooms1, none))
    (hg : mapGet rooms code = some room) :
    ∃ room1, mapGet rooms1 code = some room1 ∧
      room1.GameStarted = true ∧ room1.GameOver = false ∧
      (∀ r c : Nat, r < room1.GridSize.toNat → c < room1.GridSize.toNat →
        cellAt room1.Grid r c = some (Cell.mk false "")) ∧
      room1.RoomCode = room.RoomCode ∧ room1.GridSize = room.GridSize ∧
      room1.Players = room.Players ∧ 2 ≤ room.Players.length ∧
      (Reachable rooms → ∀ r c cell, cellAt room1.Grid r c = some cell →
        cell = Cell.mk false "") ∧
      (Reachable rooms → IsShuffle shuffleC →
        ∀ shuffleW2 shuffleC2, IsShuffle shuffleW2 →
          ∃ rooms2 room2, StartGame shuffleW2 shuffleC2 rooms1 code = some (rooms2, none) ∧
            mapGet rooms2 code = some room2 ∧ room2.GameStarted = true ∧
            room2.GameOver = false) := by
  obtain ⟨room0, rw, cw, grid, hg0, h2, hassign, hgrid, hr1⟩ := StartGame_success h
  rw [hg] at hg0
  cases hg0
  have hf := dealAll_frame { room with
      RowWords := rw
      ColumnWords := cw
      Grid := grid
      CardDeck := createCardDeck shuffleC room.GridSize } room.Players
  have hget : mapGet rooms1 code = some { dealAll { room with
      RowWords := rw
      ColumnWords := cw
      Grid := grid
      CardDeck := createCardDeck shuffleC room.GridSize } room.Players with
      GameStarted := true, GameOver := false } := by
    rw [hr1, mapGet_mapSet_self]
  have hgr : Room.Grid { dealAll { room with
      RowWords := rw
      ColumnWords := cw
      Grid := grid
      CardDeck := createCardDeck shuffleC room.GridSize } room.Players with
      GameStarted := true, GameOver := false } = grid := hf.grid
  have hgs : Room.GridSize { dealAll { room with
      RowWords := rw
      ColumnWords := cw
      Grid := grid
      CardDeck := createCardDeck shuffleC room.GridSize } room.Players with
      GameStarted := true, GameOver := false } = room.GridSize := hf.gridSize
  have hpl : Room.Players { dealAll { room with
      RowWords := rw
      ColumnWords := cw
      Grid := grid
      CardDeck := createCardDeck shuffleC room.GridSize } room.Players with
      GameStarted := true, GameOver := false } = room.Players := hf.players
  refine ⟨_, hget, rfl, rfl, ?_, hf.roomCode, hgs, hpl, h2, ?_, ?_⟩
  · intro r c hr hc
    rw [hgs] at hr hc
    rw [hgr, resetGrid_spec _ hgrid, if_pos ((mem_gridCoords _ _ _).2 ⟨hr, hc⟩)]
  · intro hreach r c cell hcell
    obtain ⟨pl, hinv⟩ := hreach.roomInv hg
    rw [hgr] at hcell
    have hd : GridDims grid room.GridSize.toNat := resetGrid_dims _ hgrid hinv.grid
    obtain ⟨hr, hc⟩ := cellAt_eq_some_lt hd hcell
    rw [resetGrid_spec _ hgrid, if_pos ((mem_gridCoords _ _ _).2 ⟨hr, hc⟩)] at hcell
    simp only [Option.some.injEq] at hcell
    exact hcell.symm
  · intro hreach hsc shuffleW2 shuffleC2 hw2
    obtain ⟨pl, hpl1⟩ := hreach.played
    have hinv1 := (hpl1.inv.startGame shuffleW shuffleC hsc code h) code _ hget
    obtain ⟨rooms2, h3⟩ := StartGame_no_panic shuffleW2 shuffleC2 hw2 hinv1 hget
      (by rw [hpl]; exact h2)
    obtain ⟨room2, rw2, cw2, grid2, _, _, _, _, hr2⟩ := StartGame_success h3
    exact ⟨rooms2, _, h3, by rw [hr2, mapGet_mapSet_self], rfl, rfl⟩

/-- Witness of `C18_startGame_restart`: `StartGame` on the example room of two players. -/
theorem C18_startGame_restart_witness :
    ∃ room1, mapGet exRooms2 "R1" = some room1 ∧
      room1.GameStarted = true ∧ room1.GameOver = false ∧
      (∀ r c : Nat, r < room1.GridSize.toNat → c < room1.GridSize.toNat →
        cellAt room1.Grid r c = some (Cell.mk false "")) ∧
      room1.RoomCode = (exRoom exRooms1).RoomCode ∧
      room1.GridSize = (exRoom exRooms1).GridSize ∧
      room1.Players = (exRoom exRooms1).Players ∧ 2 ≤ (exRoom exRooms1).Players.length ∧
      (Reachable exRooms1 → ∀ r c cell, cellAt room1.Grid r c = some cell →
        cell = Cell.mk false "") ∧
      (Reachable exRooms1 → IsShuffle (id : List Card → List Card) →
        ∀ shuffleW2 shuffleC2, IsShuffle shuffleW2 →
          ∃ rooms2 room2, StartGame shuffleW2 shuffleC2 exRooms2 "R1" = some (rooms2, none) ∧
            mapGet rooms2 "R1" = some room2 ∧ room2.GameStarted = true ∧
            room2.GameOver = false) :=
  C18_startGame_restart id id exRooms1 exRooms2 "R1" (exRoom exRooms1) exRooms2_eq (by decide)

theorem dealAll_exact (r : Room) (ps : List String) (hnd : ps.Nodup)
    (hlen : ps.length * r.GetCardsPerPlayer ≤ r.CardDeck.length) :
    (∀ p ∈ ps, ((dealAll r ps).hand p).length = r.GetCardsPerPlayer) ∧
    (dealAll r ps).CardDeck.length = r.CardDeck.length - ps.length * r.GetCardsPerPlayer := by
  induction ps generalizing r with
  | nil => simp [dealAll]
  | cons p rest ih =>
    simp only [List.nodup_cons] at hnd
    have hcap1 : (r.setHand p []).GetCardsPerPlayer = r.GetCardsPerPlayer := rfl
    have hcap2 : (drawN (r.setHand p []) p (r.setHand p []).GetCardsPerPlayer).GetCardsPerPlayer =
        r.GetCardsPerPlayer :=
      GetCardsPerPlayer_congr ((setHand_frame r p []).trans (drawN_frame _ p _)).players
    have hspec := drawN_spec (r.setHand p []) p (r.setHand p []).GetCardsPerPlayer
    have hdeck1 : (r.setHand p []).CardDeck = r.CardDeck := rfl
    rw [setHand_hand_self, hcap1, hdeck1] at hspec
    simp only [List.length_cons, Nat.succ_mul] at hlen
    have hm : min r.GetCardsPerPlayer
        (min (r.GetCardsPerPlayer - ([] : List Card).length) r.CardDeck.length) =
        r.GetCardsPerPlayer := by
      simp only [List.length_nil]
      omega
    rw [hm] at hspec
    have hdl : (drawN (r.setHand p []) p (r.setHand p []).GetCardsPerPlayer).CardDeck.length =
        r.CardDeck.length - r.GetCardsPerPlayer := by
      rw [hcap1, hspec.2, List.length_drop]
    have hih := ih (drawN (r.setHand p []) p (r.setHand p []).GetCardsPerPlayer) hnd.2 (by
      rw [hcap2, hdl]
      omega)
    rw [hcap2, hdl] at hih
    simp only [dealAll]
    constructor
    · intro q hq
      rcases List.mem_cons.1 hq with hq | hq
      · subst hq
        rw [dealAll_hand_not_mem _ rest q hnd.1, hcap1, hspec.1]
        simp only [List.nil_append, List.length_take]
        omega
      · exact hih.1 q hq
    · rw [hih.2]
      simp only [List.length_cons, Nat.succ_mul]
      omega

/-- C19: after a successful `StartGame` on a reachable room, for every shuffle, the deck and
the hands, which are the hands of the current players, together are exactly the
`GridSize * GridSize` coordinates `(row, col)` with `0 <= row, col < GridSize`, each once;
and when `n * c <= GridSize * GridSize` for the
`n` players and `c = GetCardsPerPlayer()`, every player holds exactly `c` cards and the deck
holds `GridSize * GridSize - n * c` cards, whatever the hands were before. -/
theorem C19_startGame_redeal (shuffleW : List String → List String)
    (shuffleC : List Card → List Card) (rooms rooms1 : Registry) (code : String) (room : Room)
    (hreach : Reachable rooms) (hsc : IsShuffle shuffleC)
    (h : StartGame shuffleW shuffleC rooms code = some (rooms1, none))
    (hg : mapGet rooms code = some room) :
    ∃ room1, mapGet rooms1 code = some room1 ∧
      room1.Players = room.Players ∧ room1.GridSize = room.GridSize ∧
      room1.allHands = room1.Players.flatMap room1.hand ∧
      (room1.CardDeck ++ room1.allHands).Perm (allCards room.GridSize) ∧
      (room1.CardDeck ++ room1.allHands).Nodup ∧
      (∀ c : Card, c ∈ room1.CardDeck ++ room1.allHands ↔
        0 ≤ c.Row ∧ c.Row < room.GridSize ∧ 0 ≤ c.Column ∧ c.Column < room.GridSize) ∧
      (room1.CardDeck ++ room1.allHands).length = room.GridSize.toNat * room.GridSize.toNat ∧
      (room.Players.length * room.GetCardsPerPlayer ≤
          room.GridSize.toNat * room.GridSize.toNat →
        (∀ p ∈ room.Players, (room1.hand p).length = room.GetCardsPerPlayer) ∧
        room1.CardDeck.length =
          room.GridSize.toNat * room.GridSize.toNat -
            room.Players.length * room.GetCardsPerPlayer) := by
  obtain ⟨room0, rw, cw, grid, hg0, h2, hassign, hgrid, hr1⟩ := StartGame_success h
  rw [hg] at hg0
  cases hg0
  obtain ⟨pl, hpl1⟩ := hreach.played
  have hinv := hpl1.inv code room hg
  have hget : mapGet rooms1 code = some { dealAll { room with
      RowWords := rw
      ColumnWords := cw
      Grid := grid
      CardDeck := createCardDeck shuffleC room.GridSize } room.Players with
      GameStarted := true, GameOver := false } := by
    rw [hr1, mapGet_mapSet_self]
  have hinv1 := (hpl1.inv.startGame shuffleW shuffleC hsc code h) code _ hget
  simp only [if_true, Function.update_same] at hinv1
  have hf := dealAll_frame { room with
      RowWords := rw
      ColumnWords := cw
      Grid := grid
      CardDeck := createCardDeck shuffleC room.GridSize } room.Players
  have hperm : (Room.CardDeck { dealAll { room with
      RowWords := rw
      ColumnWords := cw
      Grid := grid
      CardDeck := createCardDeck shuffleC room.GridSize } room.Players with
      GameStarted := true, GameOver := false } ++
      Room.allHands { dealAll { room with
      RowWords := rw
      ColumnWords := cw
      Grid := grid
      CardDeck := createCardDeck shuffleC room.GridSize } room.Players with
      GameStarted := true, GameOver := false }).Perm (allCards room.GridSize) := by
    have := hinv1.cards
    simp only [List.append_nil] at this
    rw [show Room.GridSize { dealAll { room with
      RowWords := rw
      ColumnWords := cw
      Grid := grid
      CardDeck := createCardDeck shuffleC room.GridSize } room.Players with
      GameStarted := true, GameOver := false } = room.GridSize from hf.gridSize] at this
    exact this
  refine ⟨_, hget, hf.players, hf.gridSize, allHands_eq_flatMap _ hinv1.keys hinv1.nodup,
    hperm, hperm.nodup_iff.2 (allCards_nodup _),
    fun c => hperm.mem_iff.trans (mem_allCards _ c), ?_, ?_⟩
  · rw [hperm.length_eq, allCards_length]
  · intro hle
    have hdeck : (createCardDeck shuffleC room.GridSize).length =
        room.GridSize.toNat * room.GridSize.toNat := by
      rw [(createCardDeck_perm shuffleC hsc room.GridSize).length_eq, allCards_length]
    have hex := dealAll_exact { room with
      RowWords := rw
      ColumnWords := cw
      Grid := grid
      CardDeck := createCardDeck shuffleC room.GridSize } room.Players hinv.nodup (by
        show room.Players.length * room.GetCardsPerPlayer ≤
          (createCardDeck shuffleC room.GridSize).length
        rw [hdeck]
        exact hle)
    refine ⟨hex.1, ?_⟩
    have := hex.2
    rw [show Room.CardDeck { room with
      RowWords := rw
      ColumnWords := cw
      Grid := grid
      CardDeck := createCardDeck shuffleC room.GridSize } =
      createCardDeck shuffleC room.GridSize from rfl, hdeck] at this
    exact this

/-- Witness of `C19_startGame_redeal`: `StartGame` on the example room of size 3 with two
players, after which each player holds 2 cards and the deck 5. -/
theorem C19_startGame_redeal_witness :
    ∃ room1, mapGet exRooms2 "R1" = some room1 ∧
      room1.Players = (exRoom exRooms1).Players ∧
      room1.GridSize = (exRoom exRooms1).GridSize ∧
      room1.allHands = room1.Players.flatMap room1.hand ∧
      (room1.CardDeck ++ room1.allHands).Perm (allCards (exRoom exRooms1).GridSize) ∧
      (room1.CardDeck ++ room1.allHands).Nodup ∧
      (∀ c : Card, c ∈ room1.CardDeck ++ room1.allHands ↔
        0 ≤ c.Row ∧ c.Row < (exRoom exRooms1).GridSize ∧
          0 ≤ c.Column ∧ c.Column < (exRoom exRooms1).GridSize) ∧
      (room1.CardDeck ++ room1.allHands).length =
        (exRoom exRooms1).GridSize.toNat * (exRoom exRooms1).GridSize.toNat ∧
      ((exRoom exRooms1).Players.length * (exRoom exRooms1).GetCardsPerPlayer ≤
          (exRoom exRooms1).GridSize.toNat * (exRoom exRooms1).GridSize.toNat →
        (∀ p ∈ (exRoom exRooms1).Players,
          (room1.hand p).length = (exRoom exRooms1).GetCardsPerPlayer) ∧
        room1.CardDeck.length =
          (exRoom exRooms1).GridSize.toNat * (exRoom exRooms1).GridSize.toNat -
            (exRoom exRooms1).Players.length * (exRoom exRooms1).GetCardsPerPlayer) :=
  C19_startGame_redeal id id exRooms1 exRooms2 "R1" (exRoom exRooms1)
    (Reachable.joinRoom "R1" "B"
      (Reachable.createRoom id id "R1" 3 "A" Reachable.empty isShuffle_id isShuffle_id
        exRooms0_eq))
    isShuffle_id exRooms2_eq (by decide)

/-! ## The state query -/

theorem mapOpt_spec {α β : Type} (f : α → Option β) (l : List α) (out : List β)
    (h : mapOpt f l = some out) :
    out.length = l.length ∧
      ∀ (i : Nat) (a : α), l[i]? = some a → ∃ b, f a = some b ∧ out[i]? = some b := by
  induction l generalizing out with
  | nil =>
    simp only [mapOpt, Option.some.injEq] at h
    subst h
    simp
  | cons x rest ih =>
    unfold mapOpt at h
    cases hx : f x with
    | none => simp [hx] at h
    | some b =>
      cases hr : mapOpt f rest with
      | none => simp [hx, hr] at h
      | some bs =>
        simp only [hx, hr, Option.some.injEq] at h
        subst h
        obtain ⟨h1, h2⟩ := ih bs hr
        refine ⟨by simp [h1], ?_⟩
        intro i a hi
        cases i with
        | zero =>
          simp only [List.getElem?_cons_zero, Option.some.injEq] at hi
          subst hi
          exact ⟨b, hx, List.getElem?_cons_zero⟩
        | succ j =>
          simp only [List.getElem?_cons_succ] at hi ⊢
          exact h2 j a hi

theorem mapOpt_of_forall {α β : Type} (f : α → Option β) (l : List α)
    (h : ∀ a ∈ l, ∃ b, f a = some b) : ∃ out, mapOpt f l = some out := by
  induction l with
  | nil => exact ⟨[], rfl⟩
  | cons x rest ih =>
    obtain ⟨b, hb⟩ := h x (List.mem_cons_self _ _)
    obtain ⟨bs, hbs⟩ := ih fun a ha => h a (List.mem_cons_of_mem _ ha)
    exact ⟨b :: bs, by simp [mapOpt, hb, hbs]⟩

/-- The response grid has `n` rows of `n` cells, each the view of the cell of the room. -/
theorem gridResponse_spec {grid : List (List Cell)} {p : String} {n : Nat}
    {out : List (List CellResponse)} (h : gridResponse grid p n = some out) :
    out.length = n ∧ (∀ cells ∈ out, cells.length = n) ∧
      ∀ r c : Nat, r < n → c < n →
        ∃ cell, cellAt grid r c = some cell ∧
          responseAt out r c =
            some (CellResponse.mk cell.GuessedCorrectly (cell.DiscardedBy == p)) := by
  unfold gridResponse at h
  obtain ⟨hlen, hrows⟩ := mapOpt_spec _ _ _ h
  rw [List.length_range] at hlen
  have hrow : ∀ r, r < n → ∃ cells, out[r]? = some cells ∧
      mapOpt (fun col =>
        match cellAt grid r col with
        | some cell => some (CellResponse.mk cell.GuessedCorrectly (cell.DiscardedBy == p))
        | none => none) (List.range n) = some cells := by
    intro r hr
    obtain ⟨cells, h1, h2⟩ := hrows r r (by simp [List.getElem?_range, hr])
    exact ⟨cells, h2, h1⟩
  refine ⟨hlen, ?_, ?_⟩
  · intro cells hmem
    obtain ⟨r, hr, hget⟩ := List.getElem_of_mem hmem
    obtain ⟨cells1, h1, h2⟩ := hrow r (hlen ▸ hr)
    rw [List.getElem?_eq_getElem hr, hget] at h1
    simp only [Option.some.injEq] at h1
    subst h1
    have := (mapOpt_spec _ _ _ h2).1
    rw [List.length_range] at this
    exact this
  · intro r c hr hc
    obtain ⟨cells, h1, h2⟩ := hrow r hr
    obtain ⟨b, hb1, hb2⟩ := (mapOpt_spec _ _ _ h2).2 c c (by simp [List.getElem?_range, hc])
    cases hcell : cellAt grid r c with
    | none => simp [hcell] at hb1
    | some cell =>
      simp only [hcell, Option.some.injEq] at hb1
      subst hb1
      exact ⟨cell, rfl, by simp only [responseAt, h1, hb2]⟩

theorem gridResponse_of_dims {grid : List (List Cell)} {n : Nat} (hd : GridDims grid n)
    (p : String) : ∃ out, gridResponse grid p n = some out := by
  unfold gridResponse
  apply mapOpt_of_forall
  intro r hr
  apply mapOpt_of_forall
  intro c hc
  obtain ⟨cell, hcell⟩ := cellAt_of_dims hd (List.mem_range.1 hr) (List.mem_range.1 hc)
  simp only [hcell]
  exact ⟨_, rfl⟩

/-- C20: `GetGameState` returns `ErrRoomNotFound` for an unknown code and `ErrPlayerNotFound`
for a name not in the room; every other call that returns leaves the registry as it was and
returns the code, `GridSize`, flags, words and player list of the room, the hand of the
querying player as `PlayerCards`, and a `GridSize`-by-`GridSize` grid whose cell `(r, c)`
copies `GuessedCorrectly` and has `DiscardedByMe` true exactly when `DiscardedBy` equals the
name of the querying player; in a reachable registry every such call returns. -/
theorem C20_getGameState (rooms : Registry) (code p : String) :
    (mapGet rooms code = none →
      GetGameState rooms code p = some (rooms, none, some GameError.ErrRoomNotFound)) ∧
    (∀ room, mapGet rooms code = some room → p ∉ room.Players →
      GetGameState rooms code p = some (rooms, none, some GameError.ErrPlayerNotFound)) ∧
    (∀ room rooms1 resp err, mapGet rooms code = some room → p ∈ room.Players →
      GetGameState rooms code p = some (rooms1, resp, err) →
      rooms1 = rooms ∧ err = none ∧
      ∃ state, resp = some state ∧
        state.RoomCode = room.RoomCode ∧ state.GridSize = room.GridSize ∧
        state.GameStarted = room.GameStarted ∧ state.GameOver = room.GameOver ∧
        state.RowWords = room.RowWords ∧ state.ColumnWords = room.ColumnWords ∧
        state.Players = room.Players ∧ state.PlayerCards = room.hand p ∧
        state.Grid.length = room.GridSize.toNat ∧
        (∀ cells ∈ state.Grid, cells.length = room.GridSize.toNat) ∧
        (∀ r c : Nat, r < room.GridSize.toNat → c < room.GridSize.toNat →
          ∃ cell, cellAt room.Grid r c = some cell ∧
            responseAt state.Grid r c =
              some (CellResponse.mk cell.GuessedCorrectly (decide (cell.DiscardedBy = p))))) ∧
    (Reachable rooms → ∀ room, mapGet rooms code = some room → p ∈ room.Players →
      ∃ state, GetGameState rooms code p = some (rooms, some state, none)) := by
  refine ⟨?_, ?_, ?_, ?_⟩
  · intro hg
    simp [GetGameState, hg]
  · intro room hg hp
    have h1 : room.HasPlayer p = false := by
      rw [← Bool.not_eq_true, HasPlayer_iff]
      exact hp
    simp [GetGameState, hg, h1]
  · intro room rooms1 resp err hg hp h
    have h1 : room.HasPlayer p = true := (HasPlayer_iff room p).2 hp
    unfold GetGameState at h
    simp only [hg, h1, Bool.not_true, Bool.false_eq_true, if_false] at h
    split at h
    · cases h
    · cases hgrid : gridResponse room.Grid p room.GridSize.toNat with
      | none =>
        simp only [hgrid] at h
        cases h
      | some out =>
        simp only [hgrid, Option.some.injEq, Prod.mk.injEq] at h
        obtain ⟨e1, e2, e3⟩ := h
        obtain ⟨g1, g2, g3⟩ := gridResponse_spec hgrid
        refine ⟨e1.symm, e3.symm, _, e2.symm, rfl, rfl, rfl, rfl, rfl, rfl, rfl, rfl, g1, g2, ?_⟩
        intro r c hr hc
        obtain ⟨cell, hc1, hc2⟩ := g3 r c hr hc
        exact ⟨cell, hc1, hc2⟩
  · intro hreach room hg hp
    obtain ⟨pl, hinv⟩ := hreach.roomInv hg
    have h1 : room.HasPlayer p = true := (HasPlayer_iff room p).2 hp
    have hneg : ¬ room.GridSize < 0 := not_lt.2 hinv.size
    obtain ⟨out, hout⟩ := gridResponse_of_dims hinv.grid p
    unfold GetGameState
    simp only [hg, h1, Bool.not_true, Bool.false_eq_true, if_false, hneg, hout]
    exact ⟨_, rfl⟩

/-- Witness of `C20_getGameState`: `"A"` queries the example room after the first guess. -/
theorem C20_getGameState_witness :
    ∃ state, GetGameState exRooms3 "R1" "A" = some (exRooms3, some state, none) :=
  (C20_getGameState exRooms3 "R1" "A").2.2.2 exRooms3_reachablePlayed.reachable
    (exRoom exRooms3) exRooms3_get (by decide)


/-! ## Discard visibility -/

/-- In a reachable registry `GetGameState` of a player of the room returns, with the view of
every cell of the grid. -/
theorem GetGameState_of_reachable {rooms : Registry} {code p : String} {room : Room}
    (hreach : Reachable rooms) (hg : mapGet rooms code = some room) (hp : p ∈ room.Players) :
    ∃ state, GetGameState rooms code p = some (rooms, some state, none) ∧
      ∀ r c : Nat, r < room.GridSize.toNat → c < room.GridSize.toNat →
        ∃ cell, cellAt room.Grid r c = some cell ∧
          responseAt state.Grid r c =
            some (CellResponse.mk cell.GuessedCorrectly (cell.DiscardedBy == p)) := by
  obtain ⟨pl, hinv⟩ := hreach.roomInv hg
  have h1 : room.HasPlayer p = true := (HasPlayer_iff room p).2 hp
  have hneg : ¬ room.GridSize < 0 := not_lt.2 hinv.size
  obtain ⟨out, hout⟩ := gridResponse_of_dims hinv.grid p
  unfold GetGameState
  simp only [hg, h1, Bool.not_true, Bool.false_eq_true, if_false, hneg, hout]
  exact ⟨_, rfl, (gridResponse_spec hout).2.2⟩

/-- C21: in a reachable registry, right after a successful `SubmitGuess` of player `a` on
`(row, col)` with `correct = false`, `GetGameState` for `a` reports `DiscardedByMe = true` at
that cell and `GetGameState` for any other player `b` of the room reports
`DiscardedByMe = false`. -/
theorem C21_discard_visibility (rooms rooms1 : Registry) (code a b : String) (row col : Int)
    (over : Bool) (room : Room) (hreach : Reachable rooms)
    (h : SubmitGuess rooms code a row col false = some (rooms1, over, none))
    (hg : mapGet rooms code = some room) (hb : b ∈ room.Players) (hab : a ≠ b) :
    0 ≤ row ∧ 0 ≤ col ∧
    ∃ stateA stateB cellA cellB,
      GetGameState rooms1 code a = some (rooms1, some stateA, none) ∧
      GetGameState rooms1 code b = some (rooms1, some stateB, none) ∧
      responseAt stateA.Grid row.toNat col.toNat = some cellA ∧ cellA.DiscardedByMe = true ∧
      responseAt stateB.Grid row.toNat col.toNat = some cellB ∧
      cellB.DiscardedByMe = false := by
  have hreach1 : Reachable rooms1 := Reachable.submitGuess code a row col false hreach h
  obtain ⟨room0, grid, hg0, _, _, ha, hcard, hgrid, _, hr1⟩ := SubmitGuess_success h
  rw [hg] at hg0
  cases hg0
  obtain ⟨pl, hinv⟩ := hreach.roomInv hg
  have hr := hinv.card_in_range (mem_circulation_of_mem_hand hcard)
  simp only at hr
  obtain ⟨_, hgs, hpl, _, _, _, hgr, _⟩ := guessRoom_frame room a row col grid over
  have hget : mapGet rooms1 code = some (guessRoom room a row col grid over) := by
    rw [hr1, mapGet_mapSet_self]
  obtain ⟨hrow, hcol, cell, hcell, hcells⟩ := resolveCell_spec hgrid
  have hnew : cellAt (guessRoom room a row col grid over).Grid row.toNat col.toNat =
      some { cell with DiscardedBy := a } := by
    rw [hgr, hcells]
    simp
  obtain ⟨stateA, hsa, hva⟩ := GetGameState_of_reachable hreach1 hget (hpl ▸ ha)
  obtain ⟨stateB, hsb, hvb⟩ := GetGameState_of_reachable hreach1 hget (hpl ▸ hb)
  obtain ⟨ca, hca1, hca2⟩ := hva row.toNat col.toNat (by rw [hgs]; omega) (by rw [hgs]; omega)
  obtain ⟨cb, hcb1, hcb2⟩ := hvb row.toNat col.toNat (by rw [hgs]; omega) (by rw [hgs]; omega)
  rw [hnew] at hca1 hcb1
  cases hca1
  cases hcb1
  refine ⟨hrow, hcol, stateA, stateB, _, _, hsa, hsb, hca2, ?_, hcb2, ?_⟩
  · simp
  · simp [hab]

/-- Witness of `C21_discard_visibility`: `"A"` discards `(0, 0)` in the started example room
and `"B"` looks on. -/
theorem C21_discard_visibility_witness :
    (0 : Int) ≤ 0 ∧ (0 : Int) ≤ 0 ∧
    ∃ stateA stateB cellA cellB,
      GetGameState exDiscard3 "R1" "A" = some (exDiscard3, some stateA, none) ∧
      GetGameState exDiscard3 "R1" "B" = some (exDiscard3, some stateB, none) ∧
      responseAt stateA.Grid (0 : Int).toNat (0 : Int).toNat = some cellA ∧
      cellA.DiscardedByMe = true ∧
      responseAt stateB.Grid (0 : Int).toNat (0 : Int).toNat = some cellB ∧
      cellB.DiscardedByMe = false :=
  C21_discard_visibility exRooms2 exDiscard3 "R1" "A" "B" 0 0 false (exRoom exRooms2)
    exRooms2_reachablePlayed.reachable (by decide) exRooms2_get (by decide) (by decide)

/-! ## Words and grid size -/

theorem isShuffle_redFirst : IsShuffle redFirst := by
  intro l
  unfold redFirst
  exact List.filter_append_perm _ l

/-- C22, the failing run: the catalog holds `"RED"` twice (and `"ARROW"` twice), so with the
shuffle that puts both entries `"RED"` first `CreateRoom("R1", 3, "A")` succeeds with the row
words `"RED"`, `"RED"`, `"DISEASE"`. -/
theorem C22_repeated_word :
    ¬ wordList.Nodup ∧ IsShuffle redFirst ∧
    CreateRoom redFirst id [] "R1" 3 "A" = some (exRed, some (exRoom exRed), none) ∧
    (exRoom exRed).GridSize = 3 ∧ (exRoom exRed).RowWords = ["RED", "RED", "DISEASE"] ∧
    (exRoom exRed).ColumnWords = ["OLD", "SNAIL", "VACATION"] ∧
    ¬ ((exRoom exRed).RowWords ++ (exRoom exRed).ColumnWords).Nodup := by
  refine ⟨by decide, isShuffle_redFirst, by decide, by decide, by decide, by decide, by decide⟩

/-- C23, the failing input: the grid-size step of `handleCreateRoom` replaces 0 by 5 and then
accepts exactly the sizes 3, 4 and 5; the sizes 6 and 7 are rejected with the message
`Grid size must be between 3 and 7`. -/
theorem C23_gridSize_validation :
    handleCreateRoomGridSize 0 = Except.ok 5 ∧
    handleCreateRoomGridSize 6 = Except.error "Grid size must be between 3 and 7" ∧
    handleCreateRoomGridSize 7 = Except.error "Grid size must be between 3 and 7" ∧
    handleCreateRoomGridSize 2 = Except.error "Grid size must be between 3 and 7" ∧
    handleCreateRoomGridSize 8 = Except.error "Grid size must be between 3 and 7" ∧
    (∀ g : Int, g ≠ 0 → (handleCreateRoomGridSize g = Except.ok g ↔ 3 ≤ g ∧ g ≤ 5)) ∧
    (∀ g : Int, (¬ (g = 0 ∨ (3 ≤ g ∧ g ≤ 5))) →
      handleCreateRoomGridSize g = Except.error "Grid size must be between 3 and 7") := by
  refine ⟨rfl, rfl, rfl, rfl, rfl, ?_, ?_⟩
  · intro g hg
    unfold handleCreateRoomGridSize DefaultGridSize MinGridSize MaxGridSize
    simp only [hg, if_false]
    by_cases h : g < 3 ∨ g > 5
    · simp only [h, if_true]
      constructor
      · intro h1
        cases h1
      · intro h1
        omega
    · simp only [h, if_false, true_iff]
      omega
  · intro g hg
    have h0 : ¬ g = 0 := fun h => hg (Or.inl h)
    have h1 : g < 3 ∨ g > 5 := by omega
    unfold handleCreateRoomGridSize DefaultGridSize MinGridSize MaxGridSize
    simp only [h0, if_false, h1, if_true]

/-! ## Flags, names and index safety -/

/-- C24: in every reachable registry a room that is over is started. -/
theorem C24_over_implies_started (rooms : Registry) (code : String) (room : Room)
    (hreach : Reachable rooms) (hg : mapGet rooms code = some room)
    (hover : room.GameOver = true) : room.GameStarted = true := by
  obtain ⟨pl, hinv⟩ := hreach.roomInv hg
  exact hinv.flags hover

/-- C27: in every reachable registry the player list of a room has no name twice; so after a
successful `LeaveRoom` of `p` the room has no player `p`, and `p` may join again. -/
theorem C27_player_names_unique (rooms : Registry) (code : String) (room : Room)
    (hreach : Reachable rooms) (hg : mapGet rooms code = some room) :
    room.Players.Nodup ∧
    (∀ p, p ∈ room.Players →
      (LeaveRoom rooms code p).2 = none ∧
      ∃ room1, mapGet (LeaveRoom rooms code p).1 code = some room1 ∧
        p ∉ room1.Players ∧ room1.HasPlayer p = false ∧
        (JoinRoom (LeaveRoom rooms code p).1 code p).2.2 = none) := by
  obtain ⟨pl, hinv⟩ := hreach.roomInv hg
  refine ⟨hinv.nodup, ?_⟩
  intro p hp
  rw [LeaveRoom_of_member hg hp]
  have hpl := (leftRoom_frame room p).2.2.1
  have hnot : p ∉ (leftRoom room p).Players := by
    rw [hpl]
    exact fun hm => (List.Nodup.mem_erase_iff hinv.nodup).1 hm |>.1 rfl
  have hhas : (leftRoom room p).HasPlayer p = false := by
    rw [← Bool.not_eq_true, HasPlayer_iff]
    exact hnot
  refine ⟨rfl, _, mapGet_mapSet_self _ _ _, hnot, hhas, ?_⟩
  simp [JoinRoom, mapGet_mapSet_self, hhas]

theorem exOver3_reachable : Reachable exOver3 := by
  have h0 : CreateRoom id id [] "R1" 1 "A" = some (exOver0, some (exRoom exOver0), none) := by
    decide
  have h2 : StartGame id id (JoinRoom exOver0 "R1" "B").1 "R1" = some (exOver2, none) := by
    decide
  have h3 : SubmitGuess exOver2 "R1" "A" 0 0 true = some (exOver3, true, none) := by decide
  exact Reachable.submitGuess "R1" "A" 0 0 true
    (Reachable.startGame id id "R1"
      (Reachable.joinRoom "R1" "B"
        (Reachable.createRoom id id "R1" 1 "A" Reachable.empty isShuffle_id isShuffle_id h0))
      isShuffle_id isShuffle_id h2) h3

/-- Witness of `C24_over_implies_started`: the 1-by-1 room after its only guess. -/
theorem C24_over_implies_started_witness : (exRoom exOver3).GameStarted = true :=
  C24_over_implies_started exOver3 "R1" (exRoom exOver3) exOver3_reachable (by decide)
    (by decide)

/-- Witness of `C27_player_names_unique`: the started example room. -/
theorem C27_player_names_unique_witness :
    (exRoom exRooms2).Players.Nodup ∧
    (∀ p, p ∈ (exRoom exRooms2).Players →
      (LeaveRoom exRooms2 "R1" p).2 = none ∧
      ∃ room1, mapGet (LeaveRoom exRooms2 "R1" p).1 "R1" = some room1 ∧
        p ∉ room1.Players ∧ room1.HasPlayer p = false ∧
        (JoinRoom (LeaveRoom exRooms2 "R1" p).1 "R1" p).2.2 = none) :=
  C27_player_names_unique exRooms2 "R1" (exRoom exRooms2)
    exRooms2_reachablePlayed.reachable exRooms2_get

theorem submitGuessError_of_out_of_range {rooms : Registry} {code : String}
    {row col : Int} {room : Room} (p : String) (hreach : Reachable rooms)
    (hg : mapGet rooms code = some room)
    (hout : ¬ (0 ≤ row ∧ row < room.GridSize ∧ 0 ≤ col ∧ col < room.GridSize)) :
    Card.mk row col ∉ room.CardDeck ++ room.allHands ∧ Card.mk row col ∉ room.hand p ∧
    ∃ e, submitGuessError rooms code p row col = some e ∧
      (room.GameStarted = true → room.GameOver = false → p ∈ room.Players →
        e = GameError.ErrNoCard) := by
  obtain ⟨pl, hinv⟩ := hreach.roomInv hg
  have hnotc : Card.mk row col ∉ room.CardDeck ++ room.allHands :=
    fun hm => hout (hinv.card_in_range hm)
  have hnot : Card.mk row col ∉ room.hand p :=
    fun hm => hnotc (mem_circulation_of_mem_hand hm)
  refine ⟨hnotc, hnot, ?_⟩
  unfold submitGuessError
  simp only [hg]
  by_cases h1 : room.GameStarted = false
  · exact ⟨GameError.ErrGameNotStarted, by simp [h1], fun hs => by simp [hs] at h1⟩
  · by_cases h2 : room.GameOver = true
    · exact ⟨GameError.ErrGameOver, by simp [h1, h2], fun _ ho => by simp [ho] at h2⟩
    · by_cases h3 : p ∈ room.Players
      · exact ⟨GameError.ErrNoCard, by simp [h1, h2, h3, hnot], fun _ _ _ => rfl⟩
      · exact ⟨GameError.ErrPlayerNotFound, by simp [h1, h2, h3], fun _ _ hp => absurd hp h3⟩

/-- C28: in every reachable registry every card of the deck and the hands of a room lies
within the grid; `SubmitGuess` never panics on a grid index, whatever its arguments; and a
`SubmitGuess` whose row or column lies outside `[0, GridSize)`, negative values included, is
rejected with an error and no change, the error being `ErrNoCard` when the game is running
and the player is in the room. -/
theorem C28_index_safety (rooms : Registry) (hreach : Reachable rooms) :
    (∀ code room, mapGet rooms code = some room →
      ∀ c ∈ room.CardDeck ++ room.allHands,
        0 ≤ c.Row ∧ c.Row < room.GridSize ∧ 0 ≤ c.Column ∧ c.Column < room.GridSize) ∧
    (∀ code p row col correct, ∃ out, SubmitGuess rooms code p row col correct = some out) ∧
    (∀ code p row col correct rooms1 over,
      SubmitGuess rooms code p row col correct = some (rooms1, over, none) →
      ∃ room, mapGet rooms code = some room ∧
        0 ≤ row ∧ row < room.GridSize ∧ 0 ≤ col ∧ col < room.GridSize ∧
        ∃ cell, room.cell row col = some cell) ∧
    (∀ code room p row col correct, mapGet rooms code = some room →
      ¬ (0 ≤ row ∧ row < room.GridSize ∧ 0 ≤ col ∧ col < room.GridSize) →
      ∃ e, SubmitGuess rooms code p row col correct = some (rooms, false, some e) ∧
        (room.GameStarted = true → room.GameOver = false → p ∈ room.Players →
          e = GameError.ErrNoCard)) := by
  refine ⟨?_, ?_, ?_, ?_⟩
  · intro code room hg c hc
    obtain ⟨pl, hinv⟩ := hreach.roomInv hg
    exact hinv.card_in_range hc
  · intro code p row col correct
    cases he : submitGuessError rooms code p row col with
    | some e => exact ⟨_, SubmitGuess_of_error correct he⟩
    | none =>
      obtain ⟨room, hg, hst, hov, hp, hc⟩ := submitGuessError_eq_none he
      obtain ⟨pl, hinv⟩ := hreach.roomInv hg
      obtain ⟨rooms1, over, h⟩ := SubmitGuess_no_panic correct hinv hg hst hov hp hc
      exact ⟨_, h⟩
  · intro code p row col correct rooms1 over h
    obtain ⟨room, grid, hg, _, _, _, hcard, hgrid, _, _⟩ := SubmitGuess_success h
    obtain ⟨pl, hinv⟩ := hreach.roomInv hg
    have hr := hinv.card_in_range (mem_circulation_of_mem_hand hcard)
    simp only at hr
    obtain ⟨hrow, hcol, cell, hcell, _⟩ := resolveCell_spec hgrid
    refine ⟨room, hg, hr.1, hr.2.1, hr.2.2.1, hr.2.2.2, cell, ?_⟩
    have hneg : ¬ (row < 0 ∨ col < 0) := by omega
    simp only [Room.cell, hneg, if_false]
    exact hcell
  · intro code room p row col correct hg hout
    obtain ⟨_, _, e, he, hno⟩ := submitGuessError_of_out_of_range p hreach hg hout
    exact ⟨e, SubmitGuess_of_error correct he, hno⟩

/-- Witness of `C28_index_safety`: in the started example room of size 3 a guess of `"A"` on
row `-1` is rejected with `ErrNoCard`. -/
theorem C28_index_safety_witness :
    ∃ e, SubmitGuess exRooms2 "R1" "A" (-1) 0 true = some (exRooms2, false, some e) ∧
      ((exRoom exRooms2).GameStarted = true → (exRoom exRooms2).GameOver = false →
        "A" ∈ (exRoom exRooms2).Players → e = GameError.ErrNoCard) :=
  (C28_index_safety exRooms2 exRooms2_reachablePlayed.reachable).2.2.2 "R1" (exRoom exRooms2)
    "A" (-1) 0 true exRooms2_get (by decide)

/-! ## How each operation changes the rooms of the registry -/

theorem mapGet_mapSet_cases {β : Type} {m : List (String × β)} {k k2 : String} {v v2 : β}
    (h : mapGet (mapSet m k v) k2 = some v2) :
    (k2 = k ∧ v2 = v) ∨ (k2 ≠ k ∧ mapGet m k2 = some v2) := by
  rw [mapGet_mapSet] at h
  by_cases hk : k2 = k
  · simp only [hk, if_true, Option.some.injEq] at h
    exact Or.inl ⟨hk, h.symm⟩
  · simp only [hk, if_false] at h
    exact Or.inr ⟨hk, h⟩

theorem played_update_ne {played : String → List Card} {c code2 : String} {v : List Card}
    {b : Prop} [Decidable b] (h : b → code2 ≠ c) :
    (if b then Function.update played c v else played) code2 = played code2 := by
  split
  · rename_i hb
    exact Function.update_noteq (h hb) v played
  · rfl

theorem played_update_eq {played : String → List Card} {c : String} {v : List Card}
    {b : Prop} [Decidable b] (h : b) :
    (if b then Function.update played c v else played) c = v := by
  rw [if_pos h, Function.update_same]

/-- The registry after a `CreateRoom` that returns: unchanged, or the new room was set at a
free code. -/
theorem CreateRoom_shape {rooms rooms1 : Registry} {code : String} {g : Int}
    {p : String} {res : Option Room × Option GameError}
    {shuffleW : List String → List String} {shuffleC : List Card → List Card}
    (h : CreateRoom shuffleW shuffleC rooms code g p = some (rooms1, res)) :
    (rooms1 = rooms ∧ res.2 ≠ none) ∨
    (res.2 = none ∧ mapGet rooms code = none ∧ ∃ rowWords columnWords,
      rooms1 = mapSet rooms code
        (drawN (newRoom code g p rowWords columnWords (createCardDeck shuffleC g)) p 2)) := by
  by_cases hused : (mapGet rooms code).isSome = true
  · rw [CreateRoom_of_used shuffleW shuffleC g p hused] at h
    simp only [Option.some.injEq, Prod.mk.injEq] at h
    obtain ⟨h1, h2⟩ := h
    subst h1 h2
    exact Or.inl ⟨rfl, fun hn => by simp at hn⟩
  · have hfree : mapGet rooms code = none := by
      cases hm : mapGet rooms code with
      | none => rfl
      | some r => simp [hm] at hused
    unfold CreateRoom at h
    split at h
    · rename_i hyes
      exact absurd hyes hused
    · split at h
      · cases h
      · cases hassign : assignWords (shuffleWords shuffleW) g.toNat (List.range g.toNat)
            (List.replicate g.toNat "", List.replicate g.toNat "") with
        | none =>
          simp only [hassign] at h
          cases h
        | some out =>
          obtain ⟨rw, cw⟩ := out
          rename_i hneg
          have heq := CreateRoom_of_free shuffleW shuffleC p hfree (not_lt.1 hneg) hassign
          unfold CreateRoom at heq
          simp only [hfree, Option.isSome_none, Bool.false_eq_true, if_false, hneg,
            hassign] at heq h
          rw [heq] at h
          simp only [Option.some.injEq, Prod.mk.injEq] at h
          obtain ⟨h1, h2⟩ := h
          subst h1 h2
          exact Or.inr ⟨rfl, hfree, rw, cw, rfl⟩

/-- The rooms of the registry after a `CreateRoom` that returns. -/
theorem CreateRoom_rooms {rooms rooms1 : Registry} {code code2 : String} {g : Int}
    {p : String} {res : Option Room × Option GameError} {room1 : Room}
    {shuffleW : List String → List String} {shuffleC : List Card → List Card}
    (h : CreateRoom shuffleW shuffleC rooms code g p = some (rooms1, res))
    (hg1 : mapGet rooms1 code2 = some room1) :
    (mapGet rooms code2 = some room1 ∧ (res.2 = none → code2 ≠ code)) ∨
    (res.2 = none ∧ code2 = code ∧ mapGet rooms code = none ∧
      room1.Grid = newGrid g.toNat ∧ room1.Players = [p]) := by
  rcases CreateRoom_shape h with ⟨h1, hne⟩ | ⟨hres, hfree, rw, cw, h1⟩
  · subst h1
    exact Or.inl ⟨hg1, fun hn => absurd hn hne⟩
  · subst h1
    have hf := drawN_frame (newRoom code g p rw cw (createCardDeck shuffleC g)) p 2
    rcases mapGet_mapSet_cases hg1 with ⟨hk, hv⟩ | ⟨hk, hv⟩
    · subst hv
      exact Or.inr ⟨hres, hk, hfree, hf.grid, hf.players⟩
    · exact Or.inl ⟨hv, fun _ => hk⟩

/-- A room of the registry is still there after a `CreateRoom` that returns. -/
theorem CreateRoom_get {rooms rooms1 : Registry} {code code2 : String} {g : Int}
    {p : String} {res : Option Room × Option GameError} {room : Room}
    {shuffleW : List String → List String} {shuffleC : List Card → List Card}
    (h : CreateRoom shuffleW shuffleC rooms code g p = some (rooms1, res))
    (hg : mapGet rooms code2 = some room) : mapGet rooms1 code2 = some room := by
  rcases CreateRoom_shape h with ⟨h1, _⟩ | ⟨_, hfree, rw, cw, h1⟩
  · rw [h1]
    exact hg
  · have hne : code2 ≠ code := by
      intro he
      rw [he, hfree] at hg
      cases hg
    rw [h1, mapGet_mapSet_ne _ _ _ _ hne]
    exact hg

/-- A room with another code is unchanged by a `StartGame` that returns. -/
theorem StartGame_get_ne {rooms rooms1 : Registry} {code code2 : String}
    {err : Option GameError} {room : Room}
    {shuffleW : List String → List String} {shuffleC : List Card → List Card}
    (h : StartGame shuffleW shuffleC rooms code = some (rooms1, err))
    (hne : code ≠ code2) (hg : mapGet rooms code2 = some room) :
    mapGet rooms1 code2 = some room := by
  cases err with
  | some e =>
    rw [(StartGame_error_inv h).1]
    exact hg
  | none =>
    obtain ⟨room0, rw, cw, grid, _, _, _, _, hr1⟩ := StartGame_success h
    rw [hr1, mapGet_mapSet_ne _ _ _ _ (Ne.symm hne)]
    exact hg

/-- The rooms of the registry after a `JoinRoom`. -/
theorem JoinRoom_rooms {rooms : Registry} {code code2 p : String} {room1 : Room}
    (hg1 : mapGet (JoinRoom rooms code p).1 code2 = some room1) :
    mapGet rooms code2 = some room1 ∨
    (code2 = code ∧ ∃ room, mapGet rooms code = some room ∧ p ∉ room.Players ∧
      room1 = drawN (Room.setHand { room with Players := room.Players ++ [p] } p []) p
        (Room.setHand { room with Players := room.Players ++ [p] } p []).GetCardsPerPlayer) := by
  cases hg : mapGet rooms code with
  | none =>
    have : JoinRoom rooms code p = (rooms, 0, some GameError.ErrRoomNotFound) := by
      simp [JoinRoom, hg]
    rw [this] at hg1
    exact Or.inl hg1
  | some room =>
    by_cases hp : room.HasPlayer p = true
    · have : JoinRoom rooms code p = (rooms, 0, some GameError.ErrPlayerExists) := by
        simp [JoinRoom, hg, hp]
      rw [this] at hg1
      exact Or.inl hg1
    · have hnone : (JoinRoom rooms code p).2.2 = none := by simp [JoinRoom, hg, hp]
      obtain ⟨hnot, hj⟩ := JoinRoom_success hg hnone
      rw [hj] at hg1
      rcases mapGet_mapSet_cases hg1 with ⟨hk, hv⟩ | ⟨_, hv⟩
      · exact Or.inr ⟨hk, room, rfl, hnot, hv⟩
      · exact Or.inl hv

/-- The rooms of the registry after a `LeaveRoom`. -/
theorem LeaveRoom_rooms {rooms : Registry} {code code2 p : String} {room1 : Room}
    (hg1 : mapGet (LeaveRoom rooms code p).1 code2 = some room1) :
    mapGet rooms code2 = some room1 ∨
    (code2 = code ∧ ∃ room, mapGet rooms code = some room ∧ p ∈ room.Players ∧
      room1 = leftRoom room p) := by
  cases hg : mapGet rooms code with
  | none =>
    have : LeaveRoom rooms code p = (rooms, some GameError.ErrRoomNotFound) := by
      simp [LeaveRoom, hg]
    rw [this] at hg1
    exact Or.inl hg1
  | some room =>
    by_cases hp : p ∈ room.Players
    · rw [LeaveRoom_of_member hg hp] at hg1
      rcases mapGet_mapSet_cases hg1 with ⟨hk, hv⟩ | ⟨_, hv⟩
      · exact Or.inr ⟨hk, room, rfl, hp, hv⟩
      · exact Or.inl hv
    · have h1 : room.HasPlayer p = false := by
        rw [← Bool.not_eq_true, HasPlayer_iff]
        exact hp
      have : LeaveRoom rooms code p = (rooms, some GameError.ErrPlayerNotFound) := by
        simp [LeaveRoom, hg, h1]
      rw [this] at hg1
      exact Or.inl hg1

/-- The rooms of the registry after a `StartGame` that returns. -/
theorem StartGame_rooms {rooms rooms1 : Registry} {code code2 : String}
    {err : Option GameError} {room1 : Room}
    {shuffleW : List String → List String} {shuffleC : List Card → List Card}
    (h : StartGame shuffleW shuffleC rooms code = some (rooms1, err))
    (hg1 : mapGet rooms1 code2 = some room1) :
    (mapGet rooms code2 = some room1 ∧ (err = none → code2 ≠ code)) ∨
    (err = none ∧ code2 = code ∧ ∃ room, mapGet rooms code = some room ∧
      resetGrid room.Grid (gridCoords room.GridSize.toNat) = some room1.Grid ∧
      room1.Players = room.Players) := by
  cases err with
  | some e =>
    have := (StartGame_error_inv h).1
    subst this
    exact Or.inl ⟨hg1, fun hn => by simp at hn⟩
  | none =>
    obtain ⟨room, rw, cw, grid, hg, _, _, hgrid, hr1⟩ := StartGame_success h
    rw [hr1] at hg1
    have hf := dealAll_frame { room with
      RowWords := rw
      ColumnWords := cw
      Grid := grid
      CardDeck := createCardDeck shuffleC room.GridSize } room.Players
    rcases mapGet_mapSet_cases hg1 with ⟨hk, hv⟩ | ⟨hk, hv⟩
    · subst hv
      refine Or.inr ⟨rfl, hk, room, hg, ?_, hf.players⟩
      rw [hgrid]
      exact congrArg some hf.grid.symm
    · exact Or.inl ⟨hv, fun _ => hk⟩

/-- The rooms of the registry after a `SubmitGuess` that returns. -/
theorem SubmitGuess_rooms {rooms rooms1 : Registry} {code code2 p : String} {row col : Int}
    {correct : Bool} {res : Bool × Option GameError} {room1 : Room}
    (h : SubmitGuess rooms code p row col correct = some (rooms1, res))
    (hg1 : mapGet rooms1 code2 = some room1) :
    (mapGet rooms code2 = some room1 ∧ (res.2 = none → code2 ≠ code)) ∨
    (res.2 = none ∧ code2 = code ∧ ∃ room grid, mapGet rooms code = some room ∧
      room.GameStarted = true ∧ p ∈ room.Players ∧ Card.mk row col ∈ room.hand p ∧
      resolveCell room.Grid row col p correct = some grid ∧
      room1 = guessRoom room p row col grid res.1) := by
  obtain ⟨over, err⟩ := res
  cases err with
  | some e =>
    have := (SubmitGuess_error_inv h).2.1
    subst this
    exact Or.inl ⟨hg1, fun hn => by simp at hn⟩
  | none =>
    obtain ⟨room, grid, hg, hst, _, hp, hc, hgrid, _, hr1⟩ := SubmitGuess_success h
    rw [hr1] at hg1
    rcases mapGet_mapSet_cases hg1 with ⟨hk, hv⟩ | ⟨hk, hv⟩
    · exact Or.inr ⟨rfl, hk, room, grid, hg, hst, hp, hc, hgrid, hv⟩
    · exact Or.inl ⟨hv, fun _ => hk⟩

/-! ## The cell invariant -/

theorem cellAt_newGrid_eq {n r c : Nat} {cell : Cell}
    (h : cellAt (newGrid n) r c = some cell) : cell = Cell.mk false "" := by
  obtain ⟨hr, hc⟩ := cellAt_eq_some_lt (newGrid_dims n) h
  rw [cellAt_newGrid n r c hr hc] at h
  exact (Option.some.inj h).symm

theorem not_resolved_fresh : ¬ (Cell.mk false "").Resolved := by
  intro h
  rcases h with h | h
  · cases h
  · exact h rfl

theorem CellInv.of_grid {r r1 : Room} {pl : List Card} (h : CellInv r pl)
    (hg : r1.Grid = r.Grid) : CellInv r1 pl := by
  intro row col cell hc
  rw [hg] at hc
  exact h row col cell hc

theorem CellInv.of_fresh {r : Room} {pl : List Card}
    (h : ∀ (row col : Nat) (cell : Cell), cellAt r.Grid row col = some cell →
      cell = Cell.mk false "") : CellInv r pl := by
  intro row col cell hc
  have := h row col cell hc
  subst this
  exact ⟨fun hres => absurd hres not_resolved_fresh, fun hb => by cases hb.1⟩

theorem cellAt_reset_eq {grid grid1 : List (List Cell)} {n r c : Nat} {cell : Cell}
    (hd : GridDims grid n) (h : resetGrid grid (gridCoords n) = some grid1)
    (hc : cellAt grid1 r c = some cell) : cell = Cell.mk false "" := by
  rw [resetGrid_spec _ h r c] at hc
  split at hc
  · exact (Option.some.inj hc).symm
  · rename_i hnot
    obtain ⟨hr, hk⟩ := cellAt_eq_some_lt hd hc
    exact absurd ((mem_gridCoords n r c).2 ⟨hr, hk⟩) hnot

/-- In a room with the two invariants the cell of a card in circulation is unresolved. -/
theorem not_resolved_of_mem_circulation {r : Room} {pl : List Card} (hinv : RoomInv r pl)
    (hcell : CellInv r pl) {c : Card} (hc : c ∈ r.circulation) {cell : Cell}
    (hat : cellAt r.Grid c.Row.toNat c.Column.toNat = some cell) : ¬ cell.Resolved := by
  intro hres
  have hpl := (hcell _ _ cell hat).1 hres
  obtain ⟨h0, _, h1, _⟩ := hinv.card_in_range hc
  rw [Int.toNat_of_nonneg h0, Int.toNat_of_nonneg h1] at hpl
  have hnd : (r.circulation ++ pl).Nodup := hinv.cards.nodup_iff.2 (allCards_nodup _)
  exact (List.nodup_append.1 hnd).2.2 hc hpl

theorem eq_fresh_of_not_resolved {cell : Cell} (h : ¬ cell.Resolved) :
    cell.GuessedCorrectly = false ∧ cell.DiscardedBy = "" := by
  constructor
  · cases hg : cell.GuessedCorrectly with
    | false => rfl
    | true => exact absurd (Or.inl hg) h
  · by_contra hd
    exact h (Or.inr hd)

theorem CellInv.cell_guess {r : Room} {pl : List Card} (hinv : RoomInv r pl) (hcell : CellInv r pl)
    {p : String} {row col : Int} {correct over : Bool} {grid : List (List Cell)}
    (hcard : Card.mk row col ∈ r.hand p)
    (hg : resolveCell r.Grid row col p correct = some grid) :
    CellInv (guessRoom r p row col grid over) (Card.mk row col :: pl) := by
  obtain ⟨h0, h1, cell0, hat0, hspec⟩ := resolveCell_spec hg
  have hgrid : (guessRoom r p row col grid over).Grid = grid :=
    (guessRoom_frame r p row col grid over).2.2.2.2.2.2.1
  have hfresh := eq_fresh_of_not_resolved
    (not_resolved_of_mem_circulation hinv hcell (mem_circulation_of_mem_hand hcard) hat0)
  intro rr kk cell hc
  rw [hgrid, hspec rr kk] at hc
  split at hc
  · rename_i hrk
    constructor
    · intro _
      rw [hrk.1, hrk.2, Int.toNat_of_nonneg h0, Int.toNat_of_nonneg h1]
      exact List.mem_cons_self _ _
    · intro hb
      cases correct with
      | true =>
        simp only [if_true, Option.some.injEq] at hc
        subst hc
        exact hb.2 hfresh.2
      | false =>
        simp only [Bool.false_eq_true, if_false, Option.some.injEq] at hc
        subst hc
        have := hb.1
        simp only [hfresh.1] at this
        cases this
  · exact ⟨fun hres => List.mem_cons_of_mem _ ((hcell rr kk cell hc).1 hres),
      (hcell rr kk cell hc).2⟩

/-- Every room of a reachable registry satisfies the cell invariant. -/
theorem ReachablePlayed.cellInv {rooms : Registry} {played : String → List Card}
    (h : ReachablePlayed rooms played) :
    ∀ code room, mapGet rooms code = some room → CellInv room (played code) := by
  induction h with
  | empty =>
    intro code room hg
    cases hg
  | createRoom shuffleW shuffleC roomCode gridSize playerName hprev _ _ he ih =>
    intro code room1 hg1
    rcases CreateRoom_rooms he hg1 with ⟨hold, hne⟩ | ⟨hres, hcode, _, hgrid, _⟩
    · rw [played_update_ne hne]
      exact ih code room1 hold
    · subst hcode
      rw [played_update_eq hres]
      apply CellInv.of_fresh
      intro row col cell hc
      rw [hgrid] at hc
      exact cellAt_newGrid_eq hc
  | joinRoom roomCode playerName hprev ih =>
    intro code room1 hg1
    rcases JoinRoom_rooms hg1 with hold | ⟨hcode, room, hg, _, hr1⟩
    · exact ih code room1 hold
    · subst hcode
      refine (ih code room hg).of_grid ?_
      rw [hr1]
      exact (drawN_frame _ _ _).grid
  | leaveRoom roomCode playerName hprev ih =>
    intro code room1 hg1
    rcases LeaveRoom_rooms hg1 with hold | ⟨hcode, room, hg, _, hr1⟩
    · exact ih code room1 hold
    · subst hcode
      refine (ih code room hg).of_grid ?_
      rw [hr1]
      exact (leftRoom_frame room playerName).2.2.2.2.2.2.2.1
  | startGame shuffleW shuffleC roomCode hprev _ _ he ih =>
    intro code room1 hg1
    rcases StartGame_rooms he hg1 with ⟨hold, hne⟩ | ⟨herr, hcode, room, hg, hgrid, _⟩
    · rw [played_update_ne hne]
      exact ih code room1 hold
    · subst hcode
      rw [played_update_eq herr]
      apply CellInv.of_fresh
      intro row col cell hc
      exact cellAt_reset_eq (hprev.inv code room hg).grid hgrid hc
  | submitGuess roomCode playerName row col correct hprev he ih =>
    intro code room1 hg1
    rcases SubmitGuess_rooms he hg1 with
      ⟨hold, hne⟩ | ⟨hres, hcode, room, grid, hg, _, _, hcard, hgrid, hr1⟩
    · rw [played_update_ne hne]
      exact ih code room1 hold
    · subst hcode
      rw [played_update_eq hres, hr1]
      exact CellInv.cell_guess (hprev.inv code room hg) (ih code room hg) hcard hgrid

/-! ## Registries reached with non-empty names -/

theorem ReachableNamed.reachablePlayed {rooms : Registry} {played : String → List Card}
    (h : ReachableNamed rooms played) : ReachablePlayed rooms played := by
  induction h with
  | empty => exact ReachablePlayed.empty
  | createRoom shuffleW shuffleC roomCode gridSize playerName _ hw hc _ he ih =>
    exact ReachablePlayed.createRoom shuffleW shuffleC roomCode gridSize playerName ih hw hc he
  | joinRoom roomCode playerName _ _ ih => exact ReachablePlayed.joinRoom roomCode playerName ih
  | leaveRoom roomCode playerName _ ih => exact ReachablePlayed.leaveRoom roomCode playerName ih
  | startGame shuffleW shuffleC roomCode _ hw hc he ih =>
    exact ReachablePlayed.startGame shuffleW shuffleC roomCode ih hw hc he
  | submitGuess roomCode playerName row col correct _ he ih =>
    exact ReachablePlayed.submitGuess roomCode playerName row col correct ih he

theorem OpenInv.open_guess {r : Room} {pl : List Card} (hopen : OpenInv r pl)
    {p : String} {row col : Int} {correct over : Bool} {grid : List (List Cell)}
    (hp : p ∈ r.Players)
    (hg : resolveCell r.Grid row col p correct = some grid) :
    OpenInv (guessRoom r p row col grid over) (Card.mk row col :: pl) := by
  obtain ⟨h0, h1, cell0, hat0, hspec⟩ := resolveCell_spec hg
  have hfr := guessRoom_frame r p row col grid over
  have hpne : p ≠ "" := fun hpe => hopen.1 (hpe ▸ hp)
  refine ⟨?_, ?_⟩
  · rw [hfr.2.2.1]
    exact hopen.1
  · intro rr kk cell hc hmem
    rw [hfr.2.2.2.2.2.2.1, hspec rr kk] at hc
    split at hc
    · cases correct with
      | true =>
        simp only [if_true, Option.some.injEq] at hc
        subst hc
        exact Or.inl rfl
      | false =>
        simp only [Bool.false_eq_true, if_false, Option.some.injEq] at hc
        subst hc
        exact Or.inr hpne
    · rename_i hrk
      rcases List.mem_cons.1 hmem with heq | hin
      · exfalso
        apply hrk
        have hr : (rr : Int) = row := congrArg Card.Row heq
        have hk : (kk : Int) = col := congrArg Card.Column heq
        constructor
        · rw [← hr, Int.toNat_ofNat]
        · rw [← hk, Int.toNat_ofNat]
      · exact hopen.2 rr kk cell hc hin

/-- Every room of a registry reached with non-empty names satisfies the name invariant. -/
theorem ReachableNamed.openInv {rooms : Registry} {played : String → List Card}
    (h : ReachableNamed rooms played) :
    ∀ code room, mapGet rooms code = some room → OpenInv room (played code) := by
  induction h with
  | empty =>
    intro code room hg
    cases hg
  | createRoom shuffleW shuffleC roomCode gridSize playerName hprev _ _ hname he ih =>
    intro code room1 hg1
    rcases CreateRoom_rooms he hg1 with ⟨hold, hne⟩ | ⟨hres, hcode, _, _, hpl⟩
    · rw [played_update_ne hne]
      exact ih code room1 hold
    · subst hcode
      rw [played_update_eq hres]
      refine ⟨?_, fun _ _ _ _ hmem => absurd hmem (List.not_mem_nil _)⟩
      rw [hpl]
      intro hmem
      exact hname (List.mem_singleton.1 hmem).symm
  | joinRoom roomCode playerName hprev hname ih =>
    intro code room1 hg1
    rcases JoinRoom_rooms hg1 with hold | ⟨hcode, room, hg, _, hr1⟩
    · exact ih code room1 hold
    · subst hcode
      have hf := drawN_frame (Room.setHand { room with Players := room.Players ++ [playerName] }
        playerName []) playerName (Room.setHand { room with
          Players := room.Players ++ [playerName] } playerName []).GetCardsPerPlayer
      have hold := ih code room hg
      rw [hr1]
      refine ⟨?_, ?_⟩
      · rw [hf.players]
        intro hmem
        rcases List.mem_append.1 hmem with hm | hm
        · exact hold.1 hm
        · exact hname (List.mem_singleton.1 hm).symm
      · intro row col cell hc hmem
        rw [hf.grid] at hc
        exact hold.2 row col cell hc hmem
  | leaveRoom roomCode playerName hprev ih =>
    intro code room1 hg1
    rcases LeaveRoom_rooms hg1 with hold | ⟨hcode, room, hg, _, hr1⟩
    · exact ih code room1 hold
    · subst hcode
      have hf := leftRoom_frame room playerName
      have hold := ih code room hg
      rw [hr1]
      refine ⟨?_, ?_⟩
      · rw [hf.2.2.1]
        exact fun hmem => hold.1 (List.mem_of_mem_erase hmem)
      · intro row col cell hc hmem
        rw [hf.2.2.2.2.2.2.2.1] at hc
        exact hold.2 row col cell hc hmem
  | startGame shuffleW shuffleC roomCode hprev _ _ he ih =>
    intro code room1 hg1
    rcases StartGame_rooms he hg1 with ⟨hold, hne⟩ | ⟨herr, hcode, room, hg, _, hpl⟩
    · rw [played_update_ne hne]
      exact ih code room1 hold
    · subst hcode
      rw [played_update_eq herr]
      refine ⟨?_, fun _ _ _ _ hmem => absurd hmem (List.not_mem_nil _)⟩
      rw [hpl]
      exact (ih code room hg).1
  | submitGuess roomCode playerName row col correct hprev he ih =>
    intro code room1 hg1
    rcases SubmitGuess_rooms he hg1 with
      ⟨hold, hne⟩ | ⟨hres, hcode, room, grid, hg, _, hp, _, hgrid, hr1⟩
    · rw [played_update_ne hne]
      exact ih code room1 hold
    · subst hcode
      rw [played_update_eq hres, hr1]
      exact OpenInv.open_guess (ih code room hg) hp hgrid

/-! ## Played cards stay out of circulation -/

theorem RoomInv.joined {r : Room} {pl : List Card} (h : RoomInv r pl) {p : String}
    (hp : p ∉ r.Players) :
    RoomInv (CrossClues.drawN (Room.setHand { r with Players := r.Players ++ [p] } p []) p
      (Room.setHand { r with Players := r.Players ++ [p] } p []).GetCardsPerPlayer) pl :=
  (h.addPlayer hp).drawN (List.mem_append_right _ (List.mem_singleton_self p)) _

theorem RoomInv.left {r : Room} {pl : List Card} (h : RoomInv r pl) {p : String}
    (hp : p ∈ r.Players) : RoomInv (leftRoom r p) pl := by
  have hk : (mapGet r.PlayerHands p).isSome := (mapGet_isSome_iff _ _).2 (h.mem_keys hp)
  unfold leftRoom
  cases hc : mapGet r.PlayerHands p with
  | none => simp [hc] at hk
  | some cards => exact h.removePlayer hc

theorem RoomInv.guessed {r : Room} {pl : List Card} (h : RoomInv r pl) {p : String}
    {row col : Int} {correct : Bool} (over : Bool) {grid : List (List Cell)}
    (hp : p ∈ r.Players) (hcard : Card.mk row col ∈ r.hand p) (hst : r.GameStarted = true)
    (hg : resolveCell r.Grid row col p correct = some grid) :
    RoomInv (guessRoom r p row col grid over) (Card.mk row col :: pl) := by
  have hrm := RemoveCardFromHand_of_mem r p row col hcard
  have hg1 : resolveCell (r.RemoveCardFromHand p row col).1.Grid row col p correct =
      some grid := by
    rw [hrm]
    exact hg
  have := @RoomInv.guess r pl h p row col correct over grid hp hcard hst hg1
  rw [hrm] at this
  exact this

theorem IsPlayed.past_createRoom {rooms rooms1 : Registry} {code : String} {card : Card}
    {res : Option Room × Option GameError} (h : IsPlayed rooms code card)
    (shuffleW : List String → List String) (shuffleC : List Card → List Card)
    (roomCode : String) (gridSize : Int) (playerName : String)
    (he : CreateRoom shuffleW shuffleC rooms roomCode gridSize playerName = some (rooms1, res)) :
    IsPlayed rooms1 code card := by
  obtain ⟨room, pl, hg, hinv, hmem⟩ := h
  exact ⟨room, pl, CreateRoom_get he hg, hinv, hmem⟩

theorem IsPlayed.past_startGame {rooms rooms1 : Registry} {code : String} {card : Card}
    {err : Option GameError} (h : IsPlayed rooms code card)
    (shuffleW : List String → List String) (shuffleC : List Card → List Card)
    (roomCode : String) (hne : roomCode ≠ code)
    (he : StartGame shuffleW shuffleC rooms roomCode = some (rooms1, err)) :
    IsPlayed rooms1 code card := by
  obtain ⟨room, pl, hg, hinv, hmem⟩ := h
  exact ⟨room, pl, StartGame_get_ne he hne hg, hinv, hmem⟩

theorem IsPlayed.past_joinRoom {rooms : Registry} {code : String} {card : Card}
    (h : IsPlayed rooms code card) (roomCode playerName : String) :
    IsPlayed (JoinRoom rooms roomCode playerName).1 code card := by
  obtain ⟨room, pl, hg, hinv, hmem⟩ := h
  cases hgc : mapGet rooms roomCode with
  | none =>
    have : JoinRoom rooms roomCode playerName = (rooms, 0, some GameError.ErrRoomNotFound) := by
      simp [JoinRoom, hgc]
    rw [this]
    exact ⟨room, pl, hg, hinv, hmem⟩
  | some roomc =>
    by_cases hp : roomc.HasPlayer playerName = true
    · have : JoinRoom rooms roomCode playerName =
          (rooms, 0, some GameError.ErrPlayerExists) := by
        simp [JoinRoom, hgc, hp]
      rw [this]
      exact ⟨room, pl, hg, hinv, hmem⟩
    · have hnone : (JoinRoom rooms roomCode playerName).2.2 = none := by
        simp [JoinRoom, hgc, hp]
      obtain ⟨hnot, hj⟩ := JoinRoom_success hgc hnone
      rw [hj]
      by_cases hc : code = roomCode
      · subst hc
        rw [hg] at hgc
        cases hgc
        exact ⟨_, pl, mapGet_mapSet_self _ _ _, hinv.joined hnot, hmem⟩
      · exact ⟨room, pl, by rw [mapGet_mapSet_ne _ _ _ _ hc]; exact hg, hinv, hmem⟩

theorem IsPlayed.past_leaveRoom {rooms : Registry} {code : String} {card : Card}
    (h : IsPlayed rooms code card) (roomCode playerName : String) :
    IsPlayed (LeaveRoom rooms roomCode playerName).1 code card := by
  obtain ⟨room, pl, hg, hinv, hmem⟩ := h
  cases hgc : mapGet rooms roomCode with
  | none =>
    have : LeaveRoom rooms roomCode playerName = (rooms, some GameError.ErrRoomNotFound) := by
      simp [LeaveRoom, hgc]
    rw [this]
    exact ⟨room, pl, hg, hinv, hmem⟩
  | some roomc =>
    by_cases hp : playerName ∈ roomc.Players
    · rw [LeaveRoom_of_member hgc hp]
      by_cases hc : code = roomCode
      · subst hc
        rw [hg] at hgc
        cases hgc
        exact ⟨_, pl, mapGet_mapSet_self _ _ _, hinv.left hp, hmem⟩
      · exact ⟨room, pl, by rw [mapGet_mapSet_ne _ _ _ _ hc]; exact hg, hinv, hmem⟩
    · have h1 : roomc.HasPlayer playerName = false := by
        rw [← Bool.not_eq_true, HasPlayer_iff]
        exact hp
      have : LeaveRoom rooms roomCode playerName =
          (rooms, some GameError.ErrPlayerNotFound) := by
        simp [LeaveRoom, hgc, h1]
      rw [this]
      exact ⟨room, pl, hg, hinv, hmem⟩

theorem IsPlayed.past_submitGuess {rooms rooms1 : Registry} {code : String} {card : Card}
    {res : Bool × Option GameError} (h : IsPlayed rooms code card)
    (roomCode playerName : String) (row col : Int) (correct : Bool)
    (he : SubmitGuess rooms roomCode playerName row col correct = some (rooms1, res)) :
    IsPlayed rooms1 code card := by
  obtain ⟨room, pl, hg, hinv, hmem⟩ := h
  obtain ⟨over, err⟩ := res
  cases err with
  | some e =>
    rw [(SubmitGuess_error_inv he).2.1]
    exact ⟨room, pl, hg, hinv, hmem⟩
  | none =>
    obtain ⟨roomc, grid, hgc, hst, _, hp, hcard, hgrid, _, hr1⟩ := SubmitGuess_success he
    rw [hr1]
    by_cases hc : code = roomCode
    · subst hc
      rw [hg] at hgc
      cases hgc
      exact ⟨_, Card.mk row col :: pl, mapGet_mapSet_self _ _ _,
        hinv.guessed over hp hcard hst hgrid, List.mem_cons_of_mem _ hmem⟩
    · exact ⟨room, pl, by rw [mapGet_mapSet_ne _ _ _ _ hc]; exact hg, hinv, hmem⟩

/-- A played card stays played until the next `StartGame` of its room. -/
theorem IsPlayed.until_start {rooms rooms2 : Registry} {code : String} {card : Card}
    (h : IsPlayed rooms code card) (hr : ReachableWithoutStart code rooms rooms2) :
    IsPlayed rooms2 code card := by
  induction hr with
  | refl => exact h
  | createRoom shuffleW shuffleC roomCode gridSize playerName _ he ih =>
    exact ih.past_createRoom shuffleW shuffleC roomCode gridSize playerName he
  | joinRoom roomCode playerName _ ih => exact ih.past_joinRoom roomCode playerName
  | leaveRoom roomCode playerName _ ih => exact ih.past_leaveRoom roomCode playerName
  | startGame shuffleW shuffleC roomCode hne _ he ih =>
    exact ih.past_startGame shuffleW shuffleC roomCode hne he
  | submitGuess roomCode playerName row col correct _ he ih =>
    exact ih.past_submitGuess roomCode playerName row col correct he

theorem RoomInv.circulation_nodup {r : Room} {pl : List Card} (h : RoomInv r pl) :
    r.circulation.Nodup :=
  (List.nodup_append.1 (h.cards.nodup_iff.2 (allCards_nodup _))).1

theorem RoomInv.not_mem_circulation {r : Room} {pl : List Card} (h : RoomInv r pl) {c : Card}
    (hc : c ∈ pl) : c ∉ r.circulation :=
  fun hin => (List.nodup_append.1 (h.cards.nodup_iff.2 (allCards_nodup _))).2.2 hin hc

theorem RoomInv.hands_disjoint {r : Room} {pl : List Card} (h : RoomInv r pl) {p q : String}
    (hpq : p ≠ q) {c : Card} (hp : c ∈ r.hand p) : c ∉ r.hand q := by
  intro hq
  have hpm : p ∈ r.Players := by
    by_contra hn
    rw [hand_eq_nil_of_not_mem r p (by rw [h.keys]; exact hn)] at hp
    cases hp
  have hqm : q ∈ r.Players := by
    by_contra hn
    rw [hand_eq_nil_of_not_mem r q (by rw [h.keys]; exact hn)] at hq
    cases hq
  have hnd : (r.Players.flatMap r.hand).Nodup := by
    rw [← allHands_eq_flatMap r h.keys h.nodup]
    exact (List.nodup_append.1 h.circulation_nodup).2.1
  have hpw := (List.nodup_flatMap.1 hnd).2
  have hdis := List.Pairwise.forall
    (fun x y (hxy : Function.onFun List.Disjoint r.hand x y) => hxy.symm) hpw hpm hqm hpq
  exact hdis hp hq

/-! ## Single ownership of cards -/

/-- C25: in every reachable registry the deck followed by all hands of a room holds no card
twice: the deck and each hand are duplicate-free, a card of a hand is not in the deck, and
no card is in the hands of two players; after a successful `SubmitGuess` on `(row, col)` the
card `(row, col)` is neither in the deck nor in a hand of the room, in the registry after the
call and in every registry reached from it through calls of `CreateRoom`, `JoinRoom`,
`LeaveRoom`, `SubmitGuess`, and `StartGame` of other rooms. -/
theorem C25_single_ownership (rooms : Registry) (hreach : Reachable rooms) :
    (∀ code room, mapGet rooms code = some room →
      (room.CardDeck ++ room.allHands).Nodup ∧ room.CardDeck.Nodup ∧
      (∀ p, (room.hand p).Nodup) ∧
      (∀ p c, c ∈ room.hand p → c ∉ room.CardDeck) ∧
      (∀ p q c, p ≠ q → c ∈ room.hand p → c ∉ room.hand q)) ∧
    (∀ code p row col correct rooms1 over,
      SubmitGuess rooms code p row col correct = some (rooms1, over, none) →
      ∀ rooms2, ReachableWithoutStart code rooms1 rooms2 →
        ∃ room2, mapGet rooms2 code = some room2 ∧ Card.mk row col ∉ room2.CardDeck ∧
          Card.mk row col ∉ room2.allHands ∧ ∀ q, Card.mk row col ∉ room2.hand q) := by
  obtain ⟨played, hrp⟩ := hreach.played
  constructor
  · intro code room hg
    have hinv := hrp.inv code room hg
    have hnd := hinv.circulation_nodup
    have hnd1 := List.nodup_append.1 hnd
    refine ⟨hnd, hnd1.1, ?_, ?_, ?_⟩
    · intro p
      by_cases hp : p ∈ room.Players
      · have hfl : (room.Players.flatMap room.hand).Nodup := by
          rw [← allHands_eq_flatMap room hinv.keys hinv.nodup]
          exact hnd1.2.1
        exact (List.nodup_flatMap.1 hfl).1 p hp
      · rw [hand_eq_nil_of_not_mem room p (by rw [hinv.keys]; exact hp)]
        exact List.nodup_nil
    · intro p c hc hdeck
      have hall : c ∈ room.allHands := by
        have := mem_circulation_of_mem_hand hc
        by_cases hp : p ∈ room.Players
        · rw [allHands_eq_flatMap room hinv.keys hinv.nodup]
          exact List.mem_flatMap.2 ⟨p, hp, hc⟩
        · rw [hand_eq_nil_of_not_mem room p (by rw [hinv.keys]; exact hp)] at hc
          cases hc
      exact hnd1.2.2 hdeck hall
    · intro p q c hpq hc
      exact hinv.hands_disjoint hpq hc
  · intro code p row col correct rooms1 over he rooms2 hlater
    obtain ⟨room, grid, hg, hst, _, hp, hcard, hgrid, _, hr1⟩ := SubmitGuess_success he
    have hinv := hrp.inv code room hg
    have hplayed : IsPlayed rooms1 code (Card.mk row col) :=
      ⟨guessRoom room p row col grid over, Card.mk row col :: played code,
        by rw [hr1, mapGet_mapSet_self], hinv.guessed over hp hcard hst hgrid,
        List.mem_cons_self _ _⟩
    obtain ⟨room2, pl2, hg2, hinv2, hmem2⟩ := hplayed.until_start hlater
    have hno := hinv2.not_mem_circulation hmem2
    exact ⟨room2, hg2, fun hd => hno (List.mem_append_left _ hd),
      fun ha => hno (List.mem_append_right _ ha),
      fun q hq => hno (mem_circulation_of_mem_hand hq)⟩

/-- Witness of `C25_single_ownership`: the started example room, in which `"A"` holds the
card `(0, 0)`. -/
theorem C25_single_ownership_witness :
    (∀ code room, mapGet exRooms2 code = some room →
      (room.CardDeck ++ room.allHands).Nodup ∧ room.CardDeck.Nodup ∧
      (∀ p, (room.hand p).Nodup) ∧
      (∀ p c, c ∈ room.hand p → c ∉ room.CardDeck) ∧
      (∀ p q c, p ≠ q → c ∈ room.hand p → c ∉ room.hand q)) ∧
    (∀ code p row col correct rooms1 over,
      SubmitGuess exRooms2 code p row col correct = some (rooms1, over, none) →
      ∀ rooms2, ReachableWithoutStart code rooms1 rooms2 →
        ∃ room2, mapGet rooms2 code = some room2 ∧ Card.mk row col ∉ room2.CardDeck ∧
          Card.mk row col ∉ room2.allHands ∧ ∀ q, Card.mk row col ∉ room2.hand q) :=
  C25_single_ownership exRooms2 exRooms2_reachablePlayed.reachable

/-! ## A cell settles at most once -/

/-- C26: in every reachable registry no cell of a room is both guessed correctly and
discarded, and for a resolved cell `(row, col)` no player holds the card `(row, col)` and
every `SubmitGuess` on it returns an error and leaves the registry unchanged. -/
theorem C26_cell_settles_once (rooms : Registry) (code : String) (room : Room)
    (hreach : Reachable rooms) (hg : mapGet rooms code = some room) :
    (∀ (row col : Nat) (cell : Cell), cellAt room.Grid row col = some cell →
      ¬ (cell.GuessedCorrectly = true ∧ cell.DiscardedBy ≠ "")) ∧
    (∀ (row col : Int) (cell : Cell), room.cell row col = some cell → cell.Resolved →
      (∀ q, Card.mk row col ∉ room.hand q) ∧
      ∀ (p : String) (correct : Bool), ∃ e,
        SubmitGuess rooms code p row col correct = some (rooms, false, some e)) := by
  obtain ⟨played, hrp⟩ := hreach.played
  have hinv := hrp.inv code room hg
  have hcell := hrp.cellInv code room hg
  refine ⟨fun row col cell hc => (hcell row col cell hc).2, ?_⟩
  intro row col cell hc hres
  unfold Room.cell at hc
  split at hc
  · cases hc
  · rename_i hneg
    have h0 : 0 ≤ row := by omega
    have h1 : 0 ≤ col := by omega
    have hpl : Card.mk row col ∈ played code := by
      have := (hcell _ _ cell hc).1 hres
      rwa [Int.toNat_of_nonneg h0, Int.toNat_of_nonneg h1] at this
    have hno := hinv.not_mem_circulation hpl
    refine ⟨fun q hq => hno (mem_circulation_of_mem_hand hq), ?_⟩
    intro p correct
    cases herr : submitGuessError rooms code p row col with
    | none =>
      obtain ⟨room0, hg0, _, _, _, hcard⟩ := submitGuessError_eq_none herr
      rw [hg] at hg0
      cases hg0
      exact absurd (mem_circulation_of_mem_hand hcard) hno
    | some e => exact ⟨e, SubmitGuess_of_error correct herr⟩

/-- Witness of `C26_cell_settles_once`: the example room after the guess on `(0, 0)`. -/
theorem C26_cell_settles_once_witness :
    (∀ (row col : Nat) (cell : Cell), cellAt (exRoom exRooms3).Grid row col = some cell →
      ¬ (cell.GuessedCorrectly = true ∧ cell.DiscardedBy ≠ "")) ∧
    (∀ (row col : Int) (cell : Cell), (exRoom exRooms3).cell row col = some cell →
      cell.Resolved →
      (∀ q, Card.mk row col ∉ (exRoom exRooms3).hand q) ∧
      ∀ (p : String) (correct : Bool), ∃ e,
        SubmitGuess exRooms3 "R1" p row col correct = some (exRooms3, false, some e)) :=
  C26_cell_settles_once exRooms3 "R1" (exRoom exRooms3) exRooms3_reachablePlayed.reachable
    exRooms3_get

/-! ## Guesses of the player with the empty name -/

theorem CheckGameOver_eq_some_iff {r : Room} {over : Bool} (h : r.CheckGameOver = some over) :
    over = true ↔
      ∀ row col : Nat, row < r.GridSize.toNat → col < r.GridSize.toNat →
        ∃ cell, cellAt r.Grid row col = some cell ∧ cell.Resolved := by
  unfold Room.CheckGameOver at h
  constructor
  · intro ho row col hr hc
    rw [ho, checkCells_eq_true_iff] at h
    exact h (row, col) ((mem_gridCoords _ _ _).2 ⟨hr, hc⟩)
  · intro hall
    have : checkCells r.Grid (gridCoords r.GridSize.toNat) = some true := by
      rw [checkCells_eq_true_iff]
      rintro ⟨row, col⟩ hrc
      obtain ⟨hr, hc⟩ := (mem_gridCoords _ _ _).1 hrc
      exact hall row col hr hc
    rw [this] at h
    simpa using h.symm

theorem exLast2_reachable : Reachable exLast2 := by
  have h0 : CreateRoom id id [] "R1" 1 "" = some (exLast0, some (exRoom exLast0), none) := by
    decide
  have h2 : StartGame id id (JoinRoom exLast0 "R1" "B").1 "R1" = some (exLast2, none) := by
    decide
  exact Reachable.startGame id id "R1"
    (Reachable.joinRoom "R1" "B"
      (Reachable.createRoom id id "R1" 1 "" Reachable.empty isShuffle_id isShuffle_id h0))
    isShuffle_id isShuffle_id h2

/-- C29, refuted as stated: in the started 1-by-1 room created by the player with the empty
name, the discard `SubmitGuess("R1", "", 0, 0, false)` of the only cell succeeds, the cell
is still unresolved afterwards, and the call returns `gameOver = false`. -/
theorem C29_counterexample :
    Reachable exLast2 ∧ mapGet exLast2 "R1" = some (exRoom exLast2) ∧
      (exRoom exLast2).GridSize = 1 ∧
      (exRoom exLast2).cell 0 0 = some (Cell.mk false "") ∧
      SubmitGuess exLast2 "R1" "" 0 0 false = some (exLast3, false, none) ∧
      mapGet exLast3 "R1" = some (exRoom exLast3) ∧
      (exRoom exLast3).cell 0 0 = some (Cell.mk false "") ∧
      ¬ (Cell.mk false "").Resolved := by
  exact ⟨exLast2_reachable, by decide, by decide, by decide, by decide, by decide, by decide,
    not_resolved_fresh⟩

/-- C29, amended: after a successful `SubmitGuess` on `(row, col)` with `correct = true` or
with a non-empty player name, the cell `(row, col)` is resolved, and if every other cell of
the grid was resolved before the call, the call returns `gameOver = true`. -/
theorem C29_guess_settles_cell (rooms rooms1 : Registry) (code p : String) (row col : Int)
    (correct over : Bool) (room : Room)
    (h : SubmitGuess rooms code p row col correct = some (rooms1, over, none))
    (hg : mapGet rooms code = some room) (hres : correct = true ∨ p ≠ "") :
    ∃ room1 cell, mapGet rooms1 code = some room1 ∧ room1.cell row col = some cell ∧
      cell.Resolved ∧
      ((∀ r c : Nat, r < room.GridSize.toNat → c < room.GridSize.toNat →
          ((r : Int) ≠ row ∨ (c : Int) ≠ col) →
          ∃ cell0, cellAt room.Grid r c = some cell0 ∧ cell0.Resolved) → over = true) := by
  obtain ⟨room0, grid, hg0, _, _, _, _, hgrid, hover, hr1⟩ := SubmitGuess_success h
  rw [hg] at hg0
  cases hg0
  obtain ⟨_, hgs, _, _, _, _, hgr, _⟩ := guessRoom_frame room p row col grid over
  obtain ⟨hrow, hcol, cell0, hcell0, hcells⟩ := resolveCell_spec hgrid
  have hnew : (if correct then { cell0 with GuessedCorrectly := true }
      else { cell0 with DiscardedBy := p }).Resolved := by
    cases correct with
    | true => exact Or.inl rfl
    | false =>
      rcases hres with hres | hres
      · cases hres
      · exact Or.inr hres
  refine ⟨guessRoom room p row col grid over, _, by rw [hr1, mapGet_mapSet_self], ?_, hnew, ?_⟩
  · unfold Room.cell
    have hneg : ¬ (row < 0 ∨ col < 0) := by omega
    rw [if_neg hneg, hgr, hcells]
    simp only [and_self, if_true]
  · intro hothers
    rw [CheckGameOver_eq_some_iff hover, hgs, hgr]
    intro r c hr hc
    rw [hcells]
    by_cases hrc : r = row.toNat ∧ c = col.toNat
    · rw [if_pos hrc]
      exact ⟨_, rfl, hnew⟩
    · rw [if_neg hrc]
      exact hothers r c hr hc (by omega)

/-- Witness of `C29_guess_settles_cell`: the discard of `"A"` on the only cell of the started
1-by-1 room resolves the cell and ends the game. -/
theorem C29_guess_settles_cell_witness :
    ∃ room1 cell, mapGet exOverDiscard "R1" = some room1 ∧ room1.cell 0 0 = some cell ∧
      cell.Resolved ∧
      ((∀ r c : Nat, r < (exRoom exOver2).GridSize.toNat →
          c < (exRoom exOver2).GridSize.toNat → ((r : Int) ≠ 0 ∨ (c : Int) ≠ 0) →
          ∃ cell0, cellAt (exRoom exOver2).Grid r c = some cell0 ∧ cell0.Resolved) →
        true = true) :=
  C29_guess_settles_cell exOver2 exOverDiscard "R1" "A" 0 0 false true (exRoom exOver2)
    (by decide) (by decide) (Or.inr (by decide))

/-! ## Cards in circulation and open cells -/

theorem mem_circulation_iff {r : Room} {pl : List Card} (h : RoomInv r pl) (c : Card) :
    c ∈ r.circulation ↔ c ∈ r.CardDeck ∨ ∃ q, c ∈ r.hand q := by
  constructor
  · intro hc
    rcases List.mem_append.1 hc with hd | ha
    · exact Or.inl hd
    · rw [allHands_eq_flatMap r h.keys h.nodup] at ha
      obtain ⟨q, _, hq⟩ := List.mem_flatMap.1 ha
      exact Or.inr ⟨q, hq⟩
  · rintro (hd | ⟨q, hq⟩)
    · exact List.mem_append_left _ hd
    · exact mem_circulation_of_mem_hand hq

/-- In a room with the three invariants the cards in circulation are the unresolved cells. -/
theorem mem_circulation_iff_open {r : Room} {pl : List Card} (hinv : RoomInv r pl)
    (hcell : CellInv r pl) (hopen : OpenInv r pl) (c : Card) :
    c ∈ r.circulation ↔ ∃ cell, r.cell c.Row c.Column = some cell ∧ ¬ cell.Resolved := by
  constructor
  · intro hc
    obtain ⟨h0, h1, h2, h3⟩ := hinv.card_in_range hc
    have hr : c.Row.toNat < r.GridSize.toNat := by omega
    have hk : c.Column.toNat < r.GridSize.toNat := by omega
    obtain ⟨cell, hat⟩ := cellAt_of_dims hinv.grid hr hk
    refine ⟨cell, ?_, not_resolved_of_mem_circulation hinv hcell hc hat⟩
    unfold Room.cell
    rw [if_neg (by omega)]
    exact hat
  · rintro ⟨cell, hat, hres⟩
    unfold Room.cell at hat
    split at hat
    · cases hat
    · rename_i hneg
      have h0 : 0 ≤ c.Row := by omega
      have h2 : 0 ≤ c.Column := by omega
      obtain ⟨hr, hk⟩ := cellAt_eq_some_lt hinv.grid hat
      have hall : c ∈ allCards r.GridSize := by
        rw [mem_allCards]
        refine ⟨h0, ?_, h2, ?_⟩ <;> omega
      rcases List.mem_append.1 (hinv.cards.symm.subset hall) with hc | hp
      · exact hc
      · exfalso
        apply hres
        apply hopen.2 _ _ cell hat
        rw [Int.toNat_of_nonneg h0, Int.toNat_of_nonneg h2]
        exact hp

/-- In a room with the three invariants every cell is resolved exactly when no card is left
in the deck and the hands. -/
theorem all_resolved_iff_empty {r : Room} {pl : List Card} (hinv : RoomInv r pl)
    (hcell : CellInv r pl) (hopen : OpenInv r pl) :
    (∀ row col : Nat, row < r.GridSize.toNat → col < r.GridSize.toNat →
        ∃ cell, cellAt r.Grid row col = some cell ∧ cell.Resolved) ↔
      r.CardDeck = [] ∧ ∀ q, r.hand q = [] := by
  constructor
  · intro hall
    have hnone : ∀ c, c ∉ r.circulation := by
      intro c hc
      obtain ⟨h0, h1, h2, h3⟩ := hinv.card_in_range hc
      have hr : c.Row.toNat < r.GridSize.toNat := by omega
      have hk : c.Column.toNat < r.GridSize.toNat := by omega
      obtain ⟨cell, hat, hres⟩ := hall _ _ hr hk
      exact not_resolved_of_mem_circulation hinv hcell hc hat hres
    constructor
    · exact List.eq_nil_iff_forall_not_mem.2 fun c hc => hnone c (List.mem_append_left _ hc)
    · intro q
      exact List.eq_nil_iff_forall_not_mem.2 fun c hc =>
        hnone c (mem_circulation_of_mem_hand hc)
  · rintro ⟨hdeck, hhands⟩ row col hr hk
    obtain ⟨cell, hat⟩ := cellAt_of_dims hinv.grid hr hk
    refine ⟨cell, hat, ?_⟩
    by_contra hres
    have hc : Card.mk (row : Int) (col : Int) ∈ r.circulation := by
      rw [mem_circulation_iff_open hinv hcell hopen]
      refine ⟨cell, ?_, hres⟩
      unfold Room.cell
      rw [if_neg (by simp)]
      simpa using hat
    rcases (mem_circulation_iff hinv _).1 hc with hd | ⟨q, hq⟩
    · rw [hdeck] at hd
      cases hd
    · rw [hhands q] at hq
      cases hq

theorem exAnon4_reachable : Reachable exAnon4 := by
  have h0 : CreateRoom id id [] "R1" 2 "" = some (exAnon0, some (exRoom exAnon0), none) := by
    decide
  have h2 : StartGame id id (JoinRoom exAnon0 "R1" "B").1 "R1" = some (exAnon2, none) := by
    decide
  have h3 : SubmitGuess exAnon2 "R1" "" 0 0 false = some (exAnon3, false, none) := by decide
  exact Reachable.leaveRoom "R1" ""
    (Reachable.submitGuess "R1" "" 0 0 false
      (Reachable.startGame id id "R1"
        (Reachable.joinRoom "R1" "B"
          (Reachable.createRoom id id "R1" 2 "" Reachable.empty isShuffle_id isShuffle_id h0))
        isShuffle_id isShuffle_id h2) h3)

theorem exRooms3_reachableNamed : ReachableNamed exRooms3 exPlayed :=
  ReachableNamed.submitGuess "R1" "A" 0 0 true
    (ReachableNamed.startGame id id "R1"
      (ReachableNamed.joinRoom "R1" "B"
        (ReachableNamed.createRoom id id "R1" 3 "A" ReachableNamed.empty isShuffle_id
          isShuffle_id (by decide) exRooms0_eq) (by decide))
      isShuffle_id isShuffle_id exRooms2_eq) exRooms3_eq

/-- C30, refuted as stated: after the player with the empty name has created and started a
2-by-2 room with `"B"`, discarded `(0, 0)` and left, the only player of the room is `"B"`,
the cell `(0, 0)` is unresolved, and the card `(0, 0)` is neither in the deck nor in a
hand: the room holds 3 cards for 4 unresolved cells. -/
theorem C30_counterexample :
    Reachable exAnon4 ∧ mapGet exAnon4 "R1" = some (exRoom exAnon4) ∧
      (exRoom exAnon4).Players = ["B"] ∧
      (exRoom exAnon4).cell 0 0 = some (Cell.mk false "") ∧
      ¬ (Cell.mk false "").Resolved ∧
      Card.mk 0 0 ∉ (exRoom exAnon4).CardDeck ++ (exRoom exAnon4).allHands ∧
      ((exRoom exAnon4).CardDeck ++ (exRoom exAnon4).allHands).length = 3 := by
  exact ⟨exAnon4_reachable, by decide, by decide, by decide, not_resolved_fresh, by decide,
    by decide⟩

/-- C30, amended: in every registry reached through calls in which every player name passed
to `CreateRoom` and `JoinRoom` is non-empty, a card is in the deck or in a hand of a room
exactly when its cell is an unresolved cell of the grid, and a successful `SubmitGuess`
returns `gameOver = true` exactly when afterwards the deck and every hand of the room are
empty. -/
theorem C30_circulation_is_open_cells (rooms : Registry) (code : String) (room : Room)
    (hreach : ∃ played, ReachableNamed rooms played) (hg : mapGet rooms code = some room) :
    (∀ c : Card, (c ∈ room.CardDeck ∨ ∃ q, c ∈ room.hand q) ↔
      ∃ cell, room.cell c.Row c.Column = some cell ∧ ¬ cell.Resolved) ∧
    (∀ p row col correct rooms1 over,
      SubmitGuess rooms code p row col correct = some (rooms1, over, none) →
      ∃ room1, mapGet rooms1 code = some room1 ∧
        (over = true ↔ room1.CardDeck = [] ∧ ∀ q, room1.hand q = [])) := by
  obtain ⟨played, hrn⟩ := hreach
  constructor
  · intro c
    have hrp := hrn.reachablePlayed
    rw [← mem_circulation_iff (hrp.inv code room hg)]
    exact mem_circulation_iff_open (hrp.inv code room hg) (hrp.cellInv code room hg)
      (hrn.openInv code room hg) c
  · intro p row col correct rooms1 over he
    have hrn1 := ReachableNamed.submitGuess code p row col correct hrn he
    have hrp1 := hrn1.reachablePlayed
    obtain ⟨room0, grid, _, _, _, _, _, _, hover, hr1⟩ := SubmitGuess_success he
    have hg1 : mapGet rooms1 code = some (guessRoom room0 p row col grid over) := by
      rw [hr1, mapGet_mapSet_self]
    refine ⟨_, hg1, ?_⟩
    rw [CheckGameOver_eq_some_iff hover]
    exact all_resolved_iff_empty (hrp1.inv code _ hg1) (hrp1.cellInv code _ hg1)
      (hrn1.openInv code _ hg1)

/-- Witness of `C30_circulation_is_open_cells`: the example room after the guess on
`(0, 0)`, all names being `"A"` and `"B"`. -/
theorem C30_circulation_is_open_cells_witness :
    (∀ c : Card, (c ∈ (exRoom exRooms3).CardDeck ∨ ∃ q, c ∈ (exRoom exRooms3).hand q) ↔
      ∃ cell, (exRoom exRooms3).cell c.Row c.Column = some cell ∧ ¬ cell.Resolved) ∧
    (∀ p row col correct rooms1 over,
      SubmitGuess exRooms3 "R1" p row col correct = some (rooms1, over, none) →
      ∃ room1, mapGet rooms1 "R1" = some room1 ∧
        (over = true ↔ room1.CardDeck = [] ∧ ∀ q, room1.hand q = [])) :=
  C30_circulation_is_open_cells exRooms3 "R1" (exRoom exRooms3)
    ⟨exPlayed, exRooms3_reachableNamed⟩ exRooms3_get

/-! ## The counters of the state response -/

/-- C31: the state returned by `GetGameState` has `CorrectGuesses = 0` and `TotalCells = 0`,
for every registry, room and player; in a reachable registry the query of a player of the
room does return such a state, with the grid size of the room, whatever its cells. -/
theorem C31_counters_never_computed (rooms : Registry) (code p : String) :
    (∀ rooms1 state err, GetGameState rooms code p = some (rooms1, some state, err) →
      state.CorrectGuesses = 0 ∧ state.TotalCells = 0) ∧
    (Reachable rooms → ∀ room, mapGet rooms code = some room → p ∈ room.Players →
      ∃ state, GetGameState rooms code p = some (rooms, some state, none) ∧
        state.GridSize = room.GridSize ∧
        state.CorrectGuesses = 0 ∧ state.TotalCells = 0) := by
  constructor
  · intro rooms1 state err h
    unfold GetGameState at h
    cases hg : mapGet rooms code with
    | none =>
      simp only [hg, Option.some.injEq, Prod.mk.injEq] at h
      cases h.2.1
    | some room =>
      simp only [hg] at h
      split at h
      · simp only [Option.some.injEq, Prod.mk.injEq] at h
        cases h.2.1
      · split at h
        · cases h
        · cases hout : gridResponse room.Grid p room.GridSize.toNat with
          | none =>
            simp only [hout] at h
            cases h
          | some out =>
            simp only [hout, Option.some.injEq, Prod.mk.injEq] at h
            obtain ⟨_, hs, _⟩ := h
            subst hs
            exact ⟨rfl, rfl⟩
  · intro hreach room hg hp
    obtain ⟨pl, hinv⟩ := hreach.roomInv hg
    have h1 : room.HasPlayer p = true := (HasPlayer_iff room p).2 hp
    have hneg : ¬ room.GridSize < 0 := not_lt.2 hinv.size
    obtain ⟨out, hout⟩ := gridResponse_of_dims hinv.grid p
    unfold GetGameState
    simp only [hg, h1, Bool.not_true, Bool.false_eq_true, if_false, hneg, hout]
    exact ⟨_, rfl, rfl, rfl, rfl⟩

/-- Witness of `C31_counters_never_computed`: in the 3-by-3 example room the cell `(0, 0)` is
guessed correctly, and the state returned to `"A"` still has both counters 0. -/
theorem C31_counters_never_computed_witness :
    (exRoom exRooms3).cell 0 0 = some (Cell.mk true "") ∧
    ∃ state, GetGameState exRooms3 "R1" "A" = some (exRooms3, some state, none) ∧
      state.GridSize = (exRoom exRooms3).GridSize ∧
      state.CorrectGuesses = 0 ∧ state.TotalCells = 0 :=
  ⟨by decide, (C31_counters_never_computed exRooms3 "R1" "A").2
    exRooms3_reachablePlayed.reachable (exRoom exRooms3) exRooms3_get (by decide)⟩

end CrossClues
